import Mathlib


/-!
Verification of the body-graph resolution engine of SimpleEDTerraform.

The definitions below are a shallow embedding of the C++ source:
`src/CelestialBody.h`, `src/EdsmApiClient.cpp` (anonymous namespace helpers)
and `src/SystemModelBuilder.cpp`.  Qt containers are modelled as follows:
`QVector<T>` as `List T`; `QSet<int>` as a duplicate-free `List Int` in
first-insertion order; `QHash<K, V>` as an association list with unique keys
(insert replaces in place, new keys are appended).  The diagnostic sink
(`onDebugInfo` / `qWarning`) is modelled as an accumulated list of `Diag`
events carrying the same data the source formats into its message strings.
`double` fields are carried as `Rat`; no claim computes with them.
-/


/-- Body classification, from `CelestialBody.h` (`CelestialBody::BodyClass`). -/
inductive BodyClass where
  | Unknown
  | Star
  | Planet
  | Moon
  | Barycenter
deriving DecidableEq

/-- From `CelestialBody.h`: `kExternalVirtualBarycenterMarkerId = 0`,
the id of the synthetic "center of the system" body. -/
def kExternalVirtualBarycenterMarkerId : Int := 0

/-- From `CelestialBody.h`: `kVirtualBarycenterRootId = -1000000000`,
the sentinel used when a parent chain runs out of links. -/
def kVirtualBarycenterRootId : Int := -1000000000

/-- From `CelestialBody.h`: `kVirtualBarycenterRootType = "Null"`. -/
def kVirtualBarycenterRootType : String := "Null"

/-- The `CelestialBody` record of `CelestialBody.h`, with the C++ member
initializers as Lean default values. -/
structure CelestialBody where
  id : Int := -1
  parentId : Int := -1
  parentRelationType : String := ""
  name : String := ""
  type : String := ""
  distanceToArrivalLs : Rat := 0
  semiMajorAxisAu : Rat := 0
  physicalRadiusKm : Rat := 0
  orbitsBarycenter : Bool := false
  bodyClass : BodyClass := .Unknown
  children : List Int := []
deriving DecidableEq

/-- One link of a raw parent chain (`struct ParentRef` in `EdsmApiClient.cpp`). -/
structure ParentRef where
  type : String := ""
  bodyId : Int := -1
deriving DecidableEq

/-- Diagnostic events.  The source emits human-readable strings through
`onDebugInfo` or `qWarning`; each constructor records which message was
emitted and the data interpolated into it. -/
inductive Diag where
  | parentsOrderMismatch (bodyId : Int) (selected original : ParentRef)
  | barycenterConflict (barycenterId : Int) (candidates : List ParentRef)
  | unreachableBody (bodyId : Int)
  | selfParent (bodyId : Int)
  | duplicateBody (bodyId : Int)
  | childSelfLinkSkipped (bodyId : Int)
deriving DecidableEq

/-- Character-list prediate: `needle` occurs at the start of `hay`. -/
def charListStartsWith : List Char → List Char → Bool
  | [], _ => true
  | _ :: _, [] => false
  | n :: ns, h :: hs => n == h && charListStartsWith ns hs

/-- Character-list predicate: `needle` occurs contiguously inside `hay`. -/
def charListHasSub (needle : List Char) : List Char → Bool
  | [] => needle.isEmpty
  | h :: hs => charListStartsWith needle (h :: hs) || charListHasSub needle hs

/-- Lower-cased character list of a string (ASCII case folding, as in the
`Qt::CaseInsensitive` comparisons of the source). -/
def lowerChars (s : String) : List Char := s.data.map Char.toLower

/-- Model of `QString::contains(pat, Qt::CaseInsensitive)`. -/
def ciContains (s pat : String) : Bool :=
  charListHasSub (lowerChars pat) (lowerChars s)

/-- Model of `QString::compare(a, b, Qt::CaseInsensitive) == 0`. -/
def eqCI (a b : String) : Bool := lowerChars a == lowerChars b

/-- Whitespace test used by the trimming model. -/
def isSpaceChar (c : Char) : Bool := c == ' ' || c == '\t' || c == '\n' || c == '\r'

/-- Drop leading whitespace from a character list. -/
def dropLeadingSpace : List Char → List Char
  | [] => []
  | c :: cs => if isSpaceChar c then dropLeadingSpace cs else c :: cs

/-- Model of `QString::trimmed`. -/
def strTrim (s : String) : String :=
  ⟨dropLeadingSpace ((dropLeadingSpace s.data.reverse).reverse)⟩

/-- Model of `QSet<int>::contains`. -/
def setContains (s : List Int) (x : Int) : Bool := s.contains x

/-- Model of `QSet<int>::insert` (first-insertion order kept). -/
def setInsert (s : List Int) (x : Int) : List Int :=
  if s.contains x then s else s ++ [x]

/-- From `EdsmApiClient.cpp`: `normalizeParentType` (trims the text). -/
def normalizeParentType (t : String) : String := strTrim t

/-- From `EdsmApiClient.cpp`: `isBarycenterRef` — the relation text contains
"Null" or "Bary", case-insensitively. -/
def isBarycenterRef (t : String) : Bool :=
  ciContains t "Null" || ciContains t "Bary"

/-- From `EdsmApiClient.cpp`: `isVirtualRootRef` — the reference is the
virtual barycenter root sentinel. -/
def isVirtualRootRef (r : ParentRef) : Bool :=
  r.bodyId == kVirtualBarycenterRootId && eqCI r.type kVirtualBarycenterRootType

/-- From `EdsmApiClient.cpp`: `normalizeParentRef`. -/
def normalizeParentRef (r : ParentRef) : ParentRef :=
  { type := normalizeParentType r.type, bodyId := r.bodyId }

/-- From `EdsmApiClient.cpp`: `parentRefKey` — lower-cased type, colon, id. -/
def parentRefKey (r : ParentRef) : String :=
  (⟨lowerChars r.type⟩ : String) ++ ":" ++ toString r.bodyId

/-- The synthetic "System Center" body built by `ensureCentralRootBody`. -/
def systemCenterRootBody : CelestialBody :=
  { id := kExternalVirtualBarycenterMarkerId
    name := "System Center"
    type := "Null"
    bodyClass := .Unknown
    parentId := -1
    parentRelationType := ""
    orbitsBarycenter := false
    distanceToArrivalLs := 0
    semiMajorAxisAu := 0
    physicalRadiusKm := 0 }

/-- From `EdsmApiClient.cpp` lines 683-704: `ensureCentralRootBody`.
If some body already carries the marker id the list is returned unchanged,
otherwise the synthetic root is appended. -/
def ensureCentralRootBody (bodies : List CelestialBody) : List CelestialBody :=
  if bodies.any (fun b => b.id == kExternalVirtualBarycenterMarkerId) then bodies
  else bodies ++ [systemCenterRootBody]

/-- The `knownIds` set built at the top of `attachDetachedBodiesToCenterRoot`:
all ids `>= 0` present in the list, in first-insertion order. -/
def knownBodyIds (bodies : List CelestialBody) : List Int :=
  bodies.foldl (fun s b => if 0 ≤ b.id then setInsert s b.id else s) []

/-- From `EdsmApiClient.cpp` lines 706-726: `attachDetachedBodiesToCenterRoot`.
Every body other than the marker-id body whose parent is negative or unknown
is re-parented onto the marker id with relation "Null". -/
def attachDetachedBodiesToCenterRoot (bodies : List CelestialBody) : List CelestialBody :=
  let knownIds := knownBodyIds bodies
  bodies.map (fun b =>
    if b.id == kExternalVirtualBarycenterMarkerId then b
    else if b.parentId < 0 || !setContains knownIds b.parentId then
      { b with parentId := kExternalVirtualBarycenterMarkerId
               parentRelationType := "Null"
               orbitsBarycenter := true }
    else b)

/-- A real provider body that happens to carry id 0, the reserved
virtual-root id (EDSM main stars have `bodyId` 0). -/
def c7RealStarZero : CelestialBody :=
  { id := 0, name := "Real Star", type := "Star", bodyClass := .Star }

/-- The re-parenting applied by `attachDetachedBodiesToCenterRoot` to a
detached body. -/
def reparentedToCenterRoot (b : CelestialBody) : CelestialBody :=
  { b with parentId := kExternalVirtualBarycenterMarkerId
           parentRelationType := "Null"
           orbitsBarycenter := true }

/-- Input for the C3 counterexample: a real body carries the virtual-root
id 0 and sits in a two-cycle with body 5. -/
def c3BodyZero : CelestialBody :=
  { id := 0, parentId := 5, parentRelationType := "Star", bodyClass := .Star }

/-- Second body of the C3 counterexample. -/
def c3BodyFive : CelestialBody :=
  { id := 5, parentId := 0, parentRelationType := "Null", orbitsBarycenter := true }

/-- Lookup in a `QHash<int, QVector<ParentRef>>`, defaulting to the empty
chain (`QHash::value`). -/
def parentsLookup (parents : List (Int × List ParentRef)) (bodyId : Int) : List ParentRef :=
  ((parents.find? (fun e => e.1 == bodyId)).map (fun e => e.2)).getD []

/-- The skip condition of the scan loop in `synthesizeMissingBarycenters`
(`EdsmApiClient.cpp` lines 656-663): a chain link is ignored unless its type
contains "Null", its id is not the virtual-root sentinel, its id is
non-negative, and its id is not an existing body id. -/
def missingNullRefSkip (existing : List Int) (r : ParentRef) : Bool :=
  !ciContains (normalizeParentRef r).type "Null"
  || (normalizeParentRef r).bodyId == kVirtualBarycenterRootId
  || decide ((normalizeParentRef r).bodyId < 0)
  || setContains existing (normalizeParentRef r).bodyId

/-- The `missingBarycenterIds` set built by `synthesizeMissingBarycenters`.
`knownBodyIds` is reused for the `existingBodyIds` loop of the source, which
is textually identical to the `knownIds` loop of
`attachDetachedBodiesToCenterRoot`. -/
def missingBarycenterIds (bodies : List CelestialBody)
    (parents : List (Int × List ParentRef)) : List Int :=
  let existing := knownBodyIds bodies
  parents.foldl (fun acc e =>
    e.2.foldl (fun acc r =>
      if missingNullRefSkip existing r then acc
      else setInsert acc (normalizeParentRef r).bodyId) acc) []

/-- The placeholder body fabricated by `synthesizeMissingBarycenters`
(`EdsmApiClient.cpp` lines 669-679). -/
def mkSyntheticBarycenter (barycenterId : Int) : CelestialBody :=
  { id := barycenterId
    name := "Barycenter " ++ toString barycenterId
    type := "Barycenter"
    bodyClass := .Barycenter
    parentId := -1
    parentRelationType := "Unknown"
    orbitsBarycenter := false }

/-- From `EdsmApiClient.cpp` lines 644-680: `synthesizeMissingBarycenters`. -/
def synthesizeMissingBarycenters (bodies : List CelestialBody)
    (parents : List (Int × List ParentRef)) : List CelestialBody :=
  bodies ++ (missingBarycenterIds bodies parents).map mkSyntheticBarycenter

/-- Modelled from the words of claim C5 for comparison: the set of ids that
occur in some chain as a "Null"-typed link and are neither the virtual-root
sentinel nor an existing body id (the claim omits the source's
non-negativity requirement). -/
def specMissingNullRefIds (bodies : List CelestialBody)
    (parents : List (Int × List ParentRef)) : List Int :=
  let existing := knownBodyIds bodies
  parents.foldl (fun acc e =>
    e.2.foldl (fun acc r =>
      if ciContains (normalizeParentRef r).type "Null"
          && !((normalizeParentRef r).bodyId == kVirtualBarycenterRootId)
          && !setContains existing (normalizeParentRef r).bodyId then
        setInsert acc (normalizeParentRef r).bodyId
      else acc) acc) []

/-- Chain map for the C5 counterexample: body 1 carries a "Null:-5" link. -/
def c5NullNegChain : List (Int × List ParentRef) := [(1, [{ type := "Null", bodyId := -5 }])]

/-- Insert into a `QHash<QString, ParentRef>`: an existing key has its value
replaced in place, a new key is appended. -/
def refMapInsert : List (String × ParentRef) → String → ParentRef → List (String × ParentRef)
  | [], k, v => [(k, v)]
  | e :: rest, k, v => if e.1 == k then (k, v) :: rest else e :: refMapInsert rest k v

/-- Insert a candidate into the `barycenterCandidates` map
(`QHash<int, QHash<QString, ParentRef>>`, `operator[]` plus `insert`). -/
def candInsert : List (Int × List (String × ParentRef)) → Int → String → ParentRef →
    List (Int × List (String × ParentRef))
  | [], barycenterId, k, v => [(barycenterId, refMapInsert [] k v)]
  | e :: rest, barycenterId, k, v =>
    if e.1 == barycenterId then (e.1, refMapInsert e.2 k v) :: rest
    else e :: candInsert rest barycenterId k v

/-- Lookup (`QHash::value`) of the candidates recorded for a barycenter id. -/
def candLookup : List (Int × List (String × ParentRef)) → Int → List (String × ParentRef)
  | [], _ => []
  | e :: rest, barycenterId =>
    if e.1 == barycenterId then e.2 else candLookup rest barycenterId

/-- The candidate taken for a "Null" link found at index `i` of a chain: the
normalized next link, or the virtual-root sentinel when the link is last
(`EdsmApiClient.cpp` lines 596-601). -/
def nextChainCandidate (chain : List ParentRef) (i : Nat) : ParentRef :=
  match chain.drop (i + 1) with
  | [] => { type := kVirtualBarycenterRootType, bodyId := kVirtualBarycenterRootId }
  | q :: _ => normalizeParentRef q

/-- The inner loop of `buildBarycenterHierarchy` (`EdsmApiClient.cpp` lines
585-604): every normalized "Null"-typed, non-virtual-root link contributes
the pair (referenced barycenter id, next chain link or sentinel). -/
def nullLinkCandidates : List ParentRef → List (Int × ParentRef)
  | [] => []
  | p :: rest =>
    if ciContains (normalizeParentRef p).type "Null"
        && !isVirtualRootRef (normalizeParentRef p) then
      ((normalizeParentRef p).bodyId,
        match rest with
        | [] => { type := kVirtualBarycenterRootType, bodyId := kVirtualBarycenterRootId }
        | q :: _ => normalizeParentRef q) :: nullLinkCandidates rest
    else nullLinkCandidates rest

/-- The class filter of `buildBarycenterHierarchy`'s scan loop (lines
577-582): only Star, Planet and Moon bodies contribute candidates. -/
def isResolvableClass (c : BodyClass) : Bool :=
  c == .Star || c == .Planet || c == .Moon

/-- Phase 1 of `buildBarycenterHierarchy`: the `barycenterCandidates` map. -/
def collectBarycenterCandidates (bodies : List CelestialBody)
    (parents : List (Int × List ParentRef)) : List (Int × List (String × ParentRef)) :=
  bodies.foldl (fun m b =>
    if isResolvableClass b.bodyClass then
      (nullLinkCandidates (parentsLookup parents b.id)).foldl
        (fun m pc => candInsert m pc.1 (parentRefKey pc.2) pc.2) m
    else m) []

/-- The per-body assignment of phase 2 of `buildBarycenterHierarchy` (lines
607-641): no candidate gives "Unknown"/no-parent, a unique candidate is
taken verbatim, several distinct candidates give "Conflict"/no-parent. -/
def barycenterAssignRule (cands : List (Int × List (String × ParentRef)))
    (b : CelestialBody) : CelestialBody :=
  if b.bodyClass == .Barycenter then
    match candLookup cands b.id with
    | [] => { b with parentId := -1, parentRelationType := "Unknown",
                     orbitsBarycenter := false }
    | [(_, c)] => { b with parentId := c.bodyId, parentRelationType := c.type,
                           orbitsBarycenter := isBarycenterRef c.type }
    | _ => { b with parentId := -1, parentRelationType := "Conflict",
                    orbitsBarycenter := false }
  else b

/-- Phase 2 of `buildBarycenterHierarchy` as a traversal of the body list,
also accumulating the conflict diagnostics the source emits. -/
def assignBarycenterParents (cands : List (Int × List (String × ParentRef))) :
    List CelestialBody → List CelestialBody × List Diag
  | [] => ([], [])
  | b :: rest =>
    let tail := assignBarycenterParents cands rest
    if b.bodyClass == .Barycenter then
      match candLookup cands b.id with
      | [] =>
        ({ b with parentId := -1, parentRelationType := "Unknown",
                  orbitsBarycenter := false } :: tail.1, tail.2)
      | [(_, c)] =>
        ({ b with parentId := c.bodyId, parentRelationType := c.type,
                  orbitsBarycenter := isBarycenterRef c.type } :: tail.1, tail.2)
      | cs =>
        ({ b with parentId := -1, parentRelationType := "Conflict",
                  orbitsBarycenter := false } :: tail.1,
          Diag.barycenterConflict b.id (cs.map (fun e => e.2)) :: tail.2)
    else (b :: tail.1, tail.2)

/-- From `EdsmApiClient.cpp` lines 571-642: `buildBarycenterHierarchy`. -/
def buildBarycenterHierarchy (bodies : List CelestialBody)
    (parents : List (Int × List ParentRef)) : List CelestialBody × List Diag :=
  assignBarycenterParents (collectBarycenterCandidates bodies parents) bodies

/-- Modelled from the words of claim C1 for comparison: the candidates
recorded when scanning every non-barycenter body (the source scans only
Star, Planet and Moon bodies, skipping Unknown-classed ones). -/
def specNonBarycenterCandidates (bodies : List CelestialBody)
    (parents : List (Int × List ParentRef)) : List (Int × List (String × ParentRef)) :=
  bodies.foldl (fun m b =>
    if !(b.bodyClass == .Barycenter) then
      (nullLinkCandidates (parentsLookup parents b.id)).foldl
        (fun m pc => candInsert m pc.1 (parentRefKey pc.2) pc.2) m
    else m) []

/-- C1 counterexample bodies: a Star (id 1), an Unknown-classed body (id 2)
and a Barycenter (id 42). -/
def c1Bodies : List CelestialBody :=
  [{ id := 1, name := "A", bodyClass := .Star },
   { id := 2, name := "B", bodyClass := .Unknown },
   { id := 42, name := "C", bodyClass := .Barycenter }]

/-- C1 counterexample chains: both non-barycenter bodies reference
barycenter 42 through a "Null" link, with different next links
(Star:1 versus Planet:7). -/
def c1Parents : List (Int × List ParentRef) :=
  [(1, [{ type := "Null", bodyId := 42 }, { type := "Star", bodyId := 1 }]),
   (2, [{ type := "Null", bodyId := 42 }, { type := "Planet", bodyId := 7 }])]

/-- Insert into a `QHash<int, CelestialBody>`-style association list: an
existing key has its value replaced in place, a new key is appended. -/
def amapInsert {α : Type} : List (Int × α) → Int → α → List (Int × α)
  | [], k, v => [(k, v)]
  | e :: rest, k, v => if e.1 == k then (k, v) :: rest else e :: amapInsert rest k v

/-- Lookup (`QHash::value` / `constFind`). -/
def amapLookup {α : Type} : List (Int × α) → Int → Option α
  | [], _ => none
  | e :: rest, k => if e.1 == k then some e.2 else amapLookup rest k

/-- Membership test (`QHash::contains`). -/
def amapContains {α : Type} (m : List (Int × α)) (k : Int) : Bool :=
  m.any (fun e => e.1 == k)

/-- The self-parent normalization of `SystemModelBuilder::buildBodyMap`
(`SystemModelBuilder.cpp` lines 15-29): a self-parent body is re-parented
onto the virtual root, except the body carrying the virtual-root id itself,
whose parent is cleared; the relation becomes "Null" in both cases. -/
def normalizeSelfParent (b : CelestialBody) : CelestialBody :=
  if b.parentId = b.id then
    if b.id = kExternalVirtualBarycenterMarkerId then
      { b with parentId := -1, orbitsBarycenter := false, parentRelationType := "Null" }
    else
      { b with parentId := kExternalVirtualBarycenterMarkerId, orbitsBarycenter := true,
               parentRelationType := "Null" }
  else b

/-- The last input body carrying a given id — the entry whose fields survive
under the map's last-write-wins insertion. -/
def lastEntryWithId : List CelestialBody → Int → Option CelestialBody
  | [], _ => none
  | b :: t, k =>
    match lastEntryWithId t k with
    | some b' => some b'
    | none => if b.id == k then some b else none

/-- A body with its derived `children` field erased, for stating that a map
value agrees with an input body on all other fields. -/
def sansChildren (b : CelestialBody) : CelestialBody := { b with children := [] }

/-- One iteration of the first loop of `SystemModelBuilder::buildBodyMap`
(lines 9-43): negative ids are skipped, self-parents are normalized (with a
diagnostic), duplicate ids are reported and overwritten (last write wins). -/
def bodyMapStep (acc : List (Int × CelestialBody) × List Diag) (b : CelestialBody) :
    List (Int × CelestialBody) × List Diag :=
  if b.id < 0 then acc
  else
    let nb := normalizeSelfParent b
    let d1 := if b.parentId = b.id then acc.2 ++ [Diag.selfParent b.id] else acc.2
    let d2 := if amapContains acc.1 nb.id then d1 ++ [Diag.duplicateBody nb.id] else d1
    (amapInsert acc.1 nb.id nb, d2)

/-- The first loop of `SystemModelBuilder::buildBodyMap`. -/
def buildBodyMapPhase1 (bodies : List CelestialBody) :
    List (Int × CelestialBody) × List Diag :=
  bodies.foldl bodyMapStep ([], [])

/-- Append a child id to the entry with the given key. -/
def appendChild (m : List (Int × CelestialBody)) (parentKey childId : Int) :
    List (Int × CelestialBody) :=
  m.map (fun e =>
    if e.1 == parentKey then (e.1, { e.2 with children := e.2.children ++ [childId] })
    else e)

/-- The (key, parentId) pairs the children loop of `buildBodyMap` reads;
child insertion never changes keys or parent ids, so the loop's reads are
this snapshot of the phase-1 map. -/
def childSnapshot (m : List (Int × CelestialBody)) : List (Int × Int) :=
  m.map (fun e => (e.1, e.2.parentId))

/-- One iteration of the second loop of `SystemModelBuilder::buildBodyMap`
(lines 45-57): skip self-parent links (with a diagnostic), and push the
entry's id onto its parent's `children` when the parent id is non-negative
and present in the map `m` (whose key set phase 2 never changes). -/
def childLinkStep (m : List (Int × CelestialBody))
    (acc : List (Int × CelestialBody) × List Diag) (pr : Int × Int) :
    List (Int × CelestialBody) × List Diag :=
  if pr.2 = pr.1 then (acc.1, acc.2 ++ [Diag.childSelfLinkSkipped pr.1])
  else if 0 ≤ pr.2 ∧ amapContains m pr.2 = true then
    (appendChild acc.1 pr.2 pr.1, acc.2)
  else acc

/-- The second loop of `SystemModelBuilder::buildBodyMap`. -/
def addChildLinks (m : List (Int × CelestialBody)) :
    List (Int × CelestialBody) × List Diag :=
  (childSnapshot m).foldl (childLinkStep m) (m, [])

/-- From `SystemModelBuilder.cpp` lines 5-60: `SystemModelBuilder::buildBodyMap`. -/
def buildBodyMap (bodies : List CelestialBody) :
    List (Int × CelestialBody) × List Diag :=
  let p1 := buildBodyMapPhase1 bodies
  let p2 := addChildLinks p1.1
  (p2.1, p1.2 ++ p2.2)

/-- C6 inputs: a self-parent body with a non-root id. -/
def c6SelfFive : CelestialBody :=
  { id := 5, parentId := 5, name := "S", parentRelationType := "Star" }

/-- C6 inputs: the virtual-root id referencing itself. -/
def c6SelfZero : CelestialBody :=
  { id := 0, parentId := 0, name := "Z", parentRelationType := "Star",
    orbitsBarycenter := true }

/-- C9 counterexample: body 1 arrives with a pre-set `children` list even
though body 2 is not parented on it. -/
def c9PresetChildren : List CelestialBody :=
  [{ id := 1, parentId := -1, children := [2] }, { id := 2, parentId := -1 }]

/-- C10 inputs: two bodies sharing id 7 with different fields, and a
negative-id body. -/
def c10DupSeven1 : CelestialBody := { id := 7, name := "First", type := "Star" }

/-- Second duplicate entry for C10, the one whose fields must survive. -/
def c10DupSeven2 : CelestialBody := { id := 7, name := "Second", type := "Planet" }

/-- Negative-id body for C10, to be discarded. -/
def c10Negative : CelestialBody := { id := -3, name := "Ghost" }

/-- C9 witness input: two bodies with empty `children`, body 2 parented on
body 1. -/
def c9WitnessBodies : List CelestialBody :=
  [{ id := 1, parentId := -1 }, { id := 2, parentId := 1 }]

/-- The map entry `buildBodyMap` produces for body 1 of `c9WitnessBodies`. -/
def c9Entry1 : Int × CelestialBody := (1, { id := 1, parentId := -1, children := [2] })

/-- The map entry `buildBodyMap` produces for body 2 of `c9WitnessBodies`. -/
def c9Entry2 : Int × CelestialBody := (2, { id := 2, parentId := 1 })

/-- Default-constructed `CelestialBody` (`QHash::value` on a missing key). -/
instance : Inhabited CelestialBody := ⟨{}⟩

/-- The material-difference test of `mergeBodies` (`EdsmApiClient.cpp` line
1562): the existing (EDSM-side) version's non-empty name or non-empty type
differs from the incoming version's. -/
def mergeConflictWith (existing b : CelestialBody) : Bool :=
  decide (¬ existing.name = "" ∧ ¬ existing.name = b.name)
  || decide (¬ existing.type = "" ∧ ¬ existing.type = b.type)

/-- Step 1 of `mergeBodies` (lines 1545-1549): key the EDSM bodies by id. -/
def mergeInsertEdsm (edsmBodies : List CelestialBody) : List (Int × CelestialBody) :=
  edsmBodies.foldl (fun m b => if 0 ≤ b.id then amapInsert m b.id b else m) []

/-- One iteration of step 2 of `mergeBodies` (lines 1551-1569): a Spansh
body with a fresh id is inserted; a colliding id records a conflict when
name/type differ materially and is replaced by the Spansh version. -/
def spanshMergeStep (acc : List (Int × CelestialBody) × Bool) (b : CelestialBody) :
    List (Int × CelestialBody) × Bool :=
  if b.id < 0 then acc
  else if amapContains acc.1 b.id = false then (amapInsert acc.1 b.id b, acc.2)
  else
    (amapInsert acc.1 b.id b,
      acc.2 || mergeConflictWith ((amapLookup acc.1 b.id).getD {}) b)

/-- The minimal stub body synthesized by step 3 of `mergeBodies` (lines
1573-1577). -/
def mergeStub (parentId : Int) : CelestialBody :=
  { id := parentId, name := "Body " ++ toString parentId, type := "Unknown" }

/-- Step 3 of `mergeBodies` (lines 1571-1579): for every Spansh body whose
parent id is non-negative and absent from the merged map, insert a stub. -/
def mergeAddStubs (spanshBodies : List CelestialBody)
    (m : List (Int × CelestialBody)) : List (Int × CelestialBody) :=
  spanshBodies.foldl (fun m b =>
    if 0 ≤ b.parentId ∧ amapContains m b.parentId = false then
      amapInsert m b.parentId (mergeStub b.parentId)
    else m) m

/-- The `mergedById` map of `mergeBodies` after all three steps. -/
def mergedById (edsmBodies spanshBodies : List CelestialBody) :
    List (Int × CelestialBody) :=
  mergeAddStubs spanshBodies
    (spanshBodies.foldl spanshMergeStep (mergeInsertEdsm edsmBodies, false)).1

/-- From `EdsmApiClient.cpp` lines 1537-1588: `mergeBodies`.  Returns the
merged body list together with the `outHadConflict` flag. -/
def mergeBodies (edsmBodies spanshBodies : List CelestialBody) :
    List CelestialBody × Bool :=
  ((mergedById edsmBodies spanshBodies).map Prod.snd,
    (spanshBodies.foldl spanshMergeStep (mergeInsertEdsm edsmBodies, false)).2)

/-- C8 counterexample body: an EDSM body whose parent id 99 exists in
neither set. -/
def c8EdsmOrphan : CelestialBody :=
  { id := 1, parentId := 99, name := "E", type := "Star" }

/-- C8 witness bodies: an EDSM body and a Spansh body sharing id 4 with
materially different names, the Spansh one referencing an absent parent 50. -/
def c8EdsmFour : CelestialBody := { id := 4, name := "EdsmFour", type := "Star" }

/-- Spansh-side version of body 4 for the C8 witness. -/
def c8SpanshFour : CelestialBody :=
  { id := 4, name := "SpanshFour", type := "Star", parentId := 50 }

mutual
/-- Minimal JSON value model (`QJsonValue`): numbers are carried as integers
since every value the claims exercise is integral; arrays and objects use
mutual list types so all recursion stays structural. -/
inductive Json where
  | jnull
  | jbool (b : Bool)
  | jnum (n : Int)
  | jstr (s : String)
  | jarr (elems : JsonList)
  | jobj (fields : JsonFields)
/-- Element list of a JSON array. -/
inductive JsonList where
  | nil
  | cons (hd : Json) (tl : JsonList)
/-- Field list of a JSON object. -/
inductive JsonFields where
  | fnil
  | fcons (key : String) (val : Json) (tl : JsonFields)
end

mutual
/-- Structural size of a JSON value, generous enough to serve as recursion
fuel for `readString` (each field contributes a slack of 5, one unit per
nested-retry key plus the descent step). -/
def jsonFuel : Json → Nat
  | .jnull => 1
  | .jbool _ => 1
  | .jnum _ => 1
  | .jstr _ => 1
  | .jarr elems => 1 + jsonListFuel elems
  | .jobj fields => 1 + jsonFieldsFuel fields
/-- Fuel contribution of an array's elements. -/
def jsonListFuel : JsonList → Nat
  | .nil => 1
  | .cons hd tl => 1 + jsonFuel hd + jsonListFuel tl
/-- Fuel contribution of an object's fields. -/
def jsonFieldsFuel : JsonFields → Nat
  | .fnil => 1
  | .fcons _ v tl => 5 + jsonFuel v + jsonFieldsFuel tl
end

/-- First field with the given key in an object's field list. -/
def findField : JsonFields → String → Option Json
  | .fnil, _ => none
  | .fcons k v tl, key => if k == key then some v else findField tl key

/-- `QJsonObject::value` (`none` both for a missing key and for a
non-object receiver, matching `contains`/`value` on a default object). -/
def jsonField : Json → String → Option Json
  | .jobj fields, key => findField fields key
  | _, _ => none

/-- Digit-run parser backing the `QString::toInt` model. -/
def parseDigits (cs : List Char) : Option Int :=
  if cs ≠ [] ∧ cs.all Char.isDigit then
    some (Int.ofNat (cs.foldl (fun a c => a * 10 + (c.toNat - 48)) 0))
  else none

/-- Model of `QString::toInt(&ok)`: optional sign followed by digits only. -/
def parseIntQt (s : String) : Option Int :=
  match s.data with
  | '+' :: rest => parseDigits rest
  | '-' :: rest => (parseDigits rest).map Int.neg
  | cs => parseDigits cs

/-- From `EdsmApiClient.cpp` lines 907-926: `readInt` — the first candidate
key whose value is a number, or a string parsing as a number, wins. -/
def readInt (obj : Json) (keys : List String) (defaultValue : Int) : Int :=
  match keys with
  | [] => defaultValue
  | key :: rest =>
    match jsonField obj key with
    | some (.jnum n) => n
    | some (.jstr s) =>
      match parseIntQt (strTrim s) with
      | some n => n
      | none => readInt obj rest defaultValue
    | _ => readInt obj rest defaultValue

/-- The nested-object key list `readString` retries on. -/
def readStringNestedKeys : List String := ["name", "type", "value", "label"]

/-- From `EdsmApiClient.cpp` lines 949-976: `readString`, with an explicit
fuel parameter standing in for the C++ recursion into nested objects; every
recursive call decreases the fuel by one, and the nested call strictly
descends the JSON value, so the generous fuel of `readString` below never
runs out on the recursions the source performs. -/
def readStringFuel : Nat → Json → List String → String
  | 0, _, _ => ""
  | Nat.succ f, obj, keys =>
    match keys with
    | [] => ""
    | key :: rest =>
      match jsonField obj key with
      | some (.jstr s) => s
      | some (.jnum n) => toString n
      | some (.jobj fields) =>
        let nested := readStringFuel f (.jobj fields) readStringNestedKeys
        if ¬ nested = "" then nested else readStringFuel f obj rest
      | _ => readStringFuel f obj rest

/-- Entry point of the `readString` model: the fuel `jsonFuel obj +
keys.length` dominates every recursion the source performs (each key
scanned costs one unit, each nested descent costs one unit plus the
nested object's own budget, covered by the per-field slack of
`jsonFieldsFuel`). -/
def readString (obj : Json) (keys : List String) : String :=
  readStringFuel (jsonFuel obj + keys.length) obj keys

/-- From `EdsmApiClient.cpp` lines 370-372: `isParentReferenceValid`. -/
def isParentReferenceValid (parentId : Int) (existing : List Int) : Bool :=
  parentId == kExternalVirtualBarycenterMarkerId || setContains existing parentId

/-- The candidate-validity test of `applyDirectParentFromChain`
(`EdsmApiClient.cpp` lines 325-339): the virtual-root reference is always
valid; otherwise the id must be a seen body id, and a Null/Bary-typed
reference must additionally name a known barycenter id. -/
def isCandidateValidFor (existing bary : List Int) (c : ParentRef) : Bool :=
  if isVirtualRootRef c then true
  else if !setContains existing c.bodyId then false
  else if isBarycenterRef c.type then setContains bary c.bodyId
  else true

/-- From `EdsmApiClient.cpp` lines 313-368: `applyDirectParentFromChain`.
`st` carries the out-parameters' previous values (left untouched for an
empty chain); the first valid normalized entry is selected, scanning forward
from the nearest link, and the first entry is kept when none validates; a
forward selection emits the parents-order-mismatch diagnostic. -/
def applyDirectParentFromChain (parentChain : List ParentRef) (existing bary : List Int)
    (bodyId : Int) (st : Int × String × Bool) : (Int × String × Bool) × List Diag :=
  match parentChain with
  | [] => (st, [])
  | first :: rest =>
    let firstParent := normalizeParentRef first
    if isCandidateValidFor existing bary firstParent then
      ((firstParent.bodyId, firstParent.type, isBarycenterRef firstParent.type), [])
    else
      match (rest.map normalizeParentRef).find? (isCandidateValidFor existing bary) with
      | some selected =>
        ((selected.bodyId, selected.type, isBarycenterRef selected.type),
          [Diag.parentsOrderMismatch bodyId selected firstParent])
      | none =>
        ((firstParent.bodyId, firstParent.type, isBarycenterRef firstParent.type), [])

/-- From `EdsmApiClient.cpp` lines 374-421: `resolveFallbackParent` — tries
the planet-reference fields, then the star-reference fields, then the
`parent` object; returns the resolved (id, relation, description). -/
def resolveFallbackParent (bodyObj : Json) (existing : List Int) :
    Option (Int × String × String) :=
  let fallbackParentPlanetId :=
    readInt bodyObj ["parentPlanetID", "parentPlanetId", "parent_planet_id"] (-1)
  if 0 ≤ fallbackParentPlanetId
      ∧ isParentReferenceValid fallbackParentPlanetId existing = true then
    some (fallbackParentPlanetId, "Planet",
      "parentPlanetId=" ++ toString fallbackParentPlanetId)
  else
    let fallbackParentStarId :=
      readInt bodyObj ["parentStarID", "parentStarId", "parent_star_id"] (-1)
    if 0 ≤ fallbackParentStarId
        ∧ isParentReferenceValid fallbackParentStarId existing = true then
      some (fallbackParentStarId, "Star",
        "parentStarId=" ++ toString fallbackParentStarId)
    else
      match jsonField bodyObj "parent" with
      | some (.jobj parentFields) =>
        let parentId := readInt (.jobj parentFields) ["bodyId", "id"] (-1)
        let parentRelationType :=
          readString (.jobj parentFields) ["relationType", "relation_type", "type"]
        let normalizedParent :=
          normalizeParentRef { type := parentRelationType, bodyId := parentId }
        if 0 ≤ normalizedParent.bodyId
            ∧ isParentReferenceValid normalizedParent.bodyId existing = true then
          some (normalizedParent.bodyId, normalizedParent.type,
            "parent.object(type=" ++ normalizedParent.type ++ ",id="
              ++ toString normalizedParent.bodyId ++ ")")
        else none
      | _ => none

/-- The normalized parent reference `resolveFallbackParent` reads out of a
`parent`-field object. -/
def fallbackParentObjectRef (pf : JsonFields) : ParentRef :=
  normalizeParentRef
    { type := readString (Json.jobj pf) ["relationType", "relation_type", "type"]
      bodyId := readInt (Json.jobj pf) ["bodyId", "id"] (-1) }

/-- The chain-application step of the Spansh caller (`EdsmApiClient.cpp`
line 1227): `applyDirectParentFromChain` started from the fresh
`CelestialBody` defaults (parentId -1, empty relation, no barycenter). -/
def appliedChainParent (parentChain : List ParentRef) (existing bary : List Int)
    (bodyId : Int) : (Int × String × Bool) × List Diag :=
  applyDirectParentFromChain parentChain existing bary bodyId (-1, "", false)

/-- The caller pattern of the Spansh builder (`EdsmApiClient.cpp` lines
1227-1251): apply the chain, then fall back to the alternate fields when the
resulting parent id is negative or fails the existence check; a failed
fallback on an invalid reference clears the parent. -/
def resolveParentWithFallback (bodyObj : Json) (parentChain : List ParentRef)
    (existing bary : List Int) (bodyId : Int) : (Int × String × Bool) × List Diag :=
  let applied := appliedChainParent parentChain existing bary bodyId
  let p := applied.1.1
  let hasInvalidParentRef := 0 ≤ p ∧ isParentReferenceValid p existing = false
  if p < 0 ∨ hasInvalidParentRef then
    match resolveFallbackParent bodyObj existing with
    | some (fp, ft, _) => ((fp, ft, isBarycenterRef ft), applied.2)
    | none =>
      if 0 ≤ p ∧ isParentReferenceValid p existing = false then ((-1, "", false), applied.2)
      else (applied.1, applied.2)
  else (applied.1, applied.2)

/-- Modelled from the words of claim C4 for comparison: the first normalized
chain entry that is the virtual-root sentinel or an id contained in the
already-seen set (the claim omits the known-barycenter requirement for
Null/Bary-typed entries). -/
def specFirstChainPass (parentChain : List ParentRef) (existing : List Int) :
    Option ParentRef :=
  (parentChain.map normalizeParentRef).find?
    (fun c => isVirtualRootRef c || setContains existing c.bodyId)

/-- C4 counterexample chain: a "Null" link to seen body 5 (not a known
barycenter), then a "Star" link to seen body 1. -/
def c4Chain : List ParentRef := [{ type := "Null", bodyId := 5 }, { type := "Star", bodyId := 1 }]

/-- The seen-body set of the C4 counterexample. -/
def c4Existing : List Int := [5, 1]

/-- Body object for the C4 witness: a `parentPlanetId` naming an unseen
body 3, a `parentStarID` naming seen body 1, and a `parent` object. -/
def c4BodyObj : Json :=
  .jobj (.fcons "parentPlanetId" (.jnum 3)
    (.fcons "parentStarID" (.jnum 1)
      (.fcons "parent"
        (.jobj (.fcons "bodyId" (.jnum 1) (.fcons "type" (.jstr "Star") .fnil)))
        .fnil)))

/-- From `EdsmApiClient.cpp` lines 728-756: `canReachStarOrCenterRoot`, with
an explicit fuel parameter standing in for the C++ call stack; the guard
carries the ids visited on the current path (the source removes the id again
on exit, but with a single tail call the guard seen by the lookup is exactly
the set of ancestors already visited).  The fuel-zero branch is unreachable
for the fuel the driver supplies, proved by the stability theorem below. -/
def canReachFuel (m : List (Int × CelestialBody)) : Nat → List Int → Int → Bool
  | 0, _, _ => false
  | Nat.succ fuel, guard, bodyId =>
    if setContains guard bodyId then false
    else
      match amapLookup m bodyId with
      | none => false
      | some body =>
        if body.bodyClass = BodyClass.Star
            ∨ body.id = kExternalVirtualBarycenterMarkerId then true
        else if body.parentId < 0 ∨ amapContains m body.parentId = false then false
        else canReachFuel m fuel (setInsert guard bodyId) body.parentId

/-- The walk as the driver invokes it: fresh guard, and fuel `m.length + 1`,
enough for any path of pairwise distinct visited ids. -/
def canReachStarOrCenterRoot (m : List (Int × CelestialBody)) (bodyId : Int) : Bool :=
  canReachFuel m (m.length + 1) [] bodyId

/-- The id-keyed body map built by `validateHierarchyCanReachStarOrCenterRoot`
(`EdsmApiClient.cpp` lines 761-766): bodies with non-negative id, last write
winning. -/
def buildBodyById (bodies : List CelestialBody) : List (Int × CelestialBody) :=
  bodies.foldl (fun acc b => if 0 ≤ b.id then amapInsert acc b.id b else acc) []

/-- One validation step of the driver loop (`EdsmApiClient.cpp` lines
769-782): negative ids are skipped; a failing body flips the overall flag
and appends the unreachable-body warning. -/
def validateStep (m : List (Int × CelestialBody)) (acc : Bool × List Diag)
    (body : CelestialBody) : Bool × List Diag :=
  if body.id < 0 then acc
  else if canReachStarOrCenterRoot m body.id then acc
  else (false, acc.2 ++ [Diag.unreachableBody body.id])

/-- From `EdsmApiClient.cpp` lines 758-785:
`validateHierarchyCanReachStarOrCenterRoot`. -/
def validateHierarchyCanReachStarOrCenterRoot (bodies : List CelestialBody) :
    Bool × List Diag :=
  bodies.foldl (validateStep (buildBodyById bodies)) (true, [])

/-- One parent-pointer hop through the body map. -/
def parentHop (m : List (Int × CelestialBody)) (bodyId : Int) : Option Int :=
  (amapLookup m bodyId).map (fun body => body.parentId)

/-- `n`-fold parent-pointer iteration through the body map. -/
def parentIterate (m : List (Int × CelestialBody)) : Nat → Int → Option Int
  | 0, bodyId => some bodyId
  | Nat.succ n, bodyId =>
    match parentHop m bodyId with
    | some p => parentIterate m n p
    | none => none

/-- The walk's success test at an id: a Star-classed body or the virtual
root lives there. -/
def isStarOrRootAt (m : List (Int × CelestialBody)) (bodyId : Int) : Bool :=
  match amapLookup m bodyId with
  | some body =>
    if body.bodyClass = BodyClass.Star
        ∨ body.id = kExternalVirtualBarycenterMarkerId then true
    else false
  | none => false

/-- The number of map keys the guard has not visited yet: the walk's
decreasing measure. -/
def guardMissing (m : List (Int × CelestialBody)) (guard : List Int) : Nat :=
  ((m.map Prod.fst).filter (fun k => !setContains guard k)).length

/-- A closed (post-graph-closure) body map: every entry is a Star, the
virtual root, or carries a non-negative parent id present in the map. -/
def closedParentMap (m : List (Int × CelestialBody)) : Prop :=
  ∀ e ∈ m, e.2.bodyClass = BodyClass.Star
    ∨ e.2.id = kExternalVirtualBarycenterMarkerId
    ∨ (0 ≤ e.2.parentId ∧ amapContains m e.2.parentId = true)

/-- C2 witness map: the virtual root plus a two-body parent cycle 1 → 2 → 1;
closed, yet body 1 cannot reach a Star or the root. -/
def c2CycleMap : List (Int × CelestialBody) :=
  [(0, { id := 0, name := "System Center", type := "Null", parentId := -1 }),
   (1, { id := 1, name := "A", type := "Planet", bodyClass := .Planet, parentId := 2,
         parentRelationType := "Planet" }),
   (2, { id := 2, name := "B", type := "Planet", bodyClass := .Planet, parentId := 1,
         parentRelationType := "Planet" })]

/-- C2 witness body list inducing `c2CycleMap`. -/
def c2CycleBodies : List CelestialBody :=
  [{ id := 0, name := "System Center", type := "Null", parentId := -1 },
   { id := 1, name := "A", type := "Planet", bodyClass := .Planet, parentId := 2,
     parentRelationType := "Planet" },
   { id := 2, name := "B", type := "Planet", bodyClass := .Planet, parentId := 1,
     parentRelationType := "Planet" }]

/-! ## Theorems -/

theorem setContains_iff (s : List Int) (x : Int) : setContains s x = true ↔ x ∈ s := by
  simp [setContains]

theorem mem_setInsert (s : List Int) (x y : Int) :
    y ∈ setInsert s x ↔ y ∈ s ∨ y = x := by
  unfold setInsert
  by_cases h : s.contains x = true
  · rw [if_pos h]
    have hx : x ∈ s := by simpa using h
    constructor
    · exact Or.inl
    · rintro (hy | rfl)
      · exact hy
      · exact hx
  · rw [if_neg h]
    simp

theorem mem_knownBodyIds (bodies : List CelestialBody) (x : Int) :
    x ∈ knownBodyIds bodies ↔ ∃ b ∈ bodies, 0 ≤ b.id ∧ b.id = x := by
  have h : ∀ (l : List CelestialBody) (s : List Int),
      x ∈ l.foldl (fun s b => if 0 ≤ b.id then setInsert s b.id else s) s
        ↔ x ∈ s ∨ ∃ b ∈ l, 0 ≤ b.id ∧ b.id = x := by
    intro l
    induction l with
    | nil => intro s; simp
    | cons b t ih =>
      intro s
      by_cases hb : 0 ≤ b.id
      · simp only [List.foldl_cons, if_pos hb, ih, mem_setInsert, List.mem_cons]
        constructor
        · rintro ((hy | rfl) | ⟨c, hc, h0, he⟩)
          · exact Or.inl hy
          · exact Or.inr ⟨b, Or.inl rfl, hb, rfl⟩
          · exact Or.inr ⟨c, Or.inr hc, h0, he⟩
        · rintro (hy | ⟨c, (rfl | hc), h0, he⟩)
          · exact Or.inl (Or.inl hy)
          · exact Or.inl (Or.inr he.symm)
          · exact Or.inr ⟨c, hc, h0, he⟩
      · simp only [List.foldl_cons, if_neg hb, ih, List.mem_cons]
        constructor
        · rintro (hy | ⟨c, hc, h0, he⟩)
          · exact Or.inl hy
          · exact Or.inr ⟨c, Or.inr hc, h0, he⟩
        · rintro (hy | ⟨c, (rfl | hc), h0, he⟩)
          · exact Or.inl hy
          · exact absurd h0 hb
          · exact Or.inr ⟨c, hc, h0, he⟩
  simpa using h bodies []

/-- Claim C7, counterexample.  The reserved virtual-root id (0) is not
distinct from real provider ids: when a real body with id 0 is in the input,
`ensureCentralRootBody` creates nothing, and the body carrying the
virtual-root id in the closed set is the real provider body, not the
synthesized "System Center" node. -/
theorem c7_counterexample :
    ensureCentralRootBody [c7RealStarZero] = [c7RealStarZero]
    ∧ c7RealStarZero.id = kExternalVirtualBarycenterMarkerId
    ∧ c7RealStarZero.name ≠ systemCenterRootBody.name
    ∧ c7RealStarZero.bodyClass = .Star := by
  refine ⟨?_, by decide, by decide, rfl⟩
  rfl

/-- Claim C7, amended: the synthetic "System Center" root is appended only
when no body in the input carries the reserved id; when some input body
already carries the reserved id, the list is returned unchanged, so the body
with the virtual-root id may be a real provider body. -/
theorem c7_root_created_only_when_id_absent (bodies : List CelestialBody) :
    ((∃ b ∈ bodies, b.id = kExternalVirtualBarycenterMarkerId) →
        ensureCentralRootBody bodies = bodies)
    ∧ ((¬ ∃ b ∈ bodies, b.id = kExternalVirtualBarycenterMarkerId) →
        ensureCentralRootBody bodies = bodies ++ [systemCenterRootBody]
          ∧ systemCenterRootBody.name = "System Center"
          ∧ systemCenterRootBody.parentId = -1
          ∧ systemCenterRootBody.type = "Null") := by
  unfold ensureCentralRootBody
  constructor
  · intro hex
    have : bodies.any (fun b => b.id == kExternalVirtualBarycenterMarkerId) = true := by
      rcases hex with ⟨b, hb, he⟩
      exact List.any_eq_true.mpr ⟨b, hb, by simpa using he⟩
    rw [if_pos this]
  · intro hnex
    have : bodies.any (fun b => b.id == kExternalVirtualBarycenterMarkerId) = false := by
      by_contra h
      have h' := List.any_eq_true.mp (Bool.of_not_eq_false h)
      rcases h' with ⟨b, hb, he⟩
      exact hnex ⟨b, hb, by simpa using he⟩
    rw [this]
    exact ⟨rfl, rfl, rfl, rfl⟩

/-- Witness for the amended C7 theorem at concrete inputs. -/
theorem c7_root_created_only_when_id_absent_witness :
    ((∃ b ∈ [c7RealStarZero], b.id = kExternalVirtualBarycenterMarkerId)
      ∧ ensureCentralRootBody [c7RealStarZero] = [c7RealStarZero])
    ∧ ((¬ ∃ b ∈ ([] : List CelestialBody), b.id = kExternalVirtualBarycenterMarkerId)
      ∧ ensureCentralRootBody [] = [systemCenterRootBody]) :=
  ⟨⟨by decide, (c7_root_created_only_when_id_absent [c7RealStarZero]).1 (by decide)⟩,
   ⟨by decide, ((c7_root_created_only_when_id_absent []).2 (by decide)).1⟩⟩

/-- Claim C3, counterexample.  After root attachment on this input, no body
has an absent or unknown parent: the id-0 body is skipped by
`attachDetachedBodiesToCenterRoot`, keeps its valid parent 5, and body 5
keeps its valid parent 0, so no root body exists post-closure, contrary to
the claim's consequence. -/
theorem c3_counterexample :
    attachDetachedBodiesToCenterRoot (ensureCentralRootBody [c3BodyZero, c3BodyFive])
      = [c3BodyZero, c3BodyFive]
    ∧ ((attachDetachedBodiesToCenterRoot (ensureCentralRootBody [c3BodyZero, c3BodyFive])).all
        (fun b => decide (0 ≤ b.parentId)
          && (attachDetachedBodiesToCenterRoot (ensureCentralRootBody [c3BodyZero, c3BodyFive])).any
               (fun p => p.id == b.parentId)) = true) := by
  constructor
  · rfl
  · rfl

/-- Claim C3, amended: after `ensureCentralRootBody` and
`attachDetachedBodiesToCenterRoot`, a body with the virtual-root id exists;
every body other than the id-0 body whose parent was negative or matched no
known id (>= 0) of the rooted list is re-parented onto the virtual root with
relation "Null" and `orbitsBarycenter` true, all others are unchanged; and at
least one root body exists provided no input body already carried the
virtual-root id (the claim's unconditional root-existence consequence fails
when a real id-0 body has a valid parent, see the counterexample). -/
theorem c3_root_attachment (bs : List CelestialBody) :
    (∃ b ∈ attachDetachedBodiesToCenterRoot (ensureCentralRootBody bs),
        b.id = kExternalVirtualBarycenterMarkerId)
    ∧ attachDetachedBodiesToCenterRoot (ensureCentralRootBody bs)
        = (ensureCentralRootBody bs).map (fun b =>
            if b.id = kExternalVirtualBarycenterMarkerId then b
            else if b.parentId < 0
                ∨ ¬ ∃ b' ∈ ensureCentralRootBody bs, 0 ≤ b'.id ∧ b'.id = b.parentId then
              reparentedToCenterRoot b
            else b)
    ∧ ((¬ ∃ b ∈ bs, b.id = kExternalVirtualBarycenterMarkerId) →
        ∃ b ∈ attachDetachedBodiesToCenterRoot (ensureCentralRootBody bs),
          b.id = kExternalVirtualBarycenterMarkerId ∧ b.parentId < 0) := by
  have hmid : ∃ b ∈ ensureCentralRootBody bs, b.id = kExternalVirtualBarycenterMarkerId := by
    by_cases hex : ∃ b ∈ bs, b.id = kExternalVirtualBarycenterMarkerId
    · rw [(c7_root_created_only_when_id_absent bs).1 hex]
      exact hex
    · rw [((c7_root_created_only_when_id_absent bs).2 hex).1]
      exact ⟨systemCenterRootBody, by simp, rfl⟩
  have hmap : ∀ b : CelestialBody,
      (if b.id == kExternalVirtualBarycenterMarkerId then b
        else if b.parentId < 0 || !setContains (knownBodyIds (ensureCentralRootBody bs)) b.parentId then
          { b with parentId := kExternalVirtualBarycenterMarkerId
                   parentRelationType := "Null"
                   orbitsBarycenter := true }
        else b)
      = (if b.id = kExternalVirtualBarycenterMarkerId then b
          else if b.parentId < 0
              ∨ ¬ ∃ b' ∈ ensureCentralRootBody bs, 0 ≤ b'.id ∧ b'.id = b.parentId then
            reparentedToCenterRoot b
          else b) := by
    intro b
    by_cases hid : b.id = kExternalVirtualBarycenterMarkerId
    · simp [hid]
    · have hid' : (b.id == kExternalVirtualBarycenterMarkerId) = false := by simpa using hid
      rw [if_neg (by simpa using hid), if_neg hid]
      have hset : setContains (knownBodyIds (ensureCentralRootBody bs)) b.parentId = true
          ↔ ∃ b' ∈ ensureCentralRootBody bs, 0 ≤ b'.id ∧ b'.id = b.parentId := by
        rw [setContains_iff, mem_knownBodyIds]
      by_cases hp : b.parentId < 0
      · rw [if_pos, if_pos (Or.inl hp)]
        · rfl
        · simp [hp]
      · by_cases hk : ∃ b' ∈ ensureCentralRootBody bs, 0 ≤ b'.id ∧ b'.id = b.parentId
        · rw [if_neg, if_neg]
          · rintro (h1 | h2)
            · exact hp h1
            · exact h2 hk
          · have := hset.mpr hk
            simp [hp, this]
        · rw [if_pos, if_pos (Or.inr hk)]
          · rfl
          · have : setContains (knownBodyIds (ensureCentralRootBody bs)) b.parentId = false := by
              by_contra h
              exact hk (hset.mp (Bool.of_not_eq_false h))
            simp [hp, this]
  refine ⟨?_, ?_, ?_⟩
  · rcases hmid with ⟨b, hb, he⟩
    refine ⟨if b.id = kExternalVirtualBarycenterMarkerId then b
            else if b.parentId < 0
                ∨ ¬ ∃ b' ∈ ensureCentralRootBody bs, 0 ≤ b'.id ∧ b'.id = b.parentId then
              reparentedToCenterRoot b
            else b, ?_, ?_⟩
    · unfold attachDetachedBodiesToCenterRoot
      rw [List.map_congr_left (fun b _ => hmap b)]
      exact List.mem_map_of_mem _ hb
    · rw [if_pos he]
      exact he
  · unfold attachDetachedBodiesToCenterRoot
    exact List.map_congr_left (fun b _ => hmap b)
  · intro hnex
    have hmid' := ((c7_root_created_only_when_id_absent bs).2 hnex).1
    refine ⟨systemCenterRootBody, ?_, rfl, by decide⟩
    unfold attachDetachedBodiesToCenterRoot
    rw [List.map_congr_left (fun b _ => hmap b)]
    have hmem : systemCenterRootBody ∈ ensureCentralRootBody bs := by
      rw [hmid']
      simp
    have himg :
        (if systemCenterRootBody.id = kExternalVirtualBarycenterMarkerId then systemCenterRootBody
          else if systemCenterRootBody.parentId < 0
              ∨ ¬ ∃ b' ∈ ensureCentralRootBody bs, 0 ≤ b'.id ∧ b'.id = systemCenterRootBody.parentId then
            reparentedToCenterRoot systemCenterRootBody
          else systemCenterRootBody) = systemCenterRootBody := by
      rw [if_pos (by decide)]
    rw [← himg]
    exact List.mem_map_of_mem _ hmem

/-- Witness for the amended C3 theorem at a concrete input. -/
theorem c3_root_attachment_witness :
    (¬ ∃ b ∈ [c3BodyFive], b.id = kExternalVirtualBarycenterMarkerId)
    ∧ (∃ b ∈ attachDetachedBodiesToCenterRoot (ensureCentralRootBody [c3BodyFive]),
        b.id = kExternalVirtualBarycenterMarkerId ∧ b.parentId < 0) :=
  ⟨by decide, (c3_root_attachment [c3BodyFive]).2.2 (by decide)⟩

theorem mem_foldl_skipInsert {α : Type} (q : α → Bool) (f : α → Int) :
    ∀ (l : List α) (s : List Int) (x : Int),
    x ∈ l.foldl (fun acc r => if q r then acc else setInsert acc (f r)) s
      ↔ x ∈ s ∨ ∃ r ∈ l, q r = false ∧ f r = x := by
  intro l
  induction l with
  | nil => intro s x; simp
  | cons r t ih =>
    intro s x
    by_cases hq : q r = true
    · simp only [List.foldl_cons, hq, if_pos, ih, List.mem_cons]
      constructor
      · rintro (hy | ⟨c, hc, h0, he⟩)
        · exact Or.inl hy
        · exact Or.inr ⟨c, Or.inr hc, h0, he⟩
      · rintro (hy | ⟨c, (rfl | hc), h0, he⟩)
        · exact Or.inl hy
        · rw [hq] at h0; exact absurd h0 (by simp)
        · exact Or.inr ⟨c, hc, h0, he⟩
    · have hq' : q r = false := Bool.of_not_eq_true hq
      simp only [List.foldl_cons, hq', Bool.false_eq_true, if_neg, ih, mem_setInsert,
        List.mem_cons, not_false_iff]
      constructor
      · rintro ((hy | rfl) | ⟨c, hc, h0, he⟩)
        · exact Or.inl hy
        · exact Or.inr ⟨r, Or.inl rfl, hq', rfl⟩
        · exact Or.inr ⟨c, Or.inr hc, h0, he⟩
      · rintro (hy | ⟨c, (rfl | hc), h0, he⟩)
        · exact Or.inl (Or.inl hy)
        · exact Or.inl (Or.inr he.symm)
        · exact Or.inr ⟨c, hc, h0, he⟩

theorem nodup_setInsert (s : List Int) (x : Int) (h : s.Nodup) : (setInsert s x).Nodup := by
  unfold setInsert
  by_cases hc : s.contains x = true
  · rw [if_pos hc]; exact h
  · rw [if_neg hc]
    have hx : x ∉ s := by
      intro hmem
      exact hc (by simpa using hmem)
    simp [List.nodup_append, h, hx]

theorem nodup_foldl_skipInsert {α : Type} (q : α → Bool) (f : α → Int) :
    ∀ (l : List α) (s : List Int), s.Nodup →
    (l.foldl (fun acc r => if q r then acc else setInsert acc (f r)) s).Nodup := by
  intro l
  induction l with
  | nil => intro s hs; simpa
  | cons r t ih =>
    intro s hs
    simp only [List.foldl_cons]
    by_cases hq : q r = true
    · rw [if_pos hq]; exact ih s hs
    · rw [if_neg hq]; exact ih _ (nodup_setInsert s (f r) hs)

theorem mem_missingBarycenterIds (bodies : List CelestialBody)
    (parents : List (Int × List ParentRef)) (x : Int) :
    x ∈ missingBarycenterIds bodies parents
      ↔ ∃ e ∈ parents, ∃ r ∈ e.2,
          missingNullRefSkip (knownBodyIds bodies) r = false
          ∧ (normalizeParentRef r).bodyId = x := by
  have h : ∀ (l : List (Int × List ParentRef)) (s : List Int),
      x ∈ l.foldl (fun acc e =>
        e.2.foldl (fun acc r =>
          if missingNullRefSkip (knownBodyIds bodies) r then acc
          else setInsert acc (normalizeParentRef r).bodyId) acc) s
        ↔ x ∈ s ∨ ∃ e ∈ l, ∃ r ∈ e.2,
            missingNullRefSkip (knownBodyIds bodies) r = false
            ∧ (normalizeParentRef r).bodyId = x := by
    intro l
    induction l with
    | nil => intro s; simp
    | cons e t ih =>
      intro s
      simp only [List.foldl_cons, ih,
        mem_foldl_skipInsert (missingNullRefSkip (knownBodyIds bodies))
          (fun r => (normalizeParentRef r).bodyId) e.2 s x, List.mem_cons]
      constructor
      · rintro ((hy | hr) | ⟨c, hc, hrest⟩)
        · exact Or.inl hy
        · exact Or.inr ⟨e, Or.inl rfl, hr⟩
        · exact Or.inr ⟨c, Or.inr hc, hrest⟩
      · rintro (hy | ⟨c, (rfl | hc), hrest⟩)
        · exact Or.inl (Or.inl hy)
        · exact Or.inl (Or.inr hrest)
        · exact Or.inr ⟨c, hc, hrest⟩
  simpa using h parents []

theorem nodup_missingBarycenterIds (bodies : List CelestialBody)
    (parents : List (Int × List ParentRef)) :
    (missingBarycenterIds bodies parents).Nodup := by
  have h : ∀ (l : List (Int × List ParentRef)) (s : List Int), s.Nodup →
      (l.foldl (fun acc e =>
        e.2.foldl (fun acc r =>
          if missingNullRefSkip (knownBodyIds bodies) r then acc
          else setInsert acc (normalizeParentRef r).bodyId) acc) s).Nodup := by
    intro l
    induction l with
    | nil => intro s hs; simpa
    | cons e t ih =>
      intro s hs
      simp only [List.foldl_cons]
      exact ih _ (nodup_foldl_skipInsert _ _ e.2 s hs)
  exact h parents [] List.nodup_nil

/-- Claim C5, counterexample.  The link "Null:-5" references an id that is
neither the virtual-root sentinel nor an existing body id, so the claim
demands a synthesized body with id -5; `synthesizeMissingBarycenters` skips
negative ids and appends nothing. -/
theorem c5_counterexample :
    synthesizeMissingBarycenters [] c5NullNegChain = []
    ∧ specMissingNullRefIds [] c5NullNegChain = [-5] := by
  exact ⟨rfl, rfl⟩

/-- Claim C5, amended: the synthesized ids are exactly the distinct
non-negative ids X occurring in some chain as a "Null"-typed link where X is
neither the virtual-root sentinel nor an existing body id; one body is
appended per distinct such X with name "Barycenter X", class Barycenter,
parentId -1 and relation "Unknown"; existing bodies are untouched. -/
theorem c5_missing_barycenter_synthesis (bodies : List CelestialBody)
    (parents : List (Int × List ParentRef)) :
    synthesizeMissingBarycenters bodies parents
      = bodies ++ (missingBarycenterIds bodies parents).map mkSyntheticBarycenter
    ∧ (∀ x : Int, x ∈ missingBarycenterIds bodies parents
        ↔ 0 ≤ x ∧ x ≠ kVirtualBarycenterRootId
          ∧ ¬ (∃ b ∈ bodies, 0 ≤ b.id ∧ b.id = x)
          ∧ ∃ e ∈ parents, ∃ r ∈ e.2,
              ciContains (normalizeParentRef r).type "Null" = true
              ∧ (normalizeParentRef r).bodyId = x)
    ∧ (missingBarycenterIds bodies parents).Nodup
    ∧ (∀ x : Int, mkSyntheticBarycenter x
        = { id := x, name := "Barycenter " ++ toString x, type := "Barycenter",
            bodyClass := .Barycenter, parentId := -1, parentRelationType := "Unknown",
            orbitsBarycenter := false }) := by
  refine ⟨rfl, ?_, nodup_missingBarycenterIds bodies parents, fun x => rfl⟩
  intro x
  rw [mem_missingBarycenterIds]
  constructor
  · rintro ⟨e, he, r, hr, hskip, hid⟩
    simp only [missingNullRefSkip, Bool.or_eq_false_iff, Bool.not_eq_false',
      decide_eq_false_iff_not] at hskip
    obtain ⟨⟨⟨hci, hbe⟩, hneg⟩, hset⟩ := hskip
    subst hid
    refine ⟨Int.not_lt.mp hneg, ?_, ?_, e, he, r, hr, hci, rfl⟩
    · intro hcontra
      rw [hcontra] at hbe
      simp at hbe
    · intro hex
      have : setContains (knownBodyIds bodies) (normalizeParentRef r).bodyId = true :=
        (setContains_iff _ _).mpr ((mem_knownBodyIds bodies _).mpr hex)
      rw [this] at hset
      exact absurd hset (by simp)
  · rintro ⟨h0, hne, hnex, e, he, r, hr, hci, hid⟩
    refine ⟨e, he, r, hr, ?_, hid⟩
    have hset : setContains (knownBodyIds bodies) (normalizeParentRef r).bodyId = false := by
      rw [hid]
      by_contra h
      exact hnex ((mem_knownBodyIds bodies x).mp
        ((setContains_iff _ _).mp (Bool.of_not_eq_false h)))
    have hbe : ((normalizeParentRef r).bodyId == kVirtualBarycenterRootId) = false := by
      rw [hid]
      simpa using hne
    simp only [missingNullRefSkip, Bool.or_eq_false_iff, Bool.not_eq_false',
      decide_eq_false_iff_not]
    exact ⟨⟨⟨hci, hbe⟩, by rw [hid]; exact Int.not_lt.mpr h0⟩, hset⟩

/-- Witness for the amended C5 theorem at a concrete input: "Null:42" with no
body 42 present yields exactly the synthesized barycenter 42. -/
theorem c5_missing_barycenter_synthesis_witness :
    (42 : Int) ∈ missingBarycenterIds [] [(1, [{ type := "Null", bodyId := 42 }])] ∧
    synthesizeMissingBarycenters [] [(1, [{ type := "Null", bodyId := 42 }])]
      = [mkSyntheticBarycenter 42] :=
  ⟨((c5_missing_barycenter_synthesis [] [(1, [{ type := "Null", bodyId := 42 }])]).2.1 42).mpr
    ⟨by decide, by decide, by simp, ⟨(1, [{ type := "Null", bodyId := 42 }]), by simp,
      { type := "Null", bodyId := 42 }, by simp, by decide, by decide⟩⟩,
   by decide⟩

theorem candLookup_candInsert (m : List (Int × List (String × ParentRef)))
    (B' B : Int) (k : String) (v : ParentRef) :
    candLookup (candInsert m B' k v) B
      = if B = B' then refMapInsert (candLookup m B') k v else candLookup m B := by
  induction m with
  | nil =>
    by_cases h : B = B'
    · simp [candInsert, candLookup, h]
    · have h' : (B' == B) = false := by
        simpa using fun he => h he.symm
      simp [candInsert, candLookup, h, h']
  | cons e rest ih =>
    by_cases he : e.1 = B'
    · have he' : (e.1 == B') = true := by simpa using he
      by_cases hB : B = B'
      · have heB : (e.1 == B) = true := by simp [he, hB]
        simp [candInsert, candLookup, he', heB, hB, he]
      · have heB : (e.1 == B) = false := by
          simp only [beq_eq_false_iff_ne, ne_eq]
          intro hc
          exact hB (hc ▸ he ▸ rfl)
        simp [candInsert, candLookup, he', heB, hB]
    · have he' : (e.1 == B') = false := by simpa using he
      by_cases heB : e.1 = B
      · have heB' : (e.1 == B) = true := by simpa using heB
        have hB : ¬ B = B' := fun hc => he (heB ▸ hc)
        simp [candInsert, candLookup, he', heB', hB, ih]
      · have heB' : (e.1 == B) = false := by simpa using heB
        simp [candInsert, candLookup, he', heB', ih]

theorem mem_keys_refMapInsert (m : List (String × ParentRef)) (k : String) (v : ParentRef)
    (x : String) :
    x ∈ (refMapInsert m k v).map Prod.fst ↔ x ∈ m.map Prod.fst ∨ x = k := by
  induction m with
  | nil => simp [refMapInsert]
  | cons e rest ih =>
    by_cases he : e.1 = k
    · have he' : (e.1 == k) = true := by simpa using he
      simp only [refMapInsert]
      rw [if_pos he']
      simp only [List.map_cons, List.mem_cons, he]
      tauto
    · have he' : (e.1 == k) = false := by simpa using he
      simp only [refMapInsert]
      rw [if_neg (by simp [he'])]
      simp only [List.map_cons, List.mem_cons, ih]
      tauto

theorem keys_foldl_candInsert (pcs : List (Int × ParentRef)) :
    ∀ (m : List (Int × List (String × ParentRef))) (B : Int) (k : String),
    (k ∈ (candLookup (pcs.foldl (fun m pc => candInsert m pc.1 (parentRefKey pc.2) pc.2) m) B).map
        Prod.fst)
      ↔ k ∈ (candLookup m B).map Prod.fst
        ∨ ∃ pc ∈ pcs, pc.1 = B ∧ parentRefKey pc.2 = k := by
  induction pcs with
  | nil => intro m B k; simp
  | cons pc t ih =>
    intro m B k
    simp only [List.foldl_cons, ih, candLookup_candInsert, List.mem_cons]
    by_cases hB : B = pc.1
    · rw [if_pos hB]
      rw [mem_keys_refMapInsert]
      constructor
      · rintro ((hx | rfl) | ⟨c, hc, hrest⟩)
        · exact Or.inl (hB ▸ hx)
        · exact Or.inr ⟨pc, Or.inl rfl, hB.symm, rfl⟩
        · exact Or.inr ⟨c, Or.inr hc, hrest⟩
      · rintro (hx | ⟨c, (rfl | hc), hcB, hck⟩)
        · exact Or.inl (Or.inl (hB ▸ hx))
        · exact Or.inl (Or.inr hck.symm)
        · exact Or.inr ⟨c, hc, hcB, hck⟩
    · rw [if_neg hB]
      constructor
      · rintro (hx | ⟨c, hc, hrest⟩)
        · exact Or.inl hx
        · exact Or.inr ⟨c, Or.inr hc, hrest⟩
      · rintro (hx | ⟨c, (rfl | hc), hcB, hck⟩)
        · exact Or.inl hx
        · exact absurd hcB.symm hB
        · exact Or.inr ⟨c, hc, hcB, hck⟩

theorem keys_collectBarycenterCandidates (bodies : List CelestialBody)
    (parents : List (Int × List ParentRef)) (B : Int) (k : String) :
    k ∈ (candLookup (collectBarycenterCandidates bodies parents) B).map Prod.fst
      ↔ ∃ b ∈ bodies, isResolvableClass b.bodyClass = true
          ∧ ∃ pc ∈ nullLinkCandidates (parentsLookup parents b.id),
              pc.1 = B ∧ parentRefKey pc.2 = k := by
  have h : ∀ (l : List CelestialBody) (m : List (Int × List (String × ParentRef))),
      k ∈ (candLookup (l.foldl (fun m b =>
          if isResolvableClass b.bodyClass then
            (nullLinkCandidates (parentsLookup parents b.id)).foldl
              (fun m pc => candInsert m pc.1 (parentRefKey pc.2) pc.2) m
          else m) m) B).map Prod.fst
        ↔ k ∈ (candLookup m B).map Prod.fst
          ∨ ∃ b ∈ l, isResolvableClass b.bodyClass = true
              ∧ ∃ pc ∈ nullLinkCandidates (parentsLookup parents b.id),
                  pc.1 = B ∧ parentRefKey pc.2 = k := by
    intro l
    induction l with
    | nil => intro m; simp
    | cons b t ih =>
      intro m
      by_cases hb : isResolvableClass b.bodyClass = true
      · simp only [List.foldl_cons, if_pos hb, ih, keys_foldl_candInsert, List.mem_cons]
        constructor
        · rintro ((hx | ⟨pc, hpc, hrest⟩) | ⟨c, hc, hrest⟩)
          · exact Or.inl hx
          · exact Or.inr ⟨b, Or.inl rfl, hb, pc, hpc, hrest⟩
          · exact Or.inr ⟨c, Or.inr hc, hrest⟩
        · rintro (hx | ⟨c, (rfl | hc), hcr, pc, hpc, hrest⟩)
          · exact Or.inl (Or.inl hx)
          · exact Or.inl (Or.inr ⟨pc, hpc, hrest⟩)
          · exact Or.inr ⟨c, hc, hcr, pc, hpc, hrest⟩
      · simp only [List.foldl_cons, if_neg hb, ih, List.mem_cons]
        constructor
        · rintro (hx | ⟨c, hc, hrest⟩)
          · exact Or.inl hx
          · exact Or.inr ⟨c, Or.inr hc, hrest⟩
        · rintro (hx | ⟨c, (rfl | hc), hcr, hrest⟩)
          · exact Or.inl hx
          · exact absurd hcr hb
          · exact Or.inr ⟨c, hc, hcr, hrest⟩
  have h0 := h bodies []
  simpa [candLookup] using h0

theorem nextChainCandidate_cons (p : ParentRef) (rest : List ParentRef) (i : Nat) :
    nextChainCandidate (p :: rest) (i + 1) = nextChainCandidate rest i := by
  simp only [nextChainCandidate, List.drop_succ_cons]

theorem nextChainCandidate_zero (p : ParentRef) (rest : List ParentRef) :
    nextChainCandidate (p :: rest) 0
      = (match rest with
          | [] => ({ type := kVirtualBarycenterRootType,
                     bodyId := kVirtualBarycenterRootId } : ParentRef)
          | q :: _ => normalizeParentRef q) := by
  cases rest <;> rfl

theorem mem_nullLinkCandidates (chain : List ParentRef) (x : Int × ParentRef) :
    x ∈ nullLinkCandidates chain
      ↔ ∃ i, ∃ h : i < chain.length,
          ciContains (normalizeParentRef (chain.get ⟨i, h⟩)).type "Null" = true
          ∧ isVirtualRootRef (normalizeParentRef (chain.get ⟨i, h⟩)) = false
          ∧ x = ((normalizeParentRef (chain.get ⟨i, h⟩)).bodyId, nextChainCandidate chain i) := by
  induction chain with
  | nil => simp [nullLinkCandidates]
  | cons p rest ih =>
    constructor
    · intro hx
      simp only [nullLinkCandidates] at hx
      by_cases hc : (ciContains (normalizeParentRef p).type "Null"
          && !isVirtualRootRef (normalizeParentRef p)) = true
      · rw [if_pos hc] at hx
        have hc' := hc
        simp only [Bool.and_eq_true, Bool.not_eq_eq_eq_not, Bool.not_true] at hc'
        obtain ⟨h1, h2⟩ := hc'
        rcases List.mem_cons.mp hx with rfl | hx'
        · refine ⟨0, Nat.succ_pos _, h1, h2, ?_⟩
          rw [nextChainCandidate_zero]
          rfl
        · obtain ⟨i, h, ha, hb, hc'⟩ := ih.mp hx'
          refine ⟨i + 1, Nat.succ_lt_succ h, ?_, ?_, ?_⟩
          · simpa using ha
          · simpa using hb
          · rw [nextChainCandidate_cons]
            simpa using hc'
      · rw [if_neg hc] at hx
        obtain ⟨i, h, ha, hb, hc'⟩ := ih.mp hx
        refine ⟨i + 1, Nat.succ_lt_succ h, ?_, ?_, ?_⟩
        · simpa using ha
        · simpa using hb
        · rw [nextChainCandidate_cons]
          simpa using hc'
    · rintro ⟨i, h, h1, h2, rfl⟩
      cases i with
      | zero =>
        have hc : (ciContains (normalizeParentRef p).type "Null"
            && !isVirtualRootRef (normalizeParentRef p)) = true := by
          have h1' : ciContains (normalizeParentRef p).type "Null" = true := by simpa using h1
          have h2' : isVirtualRootRef (normalizeParentRef p) = false := by simpa using h2
          simp [h1', h2']
        simp only [nullLinkCandidates]
        rw [if_pos hc]
        rw [nextChainCandidate_zero]
        exact List.mem_cons_self _ _
      | succ j =>
        have hj : j < rest.length := Nat.lt_of_succ_lt_succ h
        have hmem : ((normalizeParentRef ((p :: rest).get ⟨j + 1, h⟩)).bodyId,
            nextChainCandidate (p :: rest) (j + 1)) ∈ nullLinkCandidates rest := by
          rw [nextChainCandidate_cons]
          refine ih.mpr ⟨j, hj, ?_, ?_, rfl⟩
          · simpa using h1
          · simpa using h2
        simp only [nullLinkCandidates]
        by_cases hc : (ciContains (normalizeParentRef p).type "Null"
            && !isVirtualRootRef (normalizeParentRef p)) = true
        · rw [if_pos hc]
          exact List.mem_cons_of_mem _ hmem
        · rw [if_neg hc]
          exact hmem

theorem assignBarycenterParents_fst (cands : List (Int × List (String × ParentRef))) :
    ∀ l : List CelestialBody,
    (assignBarycenterParents cands l).1 = l.map (barycenterAssignRule cands) := by
  intro l
  induction l with
  | nil => rfl
  | cons b rest ih =>
    simp only [assignBarycenterParents, List.map_cons]
    by_cases hb : (b.bodyClass == BodyClass.Barycenter) = true
    · rw [if_pos hb]
      rcases hcl : candLookup cands b.id with _ | ⟨⟨k, c⟩, t⟩
      · simp only [barycenterAssignRule]
        rw [if_pos hb, hcl]
        simpa using ih
      · rcases t with _ | ⟨e2, t2⟩
        · simp only [barycenterAssignRule]
          rw [if_pos hb, hcl]
          simpa using ih
        · simp only [barycenterAssignRule]
          rw [if_pos hb, hcl]
          simpa using ih
    · rw [if_neg hb]
      simp only [barycenterAssignRule]
      rw [if_neg hb]
      simpa using ih

theorem assignBarycenterParents_conflict_mem
    (cands : List (Int × List (String × ParentRef))) :
    ∀ (l : List CelestialBody) (b : CelestialBody), b ∈ l →
    b.bodyClass = .Barycenter → 2 ≤ (candLookup cands b.id).length →
    Diag.barycenterConflict b.id ((candLookup cands b.id).map (fun e => e.2))
      ∈ (assignBarycenterParents cands l).2 := by
  intro l
  induction l with
  | nil => intro b hb; cases hb
  | cons a rest ih =>
    intro b hb hbc hlen
    have htail : b ∈ rest →
        Diag.barycenterConflict b.id ((candLookup cands b.id).map (fun e => e.2))
          ∈ (assignBarycenterParents cands rest).2 := fun hm => ih b hm hbc hlen
    rcases List.mem_cons.mp hb with rfl | hmem
    · have hb' : (b.bodyClass == BodyClass.Barycenter) = true := by simpa using hbc
      simp only [assignBarycenterParents]
      rw [if_pos hb']
      rcases hcl : candLookup cands b.id with _ | ⟨e1, t⟩
      · rw [hcl] at hlen; simp at hlen
      · rcases t with _ | ⟨e2, t2⟩
        · rw [hcl] at hlen; simp at hlen
        · simp
    · have hin := htail hmem
      simp only [assignBarycenterParents]
      by_cases ha : (a.bodyClass == BodyClass.Barycenter) = true
      · rw [if_pos ha]
        rcases hcl : candLookup cands a.id with _ | ⟨⟨k, c⟩, t⟩
        · exact hin
        · rcases t with _ | ⟨e2, t2⟩
          · exact hin
          · exact List.mem_cons_of_mem _ hin
      · rw [if_neg ha]
        exact hin

/-- Claim C1, counterexample.  Under the claim's reading ("every
non-barycenter body"), the Unknown-classed body 2 also contributes its
candidate Planet:7 for barycenter 42, giving two distinct candidates and
hence "Conflict"/no-parent; the source scans only Star/Planet/Moon bodies,
records the single candidate Star:1 and assigns parentId 1 with relation
"Star" to barycenter 42. -/
theorem c1_counterexample :
    (candLookup (specNonBarycenterCandidates c1Bodies c1Parents) 42).length = 2
    ∧ (buildBarycenterHierarchy c1Bodies c1Parents).1.map
        (fun b => (b.id, b.parentId, b.parentRelationType))
        = [(1, -1, ""), (2, -1, ""), (42, 1, "Star")]
    ∧ (buildBarycenterHierarchy c1Bodies c1Parents).2 = [] := by
  exact ⟨rfl, rfl, rfl⟩

/-- Claim C1, amended: the scan covers only Star-, Planet- and Moon-classed
bodies (Unknown-classed bodies are skipped, unlike "every non-barycenter
body").  For each scanned body, every normalized "Null"-typed link of its
chain other than the virtual-root reference records — keyed by the referenced
barycenter id — the next chain link (the virtual-root sentinel when the link
is last) as a candidate; afterwards each Barycenter-classed body gets its
unique candidate verbatim when exactly one distinct candidate exists,
parentId -1 with relation "Unknown" when none exists, and parentId -1 with
relation "Conflict" plus a conflict diagnostic when several distinct
candidates exist — never an arbitrary pick. -/
theorem c1_barycenter_hierarchy (bodies : List CelestialBody)
    (parents : List (Int × List ParentRef)) :
    (buildBarycenterHierarchy bodies parents).1
        = bodies.map (barycenterAssignRule (collectBarycenterCandidates bodies parents))
    ∧ (∀ (B : Int) (k : String),
        k ∈ (candLookup (collectBarycenterCandidates bodies parents) B).map Prod.fst
          ↔ ∃ b ∈ bodies, isResolvableClass b.bodyClass = true
              ∧ ∃ pc ∈ nullLinkCandidates (parentsLookup parents b.id),
                  pc.1 = B ∧ parentRefKey pc.2 = k)
    ∧ (∀ (chain : List ParentRef) (x : Int × ParentRef),
        x ∈ nullLinkCandidates chain
          ↔ ∃ i, ∃ h : i < chain.length,
              ciContains (normalizeParentRef (chain.get ⟨i, h⟩)).type "Null" = true
              ∧ isVirtualRootRef (normalizeParentRef (chain.get ⟨i, h⟩)) = false
              ∧ x = ((normalizeParentRef (chain.get ⟨i, h⟩)).bodyId,
                     nextChainCandidate chain i))
    ∧ (∀ b ∈ bodies, b.bodyClass ≠ .Barycenter →
        barycenterAssignRule (collectBarycenterCandidates bodies parents) b = b)
    ∧ (∀ b ∈ bodies, b.bodyClass = .Barycenter →
        (candLookup (collectBarycenterCandidates bodies parents) b.id = [] →
          barycenterAssignRule (collectBarycenterCandidates bodies parents) b
            = { b with parentId := -1, parentRelationType := "Unknown",
                       orbitsBarycenter := false })
        ∧ (∀ (k : String) (c : ParentRef),
            candLookup (collectBarycenterCandidates bodies parents) b.id = [(k, c)] →
            barycenterAssignRule (collectBarycenterCandidates bodies parents) b
              = { b with parentId := c.bodyId, parentRelationType := c.type,
                         orbitsBarycenter := isBarycenterRef c.type })
        ∧ (2 ≤ (candLookup (collectBarycenterCandidates bodies parents) b.id).length →
            barycenterAssignRule (collectBarycenterCandidates bodies parents) b
              = { b with parentId := -1, parentRelationType := "Conflict",
                         orbitsBarycenter := false }
            ∧ Diag.barycenterConflict b.id
                ((candLookup (collectBarycenterCandidates bodies parents) b.id).map
                  (fun e => e.2))
              ∈ (buildBarycenterHierarchy bodies parents).2)) := by
  refine ⟨assignBarycenterParents_fst _ bodies,
    keys_collectBarycenterCandidates bodies parents,
    mem_nullLinkCandidates, ?_, ?_⟩
  · intro b _ hnb
    have hnb' : (b.bodyClass == BodyClass.Barycenter) = false := by
      simpa using hnb
    simp only [barycenterAssignRule]
    rw [if_neg (by simp [hnb'])]
  · intro b hb hbc
    have hb' : (b.bodyClass == BodyClass.Barycenter) = true := by simpa using hbc
    refine ⟨?_, ?_, ?_⟩
    · intro hcl
      simp only [barycenterAssignRule]
      rw [if_pos hb', hcl]
    · intro k c hcl
      simp only [barycenterAssignRule]
      rw [if_pos hb', hcl]
    · intro hlen
      rcases hcl : candLookup (collectBarycenterCandidates bodies parents) b.id
        with _ | ⟨e1, t⟩
      · rw [hcl] at hlen; simp at hlen
      · rcases t with _ | ⟨e2, t2⟩
        · rw [hcl] at hlen; simp at hlen
        · constructor
          · simp only [barycenterAssignRule]
            rw [if_pos hb', hcl]
          · have := assignBarycenterParents_conflict_mem
              (collectBarycenterCandidates bodies parents) bodies b hb hbc
            rw [hcl] at this
            exact this (by simp)

/-- Witness for the amended C1 theorem at the concrete input: barycenter 42
has the single recorded candidate Star:1 and receives it verbatim. -/
theorem c1_barycenter_hierarchy_witness :
    (candLookup (collectBarycenterCandidates c1Bodies c1Parents) 42
        = [("star:1", { type := "Star", bodyId := 1 })])
    ∧ barycenterAssignRule (collectBarycenterCandidates c1Bodies c1Parents)
        { id := 42, name := "C", bodyClass := .Barycenter }
      = { ({ id := 42, name := "C", bodyClass := .Barycenter } : CelestialBody) with
          parentId := 1, parentRelationType := "Star",
          orbitsBarycenter := isBarycenterRef "Star" } :=
  ⟨by decide,
    ((c1_barycenter_hierarchy c1Bodies c1Parents).2.2.2.2
      { id := 42, name := "C", bodyClass := .Barycenter } (by decide) rfl).2.1
      "star:1" { type := "Star", bodyId := 1 } (by decide)⟩

theorem amapLookup_amapInsert {α : Type} (m : List (Int × α)) (k : Int) (v : α) (x : Int) :
    amapLookup (amapInsert m k v) x = if x = k then some v else amapLookup m x := by
  induction m with
  | nil =>
    by_cases h : x = k
    · simp [amapInsert, amapLookup, h]
    · have h' : (k == x) = false := by simpa using fun he => h he.symm
      simp [amapInsert, amapLookup, h, h']
  | cons e rest ih =>
    by_cases he : e.1 = k
    · have he' : (e.1 == k) = true := by simpa using he
      by_cases hx : x = k
      · have hk : (k == x) = true := by simp [hx]
        simp [amapInsert, amapLookup, he', hk, hx]
      · have hk : (k == x) = false := by simpa using fun hc => hx hc.symm
        have hex : (e.1 == x) = false := by
          simp only [beq_eq_false_iff_ne, ne_eq]
          intro hc
          exact hx (hc ▸ he)
        simp [amapInsert, amapLookup, he', hk, hx, hex]
    · have he' : (e.1 == k) = false := by simpa using he
      by_cases hex : e.1 = x
      · have hex' : (e.1 == x) = true := by simpa using hex
        have hx : ¬ x = k := fun hc => he (hex ▸ hc)
        simp [amapInsert, amapLookup, he', hex', hx]
      · have hex' : (e.1 == x) = false := by simpa using hex
        simp [amapInsert, amapLookup, he', hex', ih]

theorem mem_keys_amapInsert {α : Type} (m : List (Int × α)) (k : Int) (v : α) (x : Int) :
    x ∈ (amapInsert m k v).map Prod.fst ↔ x ∈ m.map Prod.fst ∨ x = k := by
  induction m with
  | nil => simp [amapInsert]
  | cons e rest ih =>
    by_cases he : e.1 = k
    · have he' : (e.1 == k) = true := by simpa using he
      simp only [amapInsert]
      rw [if_pos he']
      simp only [List.map_cons, List.mem_cons, he]
      tauto
    · have he' : (e.1 == k) = false := by simpa using he
      simp only [amapInsert]
      rw [if_neg (by simp [he'])]
      simp only [List.map_cons, List.mem_cons, ih]
      tauto

theorem keys_nodup_amapInsert {α : Type} (m : List (Int × α)) (k : Int) (v : α)
    (h : (m.map Prod.fst).Nodup) : ((amapInsert m k v).map Prod.fst).Nodup := by
  induction m with
  | nil => simp [amapInsert]
  | cons e rest ih =>
    simp only [List.map_cons, List.nodup_cons] at h
    by_cases he : e.1 = k
    · have he' : (e.1 == k) = true := by simpa using he
      simp only [amapInsert]
      rw [if_pos he']
      simp only [List.map_cons, List.nodup_cons]
      exact ⟨he ▸ h.1, h.2⟩
    · have he' : (e.1 == k) = false := by simpa using he
      simp only [amapInsert]
      rw [if_neg (by simp [he'])]
      simp only [List.map_cons, List.nodup_cons]
      refine ⟨?_, ih h.2⟩
      rw [mem_keys_amapInsert]
      rintro (hx | hx)
      · exact h.1 hx
      · exact he hx

theorem amapContains_iff {α : Type} (m : List (Int × α)) (k : Int) :
    amapContains m k = true ↔ k ∈ m.map Prod.fst := by
  simp only [amapContains, List.any_eq_true, List.mem_map, beq_iff_eq]

theorem mem_amapInsert_entries {α : Type} (m : List (Int × α)) (k : Int) (v : α)
    (e' : Int × α) (h : e' ∈ amapInsert m k v) : e' ∈ m ∨ e' = (k, v) := by
  induction m with
  | nil => simpa [amapInsert] using h
  | cons e rest ih =>
    by_cases he : (e.1 == k) = true
    · rw [amapInsert, if_pos he] at h
      rcases List.mem_cons.mp h with rfl | hm
      · exact Or.inr rfl
      · exact Or.inl (List.mem_cons_of_mem _ hm)
    · rw [amapInsert, if_neg he] at h
      rcases List.mem_cons.mp h with rfl | hm
      · exact Or.inl (List.mem_cons_self _ _)
      · rcases ih hm with h1 | h2
        · exact Or.inl (List.mem_cons_of_mem _ h1)
        · exact Or.inr h2

theorem mem_of_amapLookup {α : Type} (m : List (Int × α)) (k : Int) (v : α)
    (h : amapLookup m k = some v) : (k, v) ∈ m := by
  induction m with
  | nil => simp [amapLookup] at h
  | cons e rest ih =>
    by_cases he : (e.1 == k) = true
    · rw [amapLookup, if_pos he] at h
      have : e = (k, v) := by
        have h1 : e.1 = k := by simpa using he
        have h2 : e.2 = v := by injection h
        exact Prod.ext h1 h2
      exact this ▸ List.mem_cons_self _ _
    · rw [amapLookup, if_neg he] at h
      exact List.mem_cons_of_mem _ (ih h)

theorem amapLookup_of_mem {α : Type} (m : List (Int × α)) (k : Int) (v : α)
    (hnd : (m.map Prod.fst).Nodup) (h : (k, v) ∈ m) : amapLookup m k = some v := by
  induction m with
  | nil => cases h
  | cons e rest ih =>
    simp only [List.map_cons, List.nodup_cons] at hnd
    rcases List.mem_cons.mp h with rfl | hm
    · simp [amapLookup]
    · have he : (e.1 == k) = false := by
        simp only [beq_eq_false_iff_ne, ne_eq]
        intro hc
        exact hnd.1 (hc ▸ List.mem_map.mpr ⟨(k, v), hm, rfl⟩)
      rw [amapLookup, if_neg (by simp [he])]
      exact ih hnd.2 hm

theorem normalizeSelfParent_fields (b : CelestialBody) :
    (normalizeSelfParent b).id = b.id ∧ (normalizeSelfParent b).name = b.name
    ∧ (normalizeSelfParent b).type = b.type
    ∧ (normalizeSelfParent b).children = b.children := by
  unfold normalizeSelfParent
  by_cases h1 : b.parentId = b.id
  · by_cases h2 : b.id = kExternalVirtualBarycenterMarkerId
    · rw [if_pos h1, if_pos h2]; exact ⟨rfl, rfl, rfl, rfl⟩
    · rw [if_pos h1, if_neg h2]; exact ⟨rfl, rfl, rfl, rfl⟩
  · rw [if_neg h1]; exact ⟨rfl, rfl, rfl, rfl⟩

theorem normalizeSelfParent_no_self (b : CelestialBody) :
    (normalizeSelfParent b).parentId ≠ (normalizeSelfParent b).id := by
  unfold normalizeSelfParent
  by_cases h1 : b.parentId = b.id
  · by_cases h2 : b.id = kExternalVirtualBarycenterMarkerId
    · rw [if_pos h1, if_pos h2]
      simp only []
      rw [h2]
      decide
    · rw [if_pos h1, if_neg h2]
      simpa using fun hc => h2 hc.symm
  · rw [if_neg h1]
    exact h1

theorem lastEntryWithId_cons (b : CelestialBody) (t : List CelestialBody) (k : Int) :
    lastEntryWithId (b :: t) k
      = match lastEntryWithId t k with
        | some b' => some b'
        | none => if b.id == k then some b else none := rfl

theorem bodyMapStep_fst (s : List (Int × CelestialBody) × List Diag) (b : CelestialBody)
    (h : ¬ b.id < 0) :
    (bodyMapStep s b).1
      = amapInsert s.1 (normalizeSelfParent b).id (normalizeSelfParent b) := by
  simp [bodyMapStep, h]

theorem bodyMapStep_fst_skip (s : List (Int × CelestialBody) × List Diag)
    (b : CelestialBody) (h : b.id < 0) : bodyMapStep s b = s := by
  simp [bodyMapStep, h]

theorem bodyMapStep_diag_mono (s : List (Int × CelestialBody) × List Diag)
    (b : CelestialBody) (x : Diag) (h : x ∈ s.2) : x ∈ (bodyMapStep s b).2 := by
  unfold bodyMapStep
  by_cases h0 : b.id < 0
  · rw [if_pos h0]; exact h
  · rw [if_neg h0]
    simp only []
    by_cases h1 : b.parentId = b.id
    · rw [if_pos h1]
      by_cases h2 : amapContains s.1 (normalizeSelfParent b).id = true
      · rw [if_pos h2]
        exact List.mem_append_left _ (List.mem_append_left _ h)
      · rw [if_neg h2]
        exact List.mem_append_left _ h
    · rw [if_neg h1]
      by_cases h2 : amapContains s.1 (normalizeSelfParent b).id = true
      · rw [if_pos h2]
        exact List.mem_append_left _ h
      · rw [if_neg h2]
        exact h

theorem phase1_fold_diag_mono :
    ∀ (l : List CelestialBody) (s : List (Int × CelestialBody) × List Diag) (x : Diag),
    x ∈ s.2 → x ∈ (l.foldl bodyMapStep s).2 := by
  intro l
  induction l with
  | nil => intro s x h; exact h
  | cons b t ih =>
    intro s x h
    rw [List.foldl_cons]
    exact ih _ x (bodyMapStep_diag_mono s b x h)

theorem phase1_fold_keys_mem :
    ∀ (l : List CelestialBody) (s : List (Int × CelestialBody) × List Diag) (k : Int),
    k ∈ (l.foldl bodyMapStep s).1.map Prod.fst
      ↔ k ∈ s.1.map Prod.fst ∨ ∃ b ∈ l, 0 ≤ b.id ∧ b.id = k := by
  intro l
  induction l with
  | nil => intro s k; simp
  | cons b t ih =>
    intro s k
    rw [List.foldl_cons]
    by_cases hneg : b.id < 0
    · rw [bodyMapStep_fst_skip s b hneg, ih]
      constructor
      · rintro (h | ⟨c, hc, hrest⟩)
        · exact Or.inl h
        · exact Or.inr ⟨c, List.mem_cons_of_mem _ hc, hrest⟩
      · rintro (h | ⟨c, hc, h0, he⟩)
        · exact Or.inl h
        · rcases List.mem_cons.mp hc with rfl | hc'
          · exact absurd hneg (by omega)
          · exact Or.inr ⟨c, hc', h0, he⟩
    · rw [ih]
      have hkeys : (bodyMapStep s b).1.map Prod.fst
          = (amapInsert s.1 (normalizeSelfParent b).id (normalizeSelfParent b)).map Prod.fst := by
        rw [bodyMapStep_fst s b hneg]
      rw [hkeys, mem_keys_amapInsert]
      have hid : (normalizeSelfParent b).id = b.id := (normalizeSelfParent_fields b).1
      constructor
      · rintro ((h | h) | ⟨c, hc, hrest⟩)
        · exact Or.inl h
        · exact Or.inr ⟨b, List.mem_cons_self _ _, by omega, by rw [← hid, h]⟩
        · exact Or.inr ⟨c, List.mem_cons_of_mem _ hc, hrest⟩
      · rintro (h | ⟨c, hc, h0, he⟩)
        · exact Or.inl (Or.inl h)
        · rcases List.mem_cons.mp hc with rfl | hc'
          · exact Or.inl (Or.inr (by rw [hid, he]))
          · exact Or.inr ⟨c, hc', h0, he⟩

theorem phase1_fold_keys_nodup :
    ∀ (l : List CelestialBody) (s : List (Int × CelestialBody) × List Diag),
    (s.1.map Prod.fst).Nodup → ((l.foldl bodyMapStep s).1.map Prod.fst).Nodup := by
  intro l
  induction l with
  | nil => intro s h; exact h
  | cons b t ih =>
    intro s h
    rw [List.foldl_cons]
    by_cases hneg : b.id < 0
    · rw [bodyMapStep_fst_skip s b hneg]
      exact ih s h
    · refine ih _ ?_
      rw [bodyMapStep_fst s b hneg]
      exact keys_nodup_amapInsert _ _ _ h

theorem phase1_fold_lookup_last :
    ∀ (l : List CelestialBody) (s : List (Int × CelestialBody) × List Diag) (k : Int),
      0 ≤ k →
    (∀ b, lastEntryWithId l k = some b →
        amapLookup (l.foldl bodyMapStep s).1 k = some (normalizeSelfParent b))
    ∧ (lastEntryWithId l k = none →
        amapLookup (l.foldl bodyMapStep s).1 k = amapLookup s.1 k) := by
  intro l
  induction l with
  | nil =>
    intro s k _
    exact ⟨fun b h => by simp [lastEntryWithId] at h, fun _ => rfl⟩
  | cons b t ih =>
    intro s k hk
    rw [List.foldl_cons]
    by_cases hneg : b.id < 0
    · have hb : (b.id == k) = false := by
        simp only [beq_eq_false_iff_ne, ne_eq]
        omega
      rw [bodyMapStep_fst_skip s b hneg]
      constructor
      · intro c hc
        rw [lastEntryWithId_cons] at hc
        rcases hlt : lastEntryWithId t k with _ | b'
        · rw [hlt] at hc
          simp only [hb] at hc
          cases hc
        · rw [hlt] at hc
          have : b' = c := by injection hc
          exact (ih s k hk).1 c (this ▸ hlt)
      · intro hc
        rw [lastEntryWithId_cons] at hc
        rcases hlt : lastEntryWithId t k with _ | b'
        · exact (ih s k hk).2 hlt
        · rw [hlt] at hc
          cases hc
    · have hid : (normalizeSelfParent b).id = b.id := (normalizeSelfParent_fields b).1
      have hset : amapLookup (bodyMapStep s b).1 k
          = if k = b.id then some (normalizeSelfParent b) else amapLookup s.1 k := by
        rw [bodyMapStep_fst s b hneg, amapLookup_amapInsert, hid]
      constructor
      · intro c hc
        rw [lastEntryWithId_cons] at hc
        rcases hlt : lastEntryWithId t k with _ | b'
        · rw [hlt] at hc
          by_cases hb : (b.id == k) = true
          · simp only [hb, if_pos] at hc
            have hbc : b = c := by injection hc
            have hkb : k = b.id := by
              have := (beq_iff_eq).mp hb
              omega
            rw [(ih _ k hk).2 hlt, hset, if_pos hkb, hbc]
          · simp only [hb] at hc
            cases hc
        · rw [hlt] at hc
          have : b' = c := by injection hc
          exact (ih _ k hk).1 c (this ▸ hlt)
      · intro hc
        rw [lastEntryWithId_cons] at hc
        rcases hlt : lastEntryWithId t k with _ | b'
        · rw [hlt] at hc
          by_cases hb : (b.id == k) = true
          · simp only [hb, if_pos] at hc
            cases hc
          · have hkb : ¬ k = b.id := by
              intro hcc
              rw [hcc] at hb
              simp at hb
            rw [(ih _ k hk).2 hlt, hset, if_neg hkb]
        · rw [hlt] at hc
          cases hc

theorem phase1_fold_self_diag :
    ∀ (l : List CelestialBody) (s : List (Int × CelestialBody) × List Diag)
      (b : CelestialBody), b ∈ l → 0 ≤ b.id → b.parentId = b.id →
    Diag.selfParent b.id ∈ (l.foldl bodyMapStep s).2 := by
  intro l
  induction l with
  | nil => intro s b hb; cases hb
  | cons a t ih =>
    intro s b hb h0 hself
    rw [List.foldl_cons]
    rcases List.mem_cons.mp hb with rfl | hmem
    · refine phase1_fold_diag_mono t _ _ ?_
      unfold bodyMapStep
      rw [if_neg (by omega)]
      simp only []
      rw [if_pos hself]
      by_cases h2 : amapContains s.1 (normalizeSelfParent b).id = true
      · rw [if_pos h2]
        exact List.mem_append_left _ (List.mem_append_right _ (List.mem_singleton.mpr rfl))
      · rw [if_neg h2]
        exact List.mem_append_right _ (List.mem_singleton.mpr rfl)
    · exact ih _ b hmem h0 hself

theorem phase1_fold_dup_diag :
    ∀ (l : List CelestialBody) (s : List (Int × CelestialBody) × List Diag) (k : Int),
      0 ≤ k →
    ((amapContains s.1 k = true ∧ 1 ≤ (l.filter (fun b => b.id == k)).length)
      ∨ 2 ≤ (l.filter (fun b => b.id == k)).length) →
    Diag.duplicateBody k ∈ (l.foldl bodyMapStep s).2 := by
  intro l
  induction l with
  | nil =>
    intro s k _ h
    rcases h with ⟨_, h1⟩ | h2
    · simp at h1
    · simp at h2
  | cons b t ih =>
    intro s k hk h
    rw [List.foldl_cons]
    by_cases hb : (b.id == k) = true
    · have hkb : b.id = k := beq_iff_eq.mp hb
      have hneg : ¬ b.id < 0 := by omega
      have hid : (normalizeSelfParent b).id = b.id := (normalizeSelfParent_fields b).1
      by_cases hcont : amapContains s.1 k = true
      · refine phase1_fold_diag_mono t _ _ ?_
        unfold bodyMapStep
        rw [if_neg hneg]
        simp only []
        rw [if_pos (by rw [hid, hkb]; exact hcont)]
        by_cases h1 : b.parentId = b.id
        · rw [if_pos h1, hid, hkb]
          exact List.mem_append_right _ (List.mem_singleton.mpr rfl)
        · rw [if_neg h1, hid, hkb]
          exact List.mem_append_right _ (List.mem_singleton.mpr rfl)
      · have hcount : 2 ≤ ((b :: t).filter (fun x => x.id == k)).length := by
          rcases h with ⟨hc, _⟩ | h2
          · exact absurd hc hcont
          · exact h2
        have htcount : 1 ≤ (t.filter (fun x => x.id == k)).length := by
          rw [List.filter_cons_of_pos (by simpa using hb)] at hcount
          simpa using Nat.le_of_succ_le_succ hcount
        refine ih _ k hk (Or.inl ⟨?_, htcount⟩)
        rw [bodyMapStep_fst s b hneg]
        rw [amapContains_iff, mem_keys_amapInsert]
        exact Or.inr (by rw [hid, hkb])
    · have hfilter : (b :: t).filter (fun x => x.id == k) = t.filter (fun x => x.id == k) :=
        List.filter_cons_of_neg (by simpa using hb)
      rw [hfilter] at h
      by_cases hneg : b.id < 0
      · rw [bodyMapStep_fst_skip s b hneg]
        exact ih s k hk h
      · refine ih _ k hk ?_
        rcases h with ⟨hc, h1⟩ | h2
        · refine Or.inl ⟨?_, h1⟩
          rw [bodyMapStep_fst s b hneg, amapContains_iff, mem_keys_amapInsert]
          exact Or.inl ((amapContains_iff _ _).mp hc)
        · exact Or.inr h2

theorem keys_appendChild (m : List (Int × CelestialBody)) (kp c : Int) :
    (appendChild m kp c).map Prod.fst = m.map Prod.fst := by
  unfold appendChild
  rw [List.map_map]
  apply List.map_congr_left
  intro e _
  simp only [Function.comp_apply]
  by_cases he : (e.1 == kp) = true
  · rw [if_pos he]
  · rw [if_neg he]

theorem amapLookup_eq_none_iff {α : Type} (m : List (Int × α)) (k : Int) :
    amapLookup m k = none ↔ k ∉ m.map Prod.fst := by
  induction m with
  | nil => simp [amapLookup]
  | cons e rest ih =>
    by_cases he : (e.1 == k) = true
    · rw [amapLookup, if_pos he]
      have : e.1 = k := by simpa using he
      simp [this]
    · rw [amapLookup, if_neg he]
      have h1 : ¬ e.1 = k := by simpa using he
      have h2 : ¬ k = e.1 := fun hc => h1 hc.symm
      simp [ih, h2]

theorem amapLookup_appendChild (m : List (Int × CelestialBody)) (kp c k : Int) :
    amapLookup (appendChild m kp c) k
      = if k = kp then
          (amapLookup m k).map (fun v => { v with children := v.children ++ [c] })
        else amapLookup m k := by
  induction m with
  | nil => by_cases h : k = kp <;> simp [appendChild, amapLookup, h]
  | cons e rest ih =>
    by_cases hek : (e.1 == k) = true
    · have hek' : e.1 = k := by simpa using hek
      by_cases hekp : (e.1 == kp) = true
      · have hekp' : e.1 = kp := by simpa using hekp
        have hkkp : k = kp := hek' ▸ hekp'
        simp only [appendChild, List.map_cons]
        rw [if_pos hekp]
        rw [amapLookup, if_pos (by simpa using hek'), if_pos hkkp]
        rw [amapLookup, if_pos hek]
        rfl
      · have hekp' : ¬ e.1 = kp := by simpa using hekp
        have hkkp : ¬ k = kp := fun hc => hekp' (hek' ▸ hc)
        simp only [appendChild, List.map_cons]
        rw [if_neg hekp]
        rw [amapLookup, if_pos hek, if_neg hkkp]
        rw [amapLookup, if_pos hek]
    · by_cases hekp : (e.1 == kp) = true
      · simp only [appendChild, List.map_cons]
        rw [if_pos hekp]
        rw [amapLookup, if_neg (by simpa using hek)]
        rw [amapLookup, if_neg hek]
        have : appendChild rest kp c = rest.map (fun e =>
            if e.1 == kp then (e.1, { e.2 with children := e.2.children ++ [c] }) else e) := rfl
        rw [← this, ih]
      · simp only [appendChild, List.map_cons]
        rw [if_neg hekp]
        rw [amapLookup, if_neg hek]
        rw [amapLookup, if_neg hek]
        have : appendChild rest kp c = rest.map (fun e =>
            if e.1 == kp then (e.1, { e.2 with children := e.2.children ++ [c] }) else e) := rfl
        rw [← this, ih]

theorem childLinkStep_self (m : List (Int × CelestialBody))
    (acc : List (Int × CelestialBody) × List Diag) (pr : Int × Int) (h : pr.2 = pr.1) :
    childLinkStep m acc pr = (acc.1, acc.2 ++ [Diag.childSelfLinkSkipped pr.1]) := by
  simp [childLinkStep, h]

theorem childLinkStep_app (m : List (Int × CelestialBody))
    (acc : List (Int × CelestialBody) × List Diag) (pr : Int × Int)
    (h1 : ¬ pr.2 = pr.1) (h2 : 0 ≤ pr.2 ∧ amapContains m pr.2 = true) :
    childLinkStep m acc pr = (appendChild acc.1 pr.2 pr.1, acc.2) := by
  simp [childLinkStep, h1, h2.1, h2.2]

theorem childLinkStep_skip (m : List (Int × CelestialBody))
    (acc : List (Int × CelestialBody) × List Diag) (pr : Int × Int)
    (h1 : ¬ pr.2 = pr.1) (h2 : ¬ (0 ≤ pr.2 ∧ amapContains m pr.2 = true)) :
    childLinkStep m acc pr = acc := by
  simp only [childLinkStep, if_neg h1, if_neg h2]

theorem childFold_keys (m : List (Int × CelestialBody)) :
    ∀ (pairs : List (Int × Int)) (mcur : List (Int × CelestialBody)) (d : List Diag),
    ((pairs.foldl (childLinkStep m) (mcur, d)).1).map Prod.fst = mcur.map Prod.fst := by
  intro pairs
  induction pairs with
  | nil => intro mcur d; rfl
  | cons pr t ih =>
    intro mcur d
    rw [List.foldl_cons]
    by_cases h1 : pr.2 = pr.1
    · rw [childLinkStep_self m _ pr h1]
      exact ih mcur _
    · by_cases h2 : 0 ≤ pr.2 ∧ amapContains m pr.2 = true
      · rw [childLinkStep_app m _ pr h1 h2]
        show ((t.foldl (childLinkStep m) (appendChild mcur pr.2 pr.1, d)).1).map Prod.fst
          = mcur.map Prod.fst
        rw [ih _ d, keys_appendChild]
      · rw [childLinkStep_skip m _ pr h1 h2]
        exact ih mcur d

theorem childFold_lookup (m : List (Int × CelestialBody)) :
    ∀ (pairs : List (Int × Int)) (mcur : List (Int × CelestialBody)) (d : List Diag)
      (kp : Int) (v : CelestialBody),
    amapLookup mcur kp = some v →
    amapLookup ((pairs.foldl (childLinkStep m) (mcur, d)).1) kp
      = some { v with children := v.children
          ++ (pairs.filter (fun pr =>
                decide (pr.2 ≠ pr.1 ∧ 0 ≤ pr.2 ∧ amapContains m pr.2 = true
                  ∧ pr.2 = kp))).map Prod.fst } := by
  intro pairs
  induction pairs with
  | nil =>
    intro mcur d kp v hv
    simpa using hv
  | cons pr t ih =>
    intro mcur d kp v hv
    rw [List.foldl_cons]
    by_cases h1 : pr.2 = pr.1
    · rw [childLinkStep_self m _ pr h1]
      rw [List.filter_cons_of_neg (by simp [h1])]
      exact ih mcur _ kp v hv
    · by_cases h2 : 0 ≤ pr.2 ∧ amapContains m pr.2 = true
      · rw [childLinkStep_app m _ pr h1 h2]
        by_cases h3 : pr.2 = kp
        · have hv' : amapLookup (appendChild mcur pr.2 pr.1) kp
              = some { v with children := v.children ++ [pr.1] } := by
            rw [amapLookup_appendChild, if_pos h3.symm, hv]
            rfl
          rw [List.filter_cons_of_pos (by
            simp only [decide_eq_true_eq]
            exact ⟨h1, h2.1, h2.2, h3⟩)]
          show amapLookup ((t.foldl (childLinkStep m) (appendChild mcur pr.2 pr.1, d)).1) kp = _
          rw [ih _ d kp _ hv']
          simp [List.append_assoc]
        · have hv' : amapLookup (appendChild mcur pr.2 pr.1) kp = some v := by
            rw [amapLookup_appendChild, if_neg (fun hc => h3 hc.symm)]
            exact hv
          rw [List.filter_cons_of_neg (by simp [h3])]
          show amapLookup ((t.foldl (childLinkStep m) (appendChild mcur pr.2 pr.1, d)).1) kp = _
          exact ih _ d kp v hv'
      · rw [childLinkStep_skip m _ pr h1 h2]
        rw [List.filter_cons_of_neg (by
          simp only [decide_eq_true_eq, not_and]
          intro _ hge hcont
          exact absurd ⟨hge, hcont⟩ h2)]
        exact ih mcur d kp v hv

theorem mem_childSnapshot (m : List (Int × CelestialBody)) (kc x : Int) :
    (kc, x) ∈ childSnapshot m ↔ ∃ v, (kc, v) ∈ m ∧ x = v.parentId := by
  simp only [childSnapshot, List.mem_map]
  constructor
  · rintro ⟨e, he, heq⟩
    have h1 : e.1 = kc := congrArg Prod.fst heq
    have h2 : e.2.parentId = x := congrArg Prod.snd heq
    refine ⟨e.2, ?_, h2.symm⟩
    have he2 : e = (kc, e.2) := Prod.ext h1 rfl
    rwa [he2] at he
  · rintro ⟨v, hv, rfl⟩
    exact ⟨(kc, v), hv, rfl⟩

theorem lastEntryWithId_mem :
    ∀ (l : List CelestialBody) (k : Int) (c : CelestialBody),
    lastEntryWithId l k = some c → c ∈ l ∧ c.id = k := by
  intro l
  induction l with
  | nil => intro k c h; cases h
  | cons b t ih =>
    intro k c h
    rw [lastEntryWithId_cons] at h
    rcases hlt : lastEntryWithId t k with _ | b'
    · rw [hlt] at h
      by_cases hb : (b.id == k) = true
      · simp only [hb, if_pos] at h
        have : b = c := by injection h
        subst this
        exact ⟨List.mem_cons_self _ _, by simpa using hb⟩
      · simp only [hb] at h
        cases h
    · rw [hlt] at h
      have hbc : b' = c := by injection h
      obtain ⟨hm, hid⟩ := ih k b' hlt
      exact ⟨List.mem_cons_of_mem _ (hbc ▸ hm), hbc ▸ hid⟩

theorem lastEntryWithId_exists :
    ∀ (l : List CelestialBody) (k : Int), (∃ b ∈ l, b.id = k) →
    ∃ c, lastEntryWithId l k = some c := by
  intro l
  induction l with
  | nil => rintro k ⟨b, hb, _⟩; cases hb
  | cons b t ih =>
    rintro k ⟨c, hc, hck⟩
    rw [lastEntryWithId_cons]
    rcases hlt : lastEntryWithId t k with _ | b'
    · rcases List.mem_cons.mp hc with rfl | hm
      · exact ⟨c, by simp [hck]⟩
      · obtain ⟨c', hc'⟩ := ih k ⟨c, hm, hck⟩
        rw [hc'] at hlt
        cases hlt
    · exact ⟨b', rfl⟩

theorem buildBodyMap_keys (bodies : List CelestialBody) :
    (buildBodyMap bodies).1.map Prod.fst = (buildBodyMapPhase1 bodies).1.map Prod.fst := by
  show ((addChildLinks (buildBodyMapPhase1 bodies).1).1).map Prod.fst = _
  unfold addChildLinks
  exact childFold_keys _ _ _ _

theorem buildBodyMap_snd (bodies : List CelestialBody) :
    (buildBodyMap bodies).2
      = (buildBodyMapPhase1 bodies).2 ++ (addChildLinks (buildBodyMapPhase1 bodies).1).2 := rfl

theorem buildBodyMap_lookup_of_phase1 (bodies : List CelestialBody) (k : Int)
    (v : CelestialBody) (h : amapLookup (buildBodyMapPhase1 bodies).1 k = some v) :
    amapLookup (buildBodyMap bodies).1 k
      = some { v with children := v.children
          ++ ((childSnapshot (buildBodyMapPhase1 bodies).1).filter (fun pr =>
                decide (pr.2 ≠ pr.1 ∧ 0 ≤ pr.2
                  ∧ amapContains (buildBodyMapPhase1 bodies).1 pr.2 = true
                  ∧ pr.2 = k))).map Prod.fst } := by
  show amapLookup ((addChildLinks (buildBodyMapPhase1 bodies).1).1) k = _
  unfold addChildLinks
  exact childFold_lookup _ _ _ _ k v h

/-- Claim C10: the returned map contains each id >= 0 at most once; its keys
are exactly the non-negative input ids (negative-id bodies are discarded);
on duplicate ids only the last entry's fields survive (modulo the self-parent
normalization, and with `children` rebuilt), and a duplicate diagnostic is
emitted. -/
theorem c10_build_body_map (bodies : List CelestialBody) :
    ((buildBodyMap bodies).1.map Prod.fst).Nodup
    ∧ (∀ k ∈ (buildBodyMap bodies).1.map Prod.fst, 0 ≤ k)
    ∧ (∀ k : Int, k ∈ (buildBodyMap bodies).1.map Prod.fst
        ↔ ∃ b ∈ bodies, 0 ≤ b.id ∧ b.id = k)
    ∧ (∀ (k : Int) (b : CelestialBody), 0 ≤ k → lastEntryWithId bodies k = some b →
        ∃ w, amapLookup (buildBodyMap bodies).1 k = some w
          ∧ sansChildren w = sansChildren (normalizeSelfParent b)
          ∧ w.name = b.name ∧ w.type = b.type)
    ∧ (∀ k : Int, 0 ≤ k → 2 ≤ (bodies.filter (fun b => b.id == k)).length →
        Diag.duplicateBody k ∈ (buildBodyMap bodies).2) := by
  have hkeys := buildBodyMap_keys bodies
  have hmem : ∀ k : Int, k ∈ (buildBodyMap bodies).1.map Prod.fst
      ↔ ∃ b ∈ bodies, 0 ≤ b.id ∧ b.id = k := by
    intro k
    rw [hkeys]
    have := phase1_fold_keys_mem bodies ([], []) k
    simpa [buildBodyMapPhase1] using this
  refine ⟨?_, ?_, hmem, ?_, ?_⟩
  · rw [hkeys]
    exact phase1_fold_keys_nodup bodies ([], []) (by simp)
  · intro k hk
    obtain ⟨b, _, h0, he⟩ := (hmem k).mp hk
    omega
  · intro k b hk hlast
    have hp1 : amapLookup (buildBodyMapPhase1 bodies).1 k = some (normalizeSelfParent b) :=
      (phase1_fold_lookup_last bodies ([], []) k hk).1 b hlast
    refine ⟨_, buildBodyMap_lookup_of_phase1 bodies k _ hp1, rfl, ?_, ?_⟩
    · exact (normalizeSelfParent_fields b).2.1
    · exact (normalizeSelfParent_fields b).2.2.1
  · intro k hk hcount
    rw [buildBodyMap_snd]
    exact List.mem_append_left _
      (phase1_fold_dup_diag bodies ([], []) k hk (Or.inr hcount))

/-- Witness for the C10 theorem at a concrete input: two bodies share id 7
(the later entry's name and type survive) and a negative-id body is
discarded. -/
theorem c10_build_body_map_witness :
    ((0 : Int) ≤ 7
      ∧ lastEntryWithId [c10DupSeven1, c10DupSeven2, c10Negative] 7 = some c10DupSeven2
      ∧ 2 ≤ (([c10DupSeven1, c10DupSeven2, c10Negative].filter
            (fun b => b.id == (7 : Int)))).length)
    ∧ (∃ w, amapLookup (buildBodyMap [c10DupSeven1, c10DupSeven2, c10Negative]).1 7 = some w
        ∧ sansChildren w = sansChildren (normalizeSelfParent c10DupSeven2)
        ∧ w.name = c10DupSeven2.name ∧ w.type = c10DupSeven2.type)
    ∧ Diag.duplicateBody 7 ∈ (buildBodyMap [c10DupSeven1, c10DupSeven2, c10Negative]).2
    ∧ ¬ ((-3 : Int) ∈ (buildBodyMap [c10DupSeven1, c10DupSeven2, c10Negative]).1.map Prod.fst) :=
  ⟨⟨by decide, by decide, by decide⟩,
    (c10_build_body_map [c10DupSeven1, c10DupSeven2, c10Negative]).2.2.2.1 7 c10DupSeven2
      (by decide) (by decide),
    (c10_build_body_map [c10DupSeven1, c10DupSeven2, c10Negative]).2.2.2.2 7
      (by decide) (by decide),
    fun hc => by
      have := (c10_build_body_map [c10DupSeven1, c10DupSeven2, c10Negative]).2.1 (-3) hc
      omega⟩

theorem buildBodyMap_entry_phase1 (bodies : List CelestialBody) :
    ∀ e ∈ (buildBodyMap bodies).1,
      ∃ v, amapLookup (buildBodyMapPhase1 bodies).1 e.1 = some v
        ∧ 0 ≤ e.1 ∧ e.2.id = v.id ∧ e.2.parentId = v.parentId
        ∧ e.2.children = v.children
            ++ ((childSnapshot (buildBodyMapPhase1 bodies).1).filter (fun pr =>
                  decide (pr.2 ≠ pr.1 ∧ 0 ≤ pr.2
                    ∧ amapContains (buildBodyMapPhase1 bodies).1 pr.2 = true
                    ∧ pr.2 = e.1))).map Prod.fst
        ∧ ∃ c ∈ bodies, v = normalizeSelfParent c ∧ c.id = e.1 := by
  intro e he
  have hnd1 : ((buildBodyMapPhase1 bodies).1.map Prod.fst).Nodup := by
    have := phase1_fold_keys_nodup bodies ([], []) (by simp)
    simpa [buildBodyMapPhase1] using this
  have hndM : ((buildBodyMap bodies).1.map Prod.fst).Nodup := by
    rw [buildBodyMap_keys]; exact hnd1
  have hlookM : amapLookup (buildBodyMap bodies).1 e.1 = some e.2 :=
    amapLookup_of_mem _ _ _ hndM (by simpa using he)
  have hkmem : e.1 ∈ (buildBodyMap bodies).1.map Prod.fst :=
    List.mem_map.mpr ⟨e, he, rfl⟩
  have hkmem1 : e.1 ∈ (buildBodyMapPhase1 bodies).1.map Prod.fst := by
    rwa [buildBodyMap_keys] at hkmem
  have hexist : ∃ b ∈ bodies, 0 ≤ b.id ∧ b.id = e.1 := by
    have := phase1_fold_keys_mem bodies ([], []) e.1
    simp only [buildBodyMapPhase1] at hkmem1
    have h2 := this.mp hkmem1
    simpa using h2
  obtain ⟨b, hb, hb0, hbid⟩ := hexist
  have hk0 : 0 ≤ e.1 := by omega
  obtain ⟨c, hc⟩ := lastEntryWithId_exists bodies e.1 ⟨b, hb, hbid⟩
  obtain ⟨hcmem, hcid⟩ := lastEntryWithId_mem bodies e.1 c hc
  have hp1 : amapLookup (buildBodyMapPhase1 bodies).1 e.1 = some (normalizeSelfParent c) := by
    have := (phase1_fold_lookup_last bodies ([], []) e.1 hk0).1 c hc
    simpa [buildBodyMapPhase1] using this
  have hfin := buildBodyMap_lookup_of_phase1 bodies e.1 _ hp1
  rw [hlookM] at hfin
  have he2 : e.2 = { normalizeSelfParent c with
      children := (normalizeSelfParent c).children
        ++ ((childSnapshot (buildBodyMapPhase1 bodies).1).filter (fun pr =>
              decide (pr.2 ≠ pr.1 ∧ 0 ≤ pr.2
                ∧ amapContains (buildBodyMapPhase1 bodies).1 pr.2 = true
                ∧ pr.2 = e.1))).map Prod.fst } := by
    injection hfin
  refine ⟨normalizeSelfParent c, hp1, hk0, ?_, ?_, ?_, c, hcmem, rfl, hcid⟩
  · rw [he2]
  · rw [he2]
  · rw [he2]

/-- Claim C6: a body whose raw parentId equals its own id survives in the
map with parentId rerouted to the virtual-root id (relation "Null",
orbitsBarycenter true), except the body carrying the virtual-root id itself,
whose parent is cleared to -1 with orbitsBarycenter false; no map entry has
parentId equal to its own id. -/
theorem c6_self_parent_rerouting (bodies : List CelestialBody) :
    (∀ b : CelestialBody, 0 ≤ b.id → lastEntryWithId bodies b.id = some b →
        b.parentId = b.id →
        (b.id ≠ kExternalVirtualBarycenterMarkerId →
          ∃ w, amapLookup (buildBodyMap bodies).1 b.id = some w
            ∧ w.parentId = kExternalVirtualBarycenterMarkerId
            ∧ w.parentRelationType = "Null" ∧ w.orbitsBarycenter = true)
        ∧ (b.id = kExternalVirtualBarycenterMarkerId →
          ∃ w, amapLookup (buildBodyMap bodies).1 b.id = some w
            ∧ w.parentId = -1 ∧ w.parentRelationType = "Null"
            ∧ w.orbitsBarycenter = false))
    ∧ (∀ e ∈ (buildBodyMap bodies).1, e.2.parentId ≠ e.2.id) := by
  constructor
  · intro b h0 hlast hself
    have hp1 : amapLookup (buildBodyMapPhase1 bodies).1 b.id = some (normalizeSelfParent b) := by
      have := (phase1_fold_lookup_last bodies ([], []) b.id h0).1 b hlast
      simpa [buildBodyMapPhase1] using this
    constructor
    · intro hid
      have hv : normalizeSelfParent b
          = { b with parentId := kExternalVirtualBarycenterMarkerId,
                     orbitsBarycenter := true, parentRelationType := "Null" } := by
        unfold normalizeSelfParent
        rw [if_pos hself, if_neg hid]
      refine ⟨_, buildBodyMap_lookup_of_phase1 bodies b.id _ hp1, ?_, ?_, ?_⟩
      · rw [hv]
      · rw [hv]
      · rw [hv]
    · intro hid
      have hv : normalizeSelfParent b
          = { b with parentId := -1, orbitsBarycenter := false,
                     parentRelationType := "Null" } := by
        unfold normalizeSelfParent
        rw [if_pos hself, if_pos hid]
      refine ⟨_, buildBodyMap_lookup_of_phase1 bodies b.id _ hp1, ?_, ?_, ?_⟩
      · rw [hv]
      · rw [hv]
      · rw [hv]
  · intro e he
    obtain ⟨v, _, _, hid, hpid, _, c, _, hvc, _⟩ := buildBodyMap_entry_phase1 bodies e he
    rw [hid, hpid, hvc]
    exact normalizeSelfParent_no_self c

/-- Witness for the C6 theorem at concrete inputs: a self-parent body id 5 is
rerouted onto the virtual root, the self-parent id-0 body has its parent
cleared. -/
theorem c6_self_parent_rerouting_witness :
    ((0 : Int) ≤ c6SelfFive.id
      ∧ lastEntryWithId [c6SelfFive, c6SelfZero] c6SelfFive.id = some c6SelfFive
      ∧ c6SelfFive.parentId = c6SelfFive.id ∧ c6SelfFive.id ≠ kExternalVirtualBarycenterMarkerId
      ∧ c6SelfZero.id = kExternalVirtualBarycenterMarkerId)
    ∧ (∃ w, amapLookup (buildBodyMap [c6SelfFive, c6SelfZero]).1 c6SelfFive.id = some w
        ∧ w.parentId = kExternalVirtualBarycenterMarkerId
        ∧ w.parentRelationType = "Null" ∧ w.orbitsBarycenter = true)
    ∧ (∃ w, amapLookup (buildBodyMap [c6SelfFive, c6SelfZero]).1 c6SelfZero.id = some w
        ∧ w.parentId = -1 ∧ w.parentRelationType = "Null" ∧ w.orbitsBarycenter = false) :=
  ⟨⟨by decide, by decide, by decide, by decide, by decide⟩,
    ((c6_self_parent_rerouting [c6SelfFive, c6SelfZero]).1 c6SelfFive (by decide)
      (by decide) (by decide)).1 (by decide),
    ((c6_self_parent_rerouting [c6SelfFive, c6SelfZero]).1 c6SelfZero (by decide)
      (by decide) (by decide)).2 (by decide)⟩

/-- Claim C9, counterexample.  `buildBodyMap` never clears a pre-set
`children` list: body 1 arrives with children [2] although body 2's parent
is -1, so in the returned map 2 appears in body 1's children while
2's parentId is not 1 — the claimed equivalence fails for inputs with
pre-populated children. -/
theorem c9_counterexample :
    ((amapLookup (buildBodyMap c9PresetChildren).1 1).map (fun v => v.children) = some [2])
    ∧ ((amapLookup (buildBodyMap c9PresetChildren).1 2).map (fun v => v.parentId)
        = some (-1)) := by
  exact ⟨rfl, rfl⟩

/-- Claim C9, amended: for input bodies whose `children` sequences are empty
(as produced by the resolution pipeline), the children sequences of the
returned map are exactly the inverse of the parentId edges: for map entries
p and c, c's id appears in p's children iff c.parentId = p.id and
c.id ≠ p.id. -/
theorem c9_children_exact_inverse (bodies : List CelestialBody)
    (hch : ∀ b ∈ bodies, b.children = []) :
    ∀ ep ∈ (buildBodyMap bodies).1, ∀ ec ∈ (buildBodyMap bodies).1,
      (ec.2.id ∈ ep.2.children ↔ (ec.2.parentId = ep.2.id ∧ ec.2.id ≠ ep.2.id)) := by
  intro ep hep ec hec
  obtain ⟨vp, hvp, hp0, hpid, _, hpch, cp, hcpmem, hvcp, hcpid⟩ :=
    buildBodyMap_entry_phase1 bodies ep hep
  obtain ⟨vc, hvc, _, hcid, hcpid2, _, cc, hccmem, hvcc, hccid⟩ :=
    buildBodyMap_entry_phase1 bodies ec hec
  have hnd1 : ((buildBodyMapPhase1 bodies).1.map Prod.fst).Nodup := by
    have := phase1_fold_keys_nodup bodies ([], []) (by simp)
    simpa [buildBodyMapPhase1] using this
  have hvpch : vp.children = [] := by
    rw [hvcp, (normalizeSelfParent_fields cp).2.2.2]
    exact hch cp hcpmem
  have hecid : ec.2.id = ec.1 := by
    rw [hcid, hvcc, (normalizeSelfParent_fields cc).1, hccid]
  have hepid : ep.2.id = ep.1 := by
    rw [hpid, hvcp, (normalizeSelfParent_fields cp).1, hcpid]
  rw [hpch, hvpch, List.nil_append, hecid, hepid, hcpid2]
  constructor
  · intro hmem
    obtain ⟨pr, hprf, hpr1⟩ := List.mem_map.mp hmem
    obtain ⟨hprmem, hcond⟩ := List.mem_filter.mp hprf
    rw [decide_eq_true_eq] at hcond
    obtain ⟨hne, _, _, hkp⟩ := hcond
    have hpr : (pr.1, pr.2) ∈ childSnapshot (buildBodyMapPhase1 bodies).1 := by
      rwa [Prod.mk.eta]
    obtain ⟨u, humem, hupr⟩ := (mem_childSnapshot _ pr.1 pr.2).mp hpr
    have hulook : amapLookup (buildBodyMapPhase1 bodies).1 pr.1 = some u :=
      amapLookup_of_mem _ _ _ hnd1 humem
    rw [hpr1, hvc] at hulook
    have huvc : u = vc := by injection hulook with h; exact h.symm
    constructor
    · rw [← huvc, ← hupr, hkp]
    · rw [← hpr1]
      intro hc
      exact hne (by rw [hkp, ← hc])
  · rintro ⟨hpar, hne⟩
    refine List.mem_map.mpr ⟨(ec.1, vc.parentId), List.mem_filter.mpr ⟨?_, ?_⟩, rfl⟩
    · exact (mem_childSnapshot _ ec.1 vc.parentId).mpr
        ⟨vc, mem_of_amapLookup _ _ _ hvc, rfl⟩
    · rw [decide_eq_true_eq]
      refine ⟨?_, ?_, ?_, hpar⟩
      · show vc.parentId ≠ ec.1
        rw [hpar]
        exact fun hc => hne hc.symm
      · show (0 : Int) ≤ vc.parentId
        rw [hpar]
        exact hp0
      · show amapContains (buildBodyMapPhase1 bodies).1 vc.parentId = true
        rw [hpar, amapContains_iff]
        exact List.mem_map.mpr ⟨(ep.1, vp), mem_of_amapLookup _ _ _ hvp, rfl⟩

/-- Witness for the amended C9 theorem at a concrete input: body 2 is
parented on body 1 and appears exactly once in body 1's children. -/
theorem c9_children_exact_inverse_witness :
    (∀ b ∈ c9WitnessBodies, b.children = [])
    ∧ c9Entry1 ∈ (buildBodyMap c9WitnessBodies).1
    ∧ c9Entry2 ∈ (buildBodyMap c9WitnessBodies).1
    ∧ (c9Entry2.2.id ∈ c9Entry1.2.children
        ↔ (c9Entry2.2.parentId = c9Entry1.2.id ∧ c9Entry2.2.id ≠ c9Entry1.2.id)) :=
  ⟨by decide, by decide, by decide,
    c9_children_exact_inverse c9WitnessBodies (by decide) c9Entry1 (by decide)
      c9Entry2 (by decide)⟩

theorem amapContains_eq_isSome {α : Type} (m : List (Int × α)) (k : Int) :
    amapContains m k = (amapLookup m k).isSome := by
  induction m with
  | nil => rfl
  | cons e rest ih =>
    by_cases he : (e.1 == k) = true
    · simp [amapContains, amapLookup, he]
    · have he' : (e.1 == k) = false := Bool.of_not_eq_true he
      simp only [amapContains, List.any_cons]
      rw [he', Bool.false_or, amapLookup, if_neg he]
      exact ih

theorem mergeInsertEdsm_fold_lookup :
    ∀ (l : List CelestialBody) (m0 : List (Int × CelestialBody)) (k : Int), 0 ≤ k →
    (∀ b, lastEntryWithId l k = some b →
        amapLookup (l.foldl (fun m b => if 0 ≤ b.id then amapInsert m b.id b else m) m0) k
          = some b)
    ∧ (lastEntryWithId l k = none →
        amapLookup (l.foldl (fun m b => if 0 ≤ b.id then amapInsert m b.id b else m) m0) k
          = amapLookup m0 k) := by
  intro l
  induction l with
  | nil =>
    intro m0 k _
    exact ⟨(fun b h => nomatch h), (fun _ => rfl)⟩
  | cons b t ih =>
    intro m0 k hk
    rw [List.foldl_cons]
    by_cases h0 : 0 ≤ b.id
    · rw [if_pos h0]
      constructor
      · intro c hc
        rw [lastEntryWithId_cons] at hc
        rcases hlt : lastEntryWithId t k with _ | b'
        · rw [hlt] at hc
          by_cases hb : (b.id == k) = true
          · simp only [hb, if_pos] at hc
            have hbc : b = c := by injection hc
            have hkb : k = b.id := (beq_iff_eq.mp hb).symm
            rw [(ih _ k hk).2 hlt, amapLookup_amapInsert, if_pos hkb, hbc]
          · simp only [hb] at hc
            cases hc
        · rw [hlt] at hc
          have hbc : b' = c := by injection hc
          exact (ih _ k hk).1 c (hbc ▸ hlt)
      · intro hc
        rw [lastEntryWithId_cons] at hc
        rcases hlt : lastEntryWithId t k with _ | b'
        · rw [hlt] at hc
          by_cases hb : (b.id == k) = true
          · simp only [hb, if_pos] at hc
            cases hc
          · have hkb : ¬ k = b.id := by
              intro hcc
              rw [hcc] at hb
              simp at hb
            rw [(ih _ k hk).2 hlt, amapLookup_amapInsert, if_neg hkb]
        · rw [hlt] at hc
          cases hc
    · rw [if_neg h0]
      have hb : (b.id == k) = false := by
        simp only [beq_eq_false_iff_ne, ne_eq]
        omega
      constructor
      · intro c hc
        rw [lastEntryWithId_cons] at hc
        rcases hlt : lastEntryWithId t k with _ | b'
        · rw [hlt] at hc
          simp only [hb] at hc
          cases hc
        · rw [hlt] at hc
          have hbc : b' = c := by injection hc
          exact (ih m0 k hk).1 c (hbc ▸ hlt)
      · intro hc
        rw [lastEntryWithId_cons] at hc
        rcases hlt : lastEntryWithId t k with _ | b'
        · exact (ih m0 k hk).2 hlt
        · rw [hlt] at hc
          cases hc

theorem spanshMergeStep_fst (st : List (Int × CelestialBody) × Bool) (b : CelestialBody) :
    (spanshMergeStep st b).1 = if b.id < 0 then st.1 else amapInsert st.1 b.id b := by
  unfold spanshMergeStep
  by_cases h0 : b.id < 0
  · rw [if_pos h0, if_pos h0]
  · rw [if_neg h0, if_neg h0]
    by_cases h1 : amapContains st.1 b.id = false
    · rw [if_pos h1]
    · rw [if_neg h1]

theorem spanshFold_lookup :
    ∀ (l : List CelestialBody) (st : List (Int × CelestialBody) × Bool) (k : Int), 0 ≤ k →
    (∀ b, lastEntryWithId l k = some b →
        amapLookup (l.foldl spanshMergeStep st).1 k = some b)
    ∧ (lastEntryWithId l k = none →
        amapLookup (l.foldl spanshMergeStep st).1 k = amapLookup st.1 k) := by
  intro l
  induction l with
  | nil =>
    intro st k _
    exact ⟨(fun b h => nomatch h), (fun _ => rfl)⟩
  | cons b t ih =>
    intro st k hk
    rw [List.foldl_cons]
    have hfst : (spanshMergeStep st b).1
        = if b.id < 0 then st.1 else amapInsert st.1 b.id b := spanshMergeStep_fst st b
    by_cases h0 : b.id < 0
    · rw [if_pos h0] at hfst
      have hb : (b.id == k) = false := by
        simp only [beq_eq_false_iff_ne, ne_eq]
        omega
      constructor
      · intro c hc
        rw [lastEntryWithId_cons] at hc
        rcases hlt : lastEntryWithId t k with _ | b'
        · rw [hlt] at hc
          simp only [hb] at hc
          cases hc
        · rw [hlt] at hc
          have hbc : b' = c := by injection hc
          have := (ih (spanshMergeStep st b) k hk).1 c (hbc ▸ hlt)
          exact this
      · intro hc
        rw [lastEntryWithId_cons] at hc
        rcases hlt : lastEntryWithId t k with _ | b'
        · rw [(ih (spanshMergeStep st b) k hk).2 hlt, hfst]
        · rw [hlt] at hc
          cases hc
    · rw [if_neg h0] at hfst
      constructor
      · intro c hc
        rw [lastEntryWithId_cons] at hc
        rcases hlt : lastEntryWithId t k with _ | b'
        · rw [hlt] at hc
          by_cases hb : (b.id == k) = true
          · simp only [hb, if_pos] at hc
            have hbc : b = c := by injection hc
            have hkb : k = b.id := (beq_iff_eq.mp hb).symm
            rw [(ih (spanshMergeStep st b) k hk).2 hlt, hfst,
              amapLookup_amapInsert, if_pos hkb, hbc]
          · simp only [hb] at hc
            cases hc
        · rw [hlt] at hc
          have hbc : b' = c := by injection hc
          exact (ih (spanshMergeStep st b) k hk).1 c (hbc ▸ hlt)
      · intro hc
        rw [lastEntryWithId_cons] at hc
        rcases hlt : lastEntryWithId t k with _ | b'
        · rw [hlt] at hc
          by_cases hb : (b.id == k) = true
          · simp only [hb, if_pos] at hc
            cases hc
          · have hkb : ¬ k = b.id := by
              intro hcc
              rw [hcc] at hb
              simp at hb
            rw [(ih (spanshMergeStep st b) k hk).2 hlt, hfst,
              amapLookup_amapInsert, if_neg hkb]
        · rw [hlt] at hc
          cases hc

theorem stubFold_preserve :
    ∀ (l : List CelestialBody) (m : List (Int × CelestialBody)) (k : Int) (v : CelestialBody),
    amapLookup m k = some v → amapLookup (mergeAddStubs l m) k = some v := by
  intro l
  induction l with
  | nil => intro m k v h; exact h
  | cons b t ih =>
    intro m k v h
    unfold mergeAddStubs
    rw [List.foldl_cons]
    by_cases hc : 0 ≤ b.parentId ∧ amapContains m b.parentId = false
    · rw [if_pos hc]
      have hne : ¬ k = b.parentId := by
        intro hkp
        have : amapContains m k = true := by
          rw [amapContains_eq_isSome, h]
          rfl
        rw [hkp] at this
        rw [this] at hc
        exact absurd hc.2 (by simp)
      have h' : amapLookup (amapInsert m b.parentId (mergeStub b.parentId)) k = some v := by
        rw [amapLookup_amapInsert, if_neg hne]
        exact h
      exact ih _ k v h'
    · rw [if_neg hc]
      exact ih m k v h

theorem stubFold_adds :
    ∀ (l : List CelestialBody) (m : List (Int × CelestialBody)) (p : Int),
    0 ≤ p → amapContains m p = false → (∃ b ∈ l, b.parentId = p) →
    amapLookup (mergeAddStubs l m) p = some (mergeStub p) := by
  intro l
  induction l with
  | nil => rintro m p _ _ ⟨b, hb, _⟩; cases hb
  | cons b t ih =>
    rintro m p h0 hcont ⟨c, hc, hcp⟩
    unfold mergeAddStubs
    rw [List.foldl_cons]
    by_cases hbp : b.parentId = p
    · rw [if_pos (by rw [hbp]; exact ⟨h0, hcont⟩)]
      have hins : amapLookup (amapInsert m b.parentId (mergeStub b.parentId)) p
          = some (mergeStub p) := by
        rw [hbp, amapLookup_amapInsert, if_pos rfl]
      exact stubFold_preserve t _ p _ hins
    · have hstill : ∀ m' : List (Int × CelestialBody),
          amapContains m' p = false →
          (∃ d ∈ t, d.parentId = p) →
          amapLookup (mergeAddStubs t m') p = some (mergeStub p) := fun m' a b => ih m' p h0 a b
      have hwit : ∃ d ∈ t, d.parentId = p := by
        rcases List.mem_cons.mp hc with rfl | hm
        · exact absurd hcp hbp
        · exact ⟨c, hm, hcp⟩
      by_cases hcnd : 0 ≤ b.parentId ∧ amapContains m b.parentId = false
      · rw [if_pos hcnd]
        refine hstill _ ?_ hwit
        rw [amapContains_eq_isSome, amapLookup_amapInsert, if_neg (fun hc2 => hbp hc2.symm),
          ← amapContains_eq_isSome]
        exact hcont
      · rw [if_neg hcnd]
        exact hstill m hcont hwit

theorem mergeInsertEdsm_keys_mem :
    ∀ (l : List CelestialBody) (m0 : List (Int × CelestialBody)) (k : Int),
    k ∈ (l.foldl (fun m b => if 0 ≤ b.id then amapInsert m b.id b else m) m0).map Prod.fst
      ↔ k ∈ m0.map Prod.fst ∨ ∃ b ∈ l, 0 ≤ b.id ∧ b.id = k := by
  intro l
  induction l with
  | nil => intro m0 k; simp
  | cons b t ih =>
    intro m0 k
    rw [List.foldl_cons]
    by_cases h0 : 0 ≤ b.id
    · rw [if_pos h0, ih, mem_keys_amapInsert]
      constructor
      · rintro ((h | rfl) | ⟨c, hc, hrest⟩)
        · exact Or.inl h
        · exact Or.inr ⟨b, List.mem_cons_self _ _, h0, rfl⟩
        · exact Or.inr ⟨c, List.mem_cons_of_mem _ hc, hrest⟩
      · rintro (h | ⟨c, hc, hc0, hck⟩)
        · exact Or.inl (Or.inl h)
        · rcases List.mem_cons.mp hc with rfl | hm
          · exact Or.inl (Or.inr hck.symm)
          · exact Or.inr ⟨c, hm, hc0, hck⟩
    · rw [if_neg h0, ih]
      constructor
      · rintro (h | ⟨c, hc, hrest⟩)
        · exact Or.inl h
        · exact Or.inr ⟨c, List.mem_cons_of_mem _ hc, hrest⟩
      · rintro (h | ⟨c, hc, hc0, hck⟩)
        · exact Or.inl h
        · rcases List.mem_cons.mp hc with rfl | hm
          · exact absurd hc0 h0
          · exact Or.inr ⟨c, hm, hc0, hck⟩

theorem spanshFold_keys_mem :
    ∀ (l : List CelestialBody) (st : List (Int × CelestialBody) × Bool) (k : Int),
    k ∈ ((l.foldl spanshMergeStep st).1).map Prod.fst
      ↔ k ∈ st.1.map Prod.fst ∨ ∃ b ∈ l, 0 ≤ b.id ∧ b.id = k := by
  intro l
  induction l with
  | nil => intro st k; simp
  | cons b t ih =>
    intro st k
    rw [List.foldl_cons, ih]
    have hfst := spanshMergeStep_fst st b
    by_cases h0 : b.id < 0
    · rw [if_pos h0] at hfst
      rw [hfst]
      constructor
      · rintro (h | ⟨c, hc, hrest⟩)
        · exact Or.inl h
        · exact Or.inr ⟨c, List.mem_cons_of_mem _ hc, hrest⟩
      · rintro (h | ⟨c, hc, hc0, hck⟩)
        · exact Or.inl h
        · rcases List.mem_cons.mp hc with rfl | hm
          · exact absurd hc0 (by omega)
          · exact Or.inr ⟨c, hm, hc0, hck⟩
    · rw [if_neg h0] at hfst
      rw [hfst, mem_keys_amapInsert]
      constructor
      · rintro ((h | rfl) | ⟨c, hc, hrest⟩)
        · exact Or.inl h
        · exact Or.inr ⟨b, List.mem_cons_self _ _, by omega, rfl⟩
        · exact Or.inr ⟨c, List.mem_cons_of_mem _ hc, hrest⟩
      · rintro (h | ⟨c, hc, hc0, hck⟩)
        · exact Or.inl (Or.inl h)
        · rcases List.mem_cons.mp hc with rfl | hm
          · exact Or.inl (Or.inr hck.symm)
          · exact Or.inr ⟨c, hm, hc0, hck⟩

theorem stubFold_keys_mem :
    ∀ (l : List CelestialBody) (m : List (Int × CelestialBody)) (k : Int),
    k ∈ (mergeAddStubs l m).map Prod.fst
      ↔ k ∈ m.map Prod.fst ∨ ∃ b ∈ l, 0 ≤ b.parentId ∧ b.parentId = k := by
  intro l
  induction l with
  | nil => intro m k; simp [mergeAddStubs]
  | cons b t ih =>
    intro m k
    unfold mergeAddStubs
    rw [List.foldl_cons]
    by_cases hc : 0 ≤ b.parentId ∧ amapContains m b.parentId = false
    · rw [if_pos hc]
      have := ih (amapInsert m b.parentId (mergeStub b.parentId)) k
      unfold mergeAddStubs at this
      rw [this, mem_keys_amapInsert]
      constructor
      · rintro ((h | rfl) | ⟨c, hcm, hrest⟩)
        · exact Or.inl h
        · exact Or.inr ⟨b, List.mem_cons_self _ _, hc.1, rfl⟩
        · exact Or.inr ⟨c, List.mem_cons_of_mem _ hcm, hrest⟩
      · rintro (h | ⟨c, hcm, hc0, hck⟩)
        · exact Or.inl (Or.inl h)
        · rcases List.mem_cons.mp hcm with rfl | hm
          · exact Or.inl (Or.inr hck.symm)
          · exact Or.inr ⟨c, hm, hc0, hck⟩
    · rw [if_neg hc]
      have := ih m k
      unfold mergeAddStubs at this
      rw [this]
      constructor
      · rintro (h | ⟨c, hcm, hrest⟩)
        · exact Or.inl h
        · exact Or.inr ⟨c, List.mem_cons_of_mem _ hcm, hrest⟩
      · rintro (h | ⟨c, hcm, hc0, hck⟩)
        · exact Or.inl h
        · rcases List.mem_cons.mp hcm with heq | hm
          · rw [heq] at hc0 hck
            by_cases hcm2 : amapContains m b.parentId = false
            · exact absurd ⟨hc0, hcm2⟩ hc
            · have hmem : b.parentId ∈ m.map Prod.fst := by
                rw [← amapContains_iff]
                exact Bool.of_not_eq_false hcm2
              exact Or.inl (hck ▸ hmem)
          · exact Or.inr ⟨c, hm, hc0, hck⟩

theorem spanshFold_flag :
    ∀ (l : List CelestialBody) (m0 mcur : List (Int × CelestialBody)) (f0 : Bool),
    (l.map (fun b => b.id)).Nodup →
    (∀ b ∈ l, amapLookup mcur b.id = amapLookup m0 b.id) →
    (l.foldl spanshMergeStep (mcur, f0)).2
      = (f0 || l.any (fun b => decide (0 ≤ b.id)
            && amapContains m0 b.id
            && mergeConflictWith ((amapLookup m0 b.id).getD {}) b)) := by
  intro l
  induction l with
  | nil => intro m0 mcur f0 _ _; simp
  | cons b t ih =>
    intro m0 mcur f0 hnd hlk
    simp only [List.map_cons, List.nodup_cons] at hnd
    have hbid : b.id ∉ t.map (fun b => b.id) := hnd.1
    have hndt : (t.map (fun b => b.id)).Nodup := hnd.2
    have hlb : amapLookup mcur b.id = amapLookup m0 b.id :=
      hlk b (List.mem_cons_self _ _)
    have hcb : amapContains mcur b.id = amapContains m0 b.id := by
      rw [amapContains_eq_isSome, amapContains_eq_isSome, hlb]
    have hlk2 : ∀ c ∈ t, amapLookup (amapInsert mcur b.id b) c.id = amapLookup m0 c.id := by
      intro c hc
      have hcne : ¬ c.id = b.id := by
        intro hce
        exact hbid (hce ▸ List.mem_map.mpr ⟨c, hc, rfl⟩)
      rw [amapLookup_amapInsert, if_neg hcne]
      exact hlk c (List.mem_cons_of_mem _ hc)
    have hlkt : ∀ c ∈ t, amapLookup mcur c.id = amapLookup m0 c.id :=
      fun c hc => hlk c (List.mem_cons_of_mem _ hc)
    rw [List.foldl_cons]
    by_cases h0 : b.id < 0
    · have hstep : spanshMergeStep (mcur, f0) b = (mcur, f0) := by
        unfold spanshMergeStep
        rw [if_pos h0]
      rw [hstep, ih m0 mcur f0 hndt hlkt]
      have hterm : decide (0 ≤ b.id) = false := by
        simp only [decide_eq_false_iff_not]
        omega
      rw [List.any_cons, hterm]
      simp
    · by_cases hcont : amapContains m0 b.id = false
      · have hstep : spanshMergeStep (mcur, f0) b = (amapInsert mcur b.id b, f0) := by
          unfold spanshMergeStep
          rw [if_neg h0, if_pos (by rw [hcb]; exact hcont)]
        rw [hstep, ih m0 _ f0 hndt hlk2]
        have hterm : (decide (0 ≤ b.id) && amapContains m0 b.id
            && mergeConflictWith ((amapLookup m0 b.id).getD {}) b) = false := by
          rw [hcont]
          simp
        rw [List.any_cons, hterm, Bool.false_or]
      · have hcont' : amapContains m0 b.id = true := Bool.of_not_eq_false hcont
        have hstep : spanshMergeStep (mcur, f0) b
            = (amapInsert mcur b.id b,
               f0 || mergeConflictWith ((amapLookup mcur b.id).getD {}) b) := by
          unfold spanshMergeStep
          rw [if_neg h0, if_neg (by rw [hcb, hcont']; simp)]
        rw [hstep, hlb, ih m0 _ _ hndt hlk2]
        have hd : decide (0 ≤ b.id) = true := by
          simp only [decide_eq_true_eq]
          omega
        rw [List.any_cons, hd, hcont']
        simp only [Bool.true_and]
        rw [Bool.or_assoc]

/-- Claim C8, counterexample.  An EDSM-only body referencing absent parent 99
gets no stub: the stub loop iterates the Spansh list only, so the claim's
"every parent id referenced by a kept secondary-source body gets a stub"
fails. -/
theorem c8_counterexample :
    (mergeBodies [c8EdsmOrphan] []).1 = [c8EdsmOrphan]
    ∧ c8EdsmOrphan.parentId = 99
    ∧ ((mergeBodies [c8EdsmOrphan] []).1.all (fun b => !(b.id == 99))) = true := by
  exact ⟨rfl, rfl, rfl⟩

/-- Claim C8, amended: ids present in both sets take the (last) Spansh
version; ids present only in the EDSM set are kept as-is; the had-conflict
flag is set exactly when some Spansh body collides with a merged EDSM entry
whose non-empty name or non-empty type differs; and minimal stubs
(name "Body X", type "Unknown") are synthesized for absent parent ids
referenced by SPANSH-source bodies only — parents referenced only by
EDSM-side bodies get no stub. -/
theorem c8_merge_bodies (e s : List CelestialBody) :
    (mergeBodies e s).1 = (mergedById e s).map Prod.snd
    ∧ (∀ (k : Int) (b : CelestialBody), 0 ≤ k → lastEntryWithId s k = some b →
        amapLookup (mergedById e s) k = some b)
    ∧ (∀ (k : Int) (a : CelestialBody), 0 ≤ k → lastEntryWithId s k = none →
        lastEntryWithId e k = some a →
        amapLookup (mergedById e s) k = some a)
    ∧ (∀ b ∈ s, 0 ≤ b.parentId →
        amapContains (s.foldl spanshMergeStep (mergeInsertEdsm e, false)).1 b.parentId
          = false →
        amapLookup (mergedById e s) b.parentId = some (mergeStub b.parentId)
          ∧ (mergeStub b.parentId).name = "Body " ++ toString b.parentId
          ∧ (mergeStub b.parentId).type = "Unknown")
    ∧ (∀ k : Int, k ∈ (mergedById e s).map Prod.fst
        ↔ (∃ a ∈ e, 0 ≤ a.id ∧ a.id = k) ∨ (∃ b ∈ s, 0 ≤ b.id ∧ b.id = k)
          ∨ (∃ b ∈ s, 0 ≤ b.parentId ∧ b.parentId = k))
    ∧ ((s.map (fun b => b.id)).Nodup →
        ((mergeBodies e s).2 = true
          ↔ ∃ b ∈ s, (0 ≤ b.id) ∧ amapContains (mergeInsertEdsm e) b.id = true
              ∧ mergeConflictWith ((amapLookup (mergeInsertEdsm e) b.id).getD {}) b
                = true)) := by
  refine ⟨rfl, ?_, ?_, ?_, ?_, ?_⟩
  · intro k b hk hlast
    have h2 := (spanshFold_lookup s (mergeInsertEdsm e, false) k hk).1 b hlast
    exact stubFold_preserve s _ k b h2
  · intro k a hk hnone hlast
    have h1 : amapLookup (mergeInsertEdsm e) k = some a := by
      have := (mergeInsertEdsm_fold_lookup e [] k hk).1 a hlast
      simpa [mergeInsertEdsm] using this
    have h2 : amapLookup (s.foldl spanshMergeStep (mergeInsertEdsm e, false)).1 k
        = some a := by
      rw [(spanshFold_lookup s (mergeInsertEdsm e, false) k hk).2 hnone]
      exact h1
    exact stubFold_preserve s _ k a h2
  · intro b hb h0 habsent
    exact ⟨stubFold_adds s _ b.parentId h0 habsent ⟨b, hb, rfl⟩, rfl, rfl⟩
  · intro k
    unfold mergedById
    rw [stubFold_keys_mem, spanshFold_keys_mem]
    have he : k ∈ (mergeInsertEdsm e).map Prod.fst ↔ ∃ a ∈ e, 0 ≤ a.id ∧ a.id = k := by
      have := mergeInsertEdsm_keys_mem e [] k
      simpa [mergeInsertEdsm] using this
    constructor
    · rintro ((h | h2) | h3)
      · exact Or.inl (he.mp h)
      · exact Or.inr (Or.inl h2)
      · exact Or.inr (Or.inr h3)
    · rintro (h | h2 | h3)
      · exact Or.inl (Or.inl (he.mpr h))
      · exact Or.inl (Or.inr h2)
      · exact Or.inr h3
  · intro hnd
    have := spanshFold_flag s (mergeInsertEdsm e) (mergeInsertEdsm e) false hnd
      (fun _ _ => rfl)
    show (s.foldl spanshMergeStep (mergeInsertEdsm e, false)).2 = true ↔ _
    rw [this, Bool.false_or, List.any_eq_true]
    constructor
    · rintro ⟨b, hb, hcond⟩
      simp only [Bool.and_eq_true, decide_eq_true_eq] at hcond
      exact ⟨b, hb, hcond.1.1, hcond.1.2, hcond.2⟩
    · rintro ⟨b, hb, h1, h2, h3⟩
      refine ⟨b, hb, ?_⟩
      simp only [Bool.and_eq_true, decide_eq_true_eq]
      exact ⟨⟨h1, h2⟩, h3⟩

/-- Witness for the amended C8 theorem at concrete inputs: Spansh body 4
replaces EDSM body 4 with a conflict flagged, and Spansh's absent parent 50
gets a stub. -/
theorem c8_merge_bodies_witness :
    ((0 : Int) ≤ 4 ∧ lastEntryWithId [c8SpanshFour] 4 = some c8SpanshFour)
    ∧ amapLookup (mergedById [c8EdsmFour] [c8SpanshFour]) 4 = some c8SpanshFour
    ∧ amapLookup (mergedById [c8EdsmFour] [c8SpanshFour]) 50 = some (mergeStub 50)
    ∧ (mergeBodies [c8EdsmFour] [c8SpanshFour]).2 = true :=
  ⟨⟨by decide, by decide⟩,
    (c8_merge_bodies [c8EdsmFour] [c8SpanshFour]).2.1 4 c8SpanshFour (by decide) (by decide),
    ((c8_merge_bodies [c8EdsmFour] [c8SpanshFour]).2.2.2.1 c8SpanshFour (by decide)
      (by decide) (by decide)).1,
    ((c8_merge_bodies [c8EdsmFour] [c8SpanshFour]).2.2.2.2.2 (by decide)).mpr
      ⟨c8SpanshFour, by decide, by decide, by decide, by decide⟩⟩

/-- Step equation: `applyDirectParentFromChain` on an empty chain leaves the
previous out-parameter values untouched and emits no diagnostic. -/
theorem applyDirect_nil (existing bary : List Int) (bodyId : Int)
    (st : Int × String × Bool) :
    applyDirectParentFromChain [] existing bary bodyId st = (st, []) := rfl

/-- Step equation: a valid nearest normalized link is taken, silently. -/
theorem applyDirect_cons_valid (first : ParentRef) (rest : List ParentRef)
    (existing bary : List Int) (bodyId : Int) (st : Int × String × Bool)
    (h : isCandidateValidFor existing bary (normalizeParentRef first) = true) :
    applyDirectParentFromChain (first :: rest) existing bary bodyId st
      = (((normalizeParentRef first).bodyId, (normalizeParentRef first).type,
          isBarycenterRef (normalizeParentRef first).type), []) := by
  simp only [applyDirectParentFromChain]
  rw [if_pos h]

/-- Step equation: with an invalid nearest link, the first valid link further
out is selected and the parents-order-mismatch diagnostic is emitted. -/
theorem applyDirect_cons_fwd (first : ParentRef) (rest : List ParentRef)
    (existing bary : List Int) (bodyId : Int) (st : Int × String × Bool)
    (selected : ParentRef)
    (h : ¬ isCandidateValidFor existing bary (normalizeParentRef first) = true)
    (hf : (rest.map normalizeParentRef).find? (isCandidateValidFor existing bary)
        = some selected) :
    applyDirectParentFromChain (first :: rest) existing bary bodyId st
      = ((selected.bodyId, selected.type, isBarycenterRef selected.type),
         [Diag.parentsOrderMismatch bodyId selected (normalizeParentRef first)]) := by
  simp only [applyDirectParentFromChain]
  rw [if_neg h, hf]

/-- Step equation: with no valid link anywhere, the nearest normalized link
is kept verbatim, silently. -/
theorem applyDirect_cons_keep (first : ParentRef) (rest : List ParentRef)
    (existing bary : List Int) (bodyId : Int) (st : Int × String × Bool)
    (h : ¬ isCandidateValidFor existing bary (normalizeParentRef first) = true)
    (hf : (rest.map normalizeParentRef).find? (isCandidateValidFor existing bary)
        = none) :
    applyDirectParentFromChain (first :: rest) existing bary bodyId st
      = (((normalizeParentRef first).bodyId, (normalizeParentRef first).type,
          isBarycenterRef (normalizeParentRef first).type), []) := by
  simp only [applyDirectParentFromChain]
  rw [if_neg h, hf]

/-- The candidate check unfolded to its three admission conditions. -/
theorem isCandidateValidFor_iff (existing bary : List Int) (c : ParentRef) :
    isCandidateValidFor existing bary c = true ↔
      (isVirtualRootRef c = true ∨ (setContains existing c.bodyId = true ∧
        (isBarycenterRef c.type = true → setContains bary c.bodyId = true))) := by
  unfold isCandidateValidFor
  cases hv : isVirtualRootRef c <;> cases he : setContains existing c.bodyId <;>
    cases hb : isBarycenterRef c.type <;> simp [hv, he, hb]

/-- C4 (counterexample): with chain "Null:5, Star:1", seen ids 5 and 1
and no known barycenter ids, the claim's selection rule (first entry that is
the virtual-root sentinel or a seen id, with no barycenter requirement)
picks the "Null:5" link, but the code rejects it (5 is not a known
barycenter id) and selects "Star:1" instead. -/
theorem c4_counterexample :
    specFirstChainPass c4Chain c4Existing = some { type := "Null", bodyId := 5 }
    ∧ (applyDirectParentFromChain c4Chain c4Existing [] 10 (-1, "", false)).1
        = (1, "Star", false) :=
  ⟨by decide, by decide⟩

/-- C4 (amended): immediate-parent selection takes the first normalized chain
entry passing the candidate check — where passing means being the
virtual-root sentinel, or a seen body id which, for a Null/Bary-typed
reference, must additionally be a known barycenter id — with the
parents-order diagnostic emitted exactly when the selected entry is not the
nearest one; when no entry passes, the nearest normalized entry is kept
verbatim; the fallback runs exactly when the applied parent id is negative or
fails the existence check (a failed fallback clearing an invalid reference),
and the fallback itself tries the planet-reference fields before the
star-reference fields before the `parent` object. -/
theorem c4_direct_parent_selection
    (parentChain : List ParentRef) (existing bary : List Int) (bodyId : Int)
    (st : Int × String × Bool) (bodyObj : Json) :
    (∀ c : ParentRef, isCandidateValidFor existing bary c = true ↔
      (isVirtualRootRef c = true ∨ (setContains existing c.bodyId = true ∧
        (isBarycenterRef c.type = true → setContains bary c.bodyId = true))))
    ∧ (parentChain = [] →
        applyDirectParentFromChain parentChain existing bary bodyId st = (st, []))
    ∧ (∀ first rest c, parentChain = first :: rest →
        (parentChain.map normalizeParentRef).find? (isCandidateValidFor existing bary)
          = some c →
        (applyDirectParentFromChain parentChain existing bary bodyId st).1
            = (c.bodyId, c.type, isBarycenterRef c.type)
          ∧ ((applyDirectParentFromChain parentChain existing bary bodyId st).2 = []
              ↔ isCandidateValidFor existing bary (normalizeParentRef first) = true))
    ∧ (∀ first rest, parentChain = first :: rest →
        (parentChain.map normalizeParentRef).find? (isCandidateValidFor existing bary)
          = none →
        applyDirectParentFromChain parentChain existing bary bodyId st
          = (((normalizeParentRef first).bodyId, (normalizeParentRef first).type,
              isBarycenterRef (normalizeParentRef first).type), []))
    ∧ (¬ ((appliedChainParent parentChain existing bary bodyId).1.1 < 0
          ∨ (0 ≤ (appliedChainParent parentChain existing bary bodyId).1.1
             ∧ isParentReferenceValid
                 (appliedChainParent parentChain existing bary bodyId).1.1 existing
               = false)) →
        resolveParentWithFallback bodyObj parentChain existing bary bodyId
          = appliedChainParent parentChain existing bary bodyId)
    ∧ (∀ fp ft d,
        ((appliedChainParent parentChain existing bary bodyId).1.1 < 0
          ∨ (0 ≤ (appliedChainParent parentChain existing bary bodyId).1.1
             ∧ isParentReferenceValid
                 (appliedChainParent parentChain existing bary bodyId).1.1 existing
               = false)) →
        resolveFallbackParent bodyObj existing = some (fp, ft, d) →
        (resolveParentWithFallback bodyObj parentChain existing bary bodyId).1
          = (fp, ft, isBarycenterRef ft))
    ∧ (((appliedChainParent parentChain existing bary bodyId).1.1 < 0
          ∨ (0 ≤ (appliedChainParent parentChain existing bary bodyId).1.1
             ∧ isParentReferenceValid
                 (appliedChainParent parentChain existing bary bodyId).1.1 existing
               = false)) →
        resolveFallbackParent bodyObj existing = none →
        (resolveParentWithFallback bodyObj parentChain existing bary bodyId).1
          = if 0 ≤ (appliedChainParent parentChain existing bary bodyId).1.1
               ∧ isParentReferenceValid
                   (appliedChainParent parentChain existing bary bodyId).1.1 existing
                 = false
            then (-1, "", false)
            else (appliedChainParent parentChain existing bary bodyId).1.1
              |> fun p => (p, (appliedChainParent parentChain existing bary bodyId).1.2.1,
                  (appliedChainParent parentChain existing bary bodyId).1.2.2))
    ∧ (0 ≤ readInt bodyObj ["parentPlanetID", "parentPlanetId", "parent_planet_id"] (-1)
        ∧ isParentReferenceValid
            (readInt bodyObj ["parentPlanetID", "parentPlanetId", "parent_planet_id"] (-1))
            existing = true →
        resolveFallbackParent bodyObj existing
          = some (readInt bodyObj ["parentPlanetID", "parentPlanetId", "parent_planet_id"] (-1),
              "Planet",
              "parentPlanetId="
                ++ toString (readInt bodyObj
                    ["parentPlanetID", "parentPlanetId", "parent_planet_id"] (-1))))
    ∧ (¬ (0 ≤ readInt bodyObj ["parentPlanetID", "parentPlanetId", "parent_planet_id"] (-1)
          ∧ isParentReferenceValid
              (readInt bodyObj ["parentPlanetID", "parentPlanetId", "parent_planet_id"] (-1))
              existing = true) →
        0 ≤ readInt bodyObj ["parentStarID", "parentStarId", "parent_star_id"] (-1)
          ∧ isParentReferenceValid
              (readInt bodyObj ["parentStarID", "parentStarId", "parent_star_id"] (-1))
              existing = true →
        resolveFallbackParent bodyObj existing
          = some (readInt bodyObj ["parentStarID", "parentStarId", "parent_star_id"] (-1),
              "Star",
              "parentStarId="
                ++ toString (readInt bodyObj
                    ["parentStarID", "parentStarId", "parent_star_id"] (-1))))
    ∧ (∀ pf : JsonFields,
        ¬ (0 ≤ readInt bodyObj ["parentPlanetID", "parentPlanetId", "parent_planet_id"] (-1)
          ∧ isParentReferenceValid
              (readInt bodyObj ["parentPlanetID", "parentPlanetId", "parent_planet_id"] (-1))
              existing = true) →
        ¬ (0 ≤ readInt bodyObj ["parentStarID", "parentStarId", "parent_star_id"] (-1)
          ∧ isParentReferenceValid
              (readInt bodyObj ["parentStarID", "parentStarId", "parent_star_id"] (-1))
              existing = true) →
        jsonField bodyObj "parent" = some (Json.jobj pf) →
        0 ≤ (fallbackParentObjectRef pf).bodyId
          ∧ isParentReferenceValid (fallbackParentObjectRef pf).bodyId existing = true →
        resolveFallbackParent bodyObj existing
          = some ((fallbackParentObjectRef pf).bodyId, (fallbackParentObjectRef pf).type,
              "parent.object(type=" ++ (fallbackParentObjectRef pf).type ++ ",id="
                ++ toString (fallbackParentObjectRef pf).bodyId ++ ")")) := by
  refine ⟨isCandidateValidFor_iff existing bary, ?_, ?_, ?_, ?_, ?_, ?_, ?_, ?_, ?_⟩
  · intro h
    subst h
    exact applyDirect_nil existing bary bodyId st
  · intro first rest c hchain hfind
    subst hchain
    by_cases h1 : isCandidateValidFor existing bary (normalizeParentRef first) = true
    · rw [List.map_cons, List.find?_cons_of_pos _ h1] at hfind
      injection hfind with hc
      subst hc
      rw [applyDirect_cons_valid first rest existing bary bodyId st h1]
      exact ⟨rfl, by simp [h1]⟩
    · rw [List.map_cons, List.find?_cons_of_neg _ h1] at hfind
      rw [applyDirect_cons_fwd first rest existing bary bodyId st c h1 hfind]
      exact ⟨rfl, by simp [h1]⟩
  · intro first rest hchain hfind
    subst hchain
    by_cases h1 : isCandidateValidFor existing bary (normalizeParentRef first) = true
    · rw [List.map_cons, List.find?_cons_of_pos _ h1] at hfind
      exact absurd hfind (by simp)
    · rw [List.map_cons, List.find?_cons_of_neg _ h1] at hfind
      exact applyDirect_cons_keep first rest existing bary bodyId st h1 hfind
  · intro h
    simp only [resolveParentWithFallback]
    rw [if_neg h]
  · intro fp ft d htrig hfb
    simp only [resolveParentWithFallback]
    rw [if_pos htrig, hfb]
  · intro htrig hfb
    simp only [resolveParentWithFallback]
    rw [if_pos htrig, hfb]
    by_cases hc2 : 0 ≤ (appliedChainParent parentChain existing bary bodyId).1.1
        ∧ isParentReferenceValid
            (appliedChainParent parentChain existing bary bodyId).1.1 existing = false
    · rw [if_pos hc2, if_pos hc2]
    · rw [if_neg hc2, if_neg hc2]
  · intro hp
    simp only [resolveFallbackParent]
    rw [if_pos hp]
  · intro hp hs
    simp only [resolveFallbackParent]
    rw [if_neg hp, if_pos hs]
  · intro pf hp hs hpar hok
    simp only [resolveFallbackParent]
    rw [if_neg hp, if_neg hs, hpar]
    simp only [fallbackParentObjectRef] at hok ⊢
    rw [if_pos hok]

/-- Witness for the amended C4 theorem at concrete inputs: on the
counterexample chain the code selects "Star:1" (the "Null:5" link failing
the barycenter requirement), and on the witness object the fallback takes
the star-reference field because the planet-reference id 3 is unseen. -/
theorem c4_direct_parent_selection_witness :
    (applyDirectParentFromChain c4Chain c4Existing [] 10 (-1, "", false)).1
      = (1, "Star", isBarycenterRef "Star")
    ∧ resolveFallbackParent c4BodyObj c4Existing = some (1, "Star", "parentStarId=1") := by
  have h := c4_direct_parent_selection c4Chain c4Existing [] 10 (-1, "", false) c4BodyObj
  constructor
  · have h3 := h.2.2.1 { type := "Null", bodyId := 5 } [{ type := "Star", bodyId := 1 }]
      { type := "Star", bodyId := 1 } (by decide) (by decide)
    exact h3.1
  · exact h.2.2.2.2.2.2.2.2.1 (by decide) (by decide)

/-- Step equation: a guard hit fails the walk. -/
theorem canReachFuel_guard (m : List (Int × CelestialBody)) (fuel : Nat)
    (guard : List Int) (bodyId : Int) (h : setContains guard bodyId = true) :
    canReachFuel m (fuel + 1) guard bodyId = false := by
  simp [canReachFuel, h]

/-- Step equation: a missing body fails the walk. -/
theorem canReachFuel_missing (m : List (Int × CelestialBody)) (fuel : Nat)
    (guard : List Int) (bodyId : Int) (hg : setContains guard bodyId = false)
    (hl : amapLookup m bodyId = none) :
    canReachFuel m (fuel + 1) guard bodyId = false := by
  simp [canReachFuel, hg, hl]

/-- Step equation: a Star-classed body or the virtual root succeeds. -/
theorem canReachFuel_hit (m : List (Int × CelestialBody)) (fuel : Nat)
    (guard : List Int) (bodyId : Int) (body : CelestialBody)
    (hg : setContains guard bodyId = false) (hl : amapLookup m bodyId = some body)
    (hs : body.bodyClass = BodyClass.Star
      ∨ body.id = kExternalVirtualBarycenterMarkerId) :
    canReachFuel m (fuel + 1) guard bodyId = true := by
  simp [canReachFuel, hg, hl, hs]

/-- Step equation: an absent or unknown parent fails the walk. -/
theorem canReachFuel_noparent (m : List (Int × CelestialBody)) (fuel : Nat)
    (guard : List Int) (bodyId : Int) (body : CelestialBody)
    (hg : setContains guard bodyId = false) (hl : amapLookup m bodyId = some body)
    (hs : ¬ (body.bodyClass = BodyClass.Star
      ∨ body.id = kExternalVirtualBarycenterMarkerId))
    (hp : body.parentId < 0 ∨ amapContains m body.parentId = false) :
    canReachFuel m (fuel + 1) guard bodyId = false := by
  simp [canReachFuel, hg, hl, hs, hp]

/-- Step equation: otherwise the walk recurses on the parent with the
current id added to the guard. -/
theorem canReachFuel_rec (m : List (Int × CelestialBody)) (fuel : Nat)
    (guard : List Int) (bodyId : Int) (body : CelestialBody)
    (hg : setContains guard bodyId = false) (hl : amapLookup m bodyId = some body)
    (hs : ¬ (body.bodyClass = BodyClass.Star
      ∨ body.id = kExternalVirtualBarycenterMarkerId))
    (hp : ¬ (body.parentId < 0 ∨ amapContains m body.parentId = false)) :
    canReachFuel m (fuel + 1) guard bodyId
      = canReachFuel m fuel (setInsert guard bodyId) body.parentId := by
  simp [canReachFuel, hg, hl, hs, hp]

/-- Filter-length monotonicity along a pointwise implication. -/
theorem filter_length_mono (l : List Int) (p q : Int → Bool)
    (hpq : ∀ k, p k = true → q k = true) :
    (l.filter p).length ≤ (l.filter q).length := by
  induction l with
  | nil => simp
  | cons a tl ih =>
    by_cases hp : p a = true
    · rw [List.filter_cons_of_pos hp, List.filter_cons_of_pos (hpq a hp)]
      simpa using ih
    · rw [List.filter_cons_of_neg hp]
      by_cases hq : q a = true
      · rw [List.filter_cons_of_pos hq]
        exact Nat.le_succ_of_le ih
      · rw [List.filter_cons_of_neg hq]
        exact ih

/-- Strict filter-length decrease at an element only the larger filter
keeps. -/
theorem filter_length_strict (l : List Int) (p q : Int → Bool)
    (hpq : ∀ k, p k = true → q k = true) (b : Int) (hb : b ∈ l)
    (hqb : q b = true) (hpb : p b = false) :
    (l.filter p).length < (l.filter q).length := by
  induction l with
  | nil => cases hb
  | cons a tl ih =>
    rcases List.mem_cons.mp hb with rfl | hbtl
    · rw [List.filter_cons_of_neg (by simp [hpb]), List.filter_cons_of_pos hqb]
      exact Nat.lt_succ_of_le (filter_length_mono tl p q hpq)
    · by_cases hp : p a = true
      · rw [List.filter_cons_of_pos hp, List.filter_cons_of_pos (hpq a hp)]
        simpa using ih hbtl
      · rw [List.filter_cons_of_neg hp]
        by_cases hq : q a = true
        · rw [List.filter_cons_of_pos hq]
          exact Nat.lt_succ_of_lt (ih hbtl)
        · rw [List.filter_cons_of_neg hq]
          exact ih hbtl

/-- Inserting an unvisited key strictly decreases the walk's measure. -/
theorem guardMissing_lt (m : List (Int × CelestialBody)) (guard : List Int)
    (b : Int) (hb : b ∈ m.map Prod.fst) (hg : setContains guard b = false) :
    guardMissing m (setInsert guard b) < guardMissing m guard := by
  refine filter_length_strict (m.map Prod.fst) _ _ ?_ b hb ?_ ?_
  · intro k hk
    simp only [Bool.not_eq_true'] at hk ⊢
    cases hc : setContains guard k with
    | false => rfl
    | true =>
      exfalso
      have hkg : k ∈ guard := (setContains_iff guard k).mp hc
      have : setContains (setInsert guard b) k = true :=
        (setContains_iff _ k).mpr ((mem_setInsert guard b k).mpr (Or.inl hkg))
      rw [this] at hk
      cases hk
  · simp [hg]
  · have hmem : b ∈ setInsert guard b := (mem_setInsert guard b b).mpr (Or.inr rfl)
    have : setContains (setInsert guard b) b = true := (setContains_iff _ b).mpr hmem
    simp [this]

/-- The walk's measure is at most the map size. -/
theorem guardMissing_le (m : List (Int × CelestialBody)) (guard : List Int) :
    guardMissing m guard ≤ m.length := by
  unfold guardMissing
  calc ((m.map Prod.fst).filter (fun k => !setContains guard k)).length
      ≤ (m.map Prod.fst).length := List.length_filter_le _ _
    _ = m.length := List.length_map _ _

/-- Fuel stability: above the measure, one more unit of fuel does not change
the walk's verdict. -/
theorem canReachFuel_stable (m : List (Int × CelestialBody)) :
    ∀ fuel guard bodyId, guardMissing m guard < fuel →
      canReachFuel m (fuel + 1) guard bodyId = canReachFuel m fuel guard bodyId := by
  intro fuel
  induction fuel with
  | zero =>
    intro guard bodyId h
    omega
  | succ k ih =>
    intro guard bodyId h
    by_cases hg : setContains guard bodyId = true
    · rw [canReachFuel_guard m (k + 1) guard bodyId hg,
        canReachFuel_guard m k guard bodyId hg]
    · have hg' : setContains guard bodyId = false := by
        cases hgc : setContains guard bodyId with
        | false => rfl
        | true => exact absurd hgc hg
      cases hl : amapLookup m bodyId with
      | none =>
        rw [canReachFuel_missing m (k + 1) guard bodyId hg' hl,
          canReachFuel_missing m k guard bodyId hg' hl]
      | some body =>
        by_cases hs : body.bodyClass = BodyClass.Star
            ∨ body.id = kExternalVirtualBarycenterMarkerId
        · rw [canReachFuel_hit m (k + 1) guard bodyId body hg' hl hs,
            canReachFuel_hit m k guard bodyId body hg' hl hs]
        · by_cases hp : body.parentId < 0 ∨ amapContains m body.parentId = false
          · rw [canReachFuel_noparent m (k + 1) guard bodyId body hg' hl hs hp,
              canReachFuel_noparent m k guard bodyId body hg' hl hs hp]
          · rw [canReachFuel_rec m (k + 1) guard bodyId body hg' hl hs hp,
              canReachFuel_rec m k guard bodyId body hg' hl hs hp]
            apply ih
            have hkey : bodyId ∈ m.map Prod.fst :=
              List.mem_map.mpr ⟨(bodyId, body), mem_of_amapLookup m bodyId body hl, rfl⟩
            have hlt := guardMissing_lt m guard bodyId hkey hg'
            omega

/-- Any fuel of at least `m.length + 1` computes the driver's verdict. -/
theorem canReachFuel_ge (m : List (Int × CelestialBody)) (bodyId : Int) :
    ∀ f, m.length + 1 ≤ f →
      canReachFuel m f [] bodyId = canReachStarOrCenterRoot m bodyId := by
  intro f hf
  induction f, hf using Nat.le_induction with
  | base => rfl
  | succ n hn ih =>
    rw [← ih]
    exact canReachFuel_stable m n [] bodyId (by
      have := guardMissing_le m []
      omega)

/-- A successful lookup implies map membership of the key. -/
theorem amapContains_of_lookup {α : Type} (m : List (Int × α)) (k : Int) (v : α)
    (h : amapLookup m k = some v) : amapContains m k = true :=
  (amapContains_iff m k).mpr (List.mem_map.mpr ⟨(k, v), mem_of_amapLookup m k v h, rfl⟩)

/-- A contained key has a successful lookup. -/
theorem lookup_of_amapContains {α : Type} (m : List (Int × α)) (k : Int)
    (h : amapContains m k = true) : ∃ v, amapLookup m k = some v := by
  rw [amapContains_eq_isSome] at h
  exact Option.isSome_iff_exists.mp h

/-- Iteration step through a known hop. -/
theorem parentIterate_succ (m : List (Int × CelestialBody)) (n : Nat) (b p : Int)
    (h : parentHop m b = some p) :
    parentIterate m (n + 1) b = parentIterate m n p := by
  simp [parentIterate, h]

/-- Iteration dies on a missing hop. -/
theorem parentIterate_succ_none (m : List (Int × CelestialBody)) (n : Nat) (b : Int)
    (h : parentHop m b = none) :
    parentIterate m (n + 1) b = none := by
  simp [parentIterate, h]

/-- Iteration extended by one hop at the far end. -/
theorem parentIterate_snoc (m : List (Int × CelestialBody)) :
    ∀ n b v, parentIterate m n b = some v →
      parentIterate m (n + 1) b = parentHop m v := by
  intro n
  induction n with
  | zero =>
    intro b v h
    injection h with h
    subst h
    cases hh : parentHop m b with
    | none => simp [parentIterate, hh]
    | some p => simp [parentIterate, hh]
  | succ n ih =>
    intro b v h
    cases hh : parentHop m b with
    | none => rw [parentIterate_succ_none m n b hh] at h; cases h
    | some p =>
      rw [parentIterate_succ m n b p hh] at h
      rw [parentIterate_succ m (n + 1) b p hh]
      exact ih p v h

/-- The success test unfolded. -/
theorem isStarOrRootAt_iff (m : List (Int × CelestialBody)) (v : Int) :
    isStarOrRootAt m v = true ↔ ∃ body, amapLookup m v = some body
      ∧ (body.bodyClass = BodyClass.Star
        ∨ body.id = kExternalVirtualBarycenterMarkerId) := by
  unfold isStarOrRootAt
  cases hl : amapLookup m v with
  | none => simp
  | some body =>
    by_cases hs : body.bodyClass = BodyClass.Star
        ∨ body.id = kExternalVirtualBarycenterMarkerId
    · simp [hs]
    · simp [hs]

/-- A successful walk exhibits a parent path shorter than the fuel ending at
a Star or the virtual root. -/
theorem canReachFuel_true_reach (m : List (Int × CelestialBody)) :
    ∀ fuel guard b, canReachFuel m fuel guard b = true →
      ∃ n, n < fuel ∧ ∃ p, parentIterate m n b = some p
        ∧ isStarOrRootAt m p = true := by
  intro fuel
  induction fuel with
  | zero =>
    intro guard b h
    simp [canReachFuel] at h
  | succ k ih =>
    intro guard b h
    by_cases hg : setContains guard b = true
    · rw [canReachFuel_guard m k guard b hg] at h; cases h
    · have hg' : setContains guard b = false := by
        cases hgc : setContains guard b with
        | false => rfl
        | true => exact absurd hgc hg
      cases hl : amapLookup m b with
      | none => rw [canReachFuel_missing m k guard b hg' hl] at h; cases h
      | some body =>
        by_cases hs : body.bodyClass = BodyClass.Star
            ∨ body.id = kExternalVirtualBarycenterMarkerId
        · refine ⟨0, Nat.succ_pos k, b, rfl, ?_⟩
          exact (isStarOrRootAt_iff m b).mpr ⟨body, hl, hs⟩
        · by_cases hp : body.parentId < 0 ∨ amapContains m body.parentId = false
          · rw [canReachFuel_noparent m k guard b body hg' hl hs hp] at h; cases h
          · rw [canReachFuel_rec m k guard b body hg' hl hs hp] at h
            obtain ⟨n, hn, p, hit, hstar⟩ := ih (setInsert guard b) body.parentId h
            refine ⟨n + 1, by omega, p, ?_, hstar⟩
            rw [parentIterate_succ m n b body.parentId (by simp [parentHop, hl])]
            exact hit

/-- If the parent path from `b` visits pairwise-distinct, guard-free ids
(non-negative from the first hop on) and first meets a Star or the virtual
root at step `n`, the walk succeeds on any fuel above `n`. -/
theorem canReachFuel_of_path (m : List (Int × CelestialBody)) :
    ∀ n fuel guard b, n < fuel →
      (∀ i, i ≤ n → (parentIterate m i b).isSome = true) →
      (∀ i j, i < j → j ≤ n → parentIterate m i b ≠ parentIterate m j b) →
      (∀ i v, i ≤ n → parentIterate m i b = some v → setContains guard v = false) →
      (∀ i v, 1 ≤ i → i ≤ n → parentIterate m i b = some v → 0 ≤ v) →
      (∀ i v, i < n → parentIterate m i b = some v → isStarOrRootAt m v = false) →
      (∀ v, parentIterate m n b = some v → isStarOrRootAt m v = true) →
      canReachFuel m fuel guard b = true := by
  intro n
  induction n with
  | zero =>
    intro fuel guard b hfuel hpath hdist hguard hnn hnostar hhit
    obtain ⟨body, hl, hs⟩ := (isStarOrRootAt_iff m b).mp (hhit b rfl)
    obtain ⟨k, rfl⟩ : ∃ k, fuel = k + 1 := ⟨fuel - 1, by omega⟩
    exact canReachFuel_hit m k guard b body (hguard 0 b (Nat.le_refl 0) rfl) hl hs
  | succ n ih =>
    intro fuel guard b hfuel hpath hdist hguard hnn hnostar hhit
    have h1 : (parentIterate m 1 b).isSome = true := hpath 1 (by omega)
    obtain ⟨body, hl⟩ : ∃ body, amapLookup m b = some body := by
      cases hl : amapLookup m b with
      | none =>
        exfalso
        have hno : parentHop m b = none := by simp [parentHop, hl]
        rw [parentIterate_succ_none m 0 b hno] at h1
        simp at h1
      | some body => exact ⟨body, rfl⟩
    have hhop : parentHop m b = some body.parentId := by simp [parentHop, hl]
    have hshift : ∀ i, parentIterate m (i + 1) b = parentIterate m i body.parentId :=
      fun i => parentIterate_succ m i b body.parentId hhop
    have hs0 : isStarOrRootAt m b = false := hnostar 0 b (Nat.succ_pos n) rfl
    have hs : ¬ (body.bodyClass = BodyClass.Star
        ∨ body.id = kExternalVirtualBarycenterMarkerId) := by
      intro hcon
      have hok := (isStarOrRootAt_iff m b).mpr ⟨body, hl, hcon⟩
      rw [hs0] at hok
      cases hok
    have hp1 : parentIterate m 1 b = some body.parentId := by
      rw [hshift 0]; rfl
    have hpnn : 0 ≤ body.parentId := hnn 1 body.parentId (Nat.le_refl 1) (by omega) hp1
    have hpc : amapContains m body.parentId = true := by
      by_cases hn1 : n = 0
      · subst hn1
        obtain ⟨body', hl', _⟩ := (isStarOrRootAt_iff m body.parentId).mp
          (hhit body.parentId hp1)
        exact amapContains_of_lookup m body.parentId body' hl'
      · have h2 : (parentIterate m 2 b).isSome = true := hpath 2 (by omega)
        rw [show (2 : Nat) = 1 + 1 from rfl, hshift 1] at h2
        cases hl' : amapLookup m body.parentId with
        | none =>
          exfalso
          have hno : parentHop m body.parentId = none := by simp [parentHop, hl']
          rw [parentIterate_succ_none m 0 body.parentId hno] at h2
          simp at h2
        | some body' => exact amapContains_of_lookup m body.parentId body' hl'
    have hp : ¬ (body.parentId < 0 ∨ amapContains m body.parentId = false) := by
      rintro (hbad | hbad)
      · omega
      · rw [hpc] at hbad; cases hbad
    have hg : setContains guard b = false := hguard 0 b (Nat.zero_le _) rfl
    obtain ⟨k, rfl⟩ : ∃ k, fuel = k + 1 := ⟨fuel - 1, by omega⟩
    rw [canReachFuel_rec m k guard b body hg hl hs hp]
    apply ih k (setInsert guard b) body.parentId (by omega)
    · intro i hi
      rw [← hshift i]
      exact hpath (i + 1) (by omega)
    · intro i j hij hj heq
      rw [← hshift i, ← hshift j] at heq
      exact hdist (i + 1) (j + 1) (by omega) (by omega) heq
    · intro i v hi hiv
      rw [← hshift i] at hiv
      have hgv : setContains guard v = false := hguard (i + 1) v (by omega) hiv
      have hvb : v ≠ b := by
        intro hvb
        subst hvb
        exact hdist 0 (i + 1) (by omega) (by omega) (by rw [hiv]; rfl)
      cases hc : setContains (setInsert guard b) v with
      | false => rfl
      | true =>
        exfalso
        have hv : v ∈ setInsert guard b := (setContains_iff _ v).mp hc
        rcases (mem_setInsert guard b v).mp hv with hvg | hvb'
        · rw [(setContains_iff guard v).mpr hvg] at hgv; cases hgv
        · exact hvb hvb'
    · intro i v h1i hi hiv
      rw [← hshift i] at hiv
      exact hnn (i + 1) v (by omega) (by omega) hiv
    · intro i v hi hiv
      rw [← hshift i] at hiv
      exact hnostar (i + 1) v (by omega) hiv
    · intro v hv
      rw [← hshift n] at hv
      exact hhit v hv

/-- Under a closed map, a failing walk on a mapped id exhibits a repeated
node (a parent cycle) within `m.length` hops. -/
theorem cycle_of_unreachable (m : List (Int × CelestialBody))
    (hclosed : closedParentMap m) (b : Int) (hb : amapContains m b = true)
    (hfail : canReachStarOrCenterRoot m b = false) :
    ∃ i j, i < j ∧ j ≤ m.length ∧ parentIterate m i b ≠ none
      ∧ parentIterate m i b = parentIterate m j b := by
  by_cases hrep : ∃ i j, i < j ∧ j ≤ m.length ∧ parentIterate m i b ≠ none
      ∧ parentIterate m i b = parentIterate m j b
  · exact hrep
  exfalso
  push_neg at hrep
  have refute : ∀ n, n ≤ m.length →
      (∀ i, i ≤ n → (parentIterate m i b).isSome = true) →
      (∀ i v, 1 ≤ i → i ≤ n → parentIterate m i b = some v → 0 ≤ v) →
      (∀ i v, i < n → parentIterate m i b = some v → isStarOrRootAt m v = false) →
      (∀ v, parentIterate m n b = some v → isStarOrRootAt m v = true) → False := by
    intro n hn hpath hnn hnostar hhit
    have hdist : ∀ i j, i < j → j ≤ n → parentIterate m i b ≠ parentIterate m j b := by
      intro i j hij hj
      refine hrep i j hij (by omega) ?_
      have hdef := hpath i (by omega)
      intro hcon
      rw [hcon] at hdef
      simp at hdef
    have hall := canReachFuel_of_path m n (m.length + 1) [] b (by omega) hpath hdist
      (fun i v hi hiv => by simp [setContains]) hnn hnostar hhit
    unfold canReachStarOrCenterRoot at hfail
    rw [hall] at hfail
    cases hfail
  have key : ∀ n, n ≤ m.length → ∀ k, k ≤ n → ∃ v, parentIterate m k b = some v
      ∧ amapContains m v = true ∧ isStarOrRootAt m v = false := by
    intro n
    induction n with
    | zero =>
      intro hn k hk
      have hk0 : k = 0 := by omega
      subst hk0
      refine ⟨b, rfl, hb, ?_⟩
      cases hsb : isStarOrRootAt m b with
      | false => rfl
      | true =>
        exfalso
        apply refute 0 (by omega)
        · intro i hi
          have hi0 : i = 0 := by omega
          subst hi0
          rfl
        · intro i v h1 h0 hiv
          omega
        · intro i v hi hiv
          exact absurd hi (Nat.not_lt_zero i)
        · intro v hv
          have hv' : b = v := by simpa [parentIterate] using hv
          rw [← hv']
          exact hsb
    | succ n ih =>
      intro hn k hk
      by_cases hkn : k ≤ n
      · exact ih (by omega) k hkn
      have hk' : k = n + 1 := by omega
      subst hk'
      obtain ⟨v, hv, hvc, hvs⟩ := ih (by omega) n (Nat.le_refl n)
      obtain ⟨body, hl⟩ := lookup_of_amapContains m v hvc
      have hsv : ¬ (body.bodyClass = BodyClass.Star
          ∨ body.id = kExternalVirtualBarycenterMarkerId) := by
        intro hcon
        have hok := (isStarOrRootAt_iff m v).mpr ⟨body, hl, hcon⟩
        rw [hvs] at hok
        cases hok
      rcases hclosed (v, body) (mem_of_amapLookup m v body hl) with hc1 | hc2 | ⟨hpn, hpc⟩
      · exact absurd (Or.inl hc1) hsv
      · exact absurd (Or.inr hc2) hsv
      have hhop : parentHop m v = some body.parentId := by simp [parentHop, hl]
      have hnext : parentIterate m (n + 1) b = some body.parentId := by
        rw [parentIterate_snoc m n b v hv, hhop]
      refine ⟨body.parentId, hnext, hpc, ?_⟩
      cases hsp : isStarOrRootAt m body.parentId with
      | false => rfl
      | true =>
        exfalso
        apply refute (n + 1) hn
        · intro i hi
          by_cases hin : i ≤ n
          · obtain ⟨w, hw, _, _⟩ := ih (by omega) i hin
            rw [hw]; rfl
          · have hieq : i = n + 1 := by omega
            subst hieq
            rw [hnext]; rfl
        · intro i w h1 hiN hiw
          obtain ⟨i', rfl⟩ : ∃ i', i = i' + 1 := ⟨i - 1, by omega⟩
          obtain ⟨u, hu, huc, hus⟩ := ih (by omega) i' (by omega)
          obtain ⟨ubody, hul⟩ := lookup_of_amapContains m u huc
          have hus' : ¬ (ubody.bodyClass = BodyClass.Star
              ∨ ubody.id = kExternalVirtualBarycenterMarkerId) := by
            intro hcon
            have hok := (isStarOrRootAt_iff m u).mpr ⟨ubody, hul, hcon⟩
            rw [hus] at hok
            cases hok
          rcases hclosed (u, ubody) (mem_of_amapLookup m u ubody hul)
            with hc1 | hc2 | ⟨hupn, _⟩
          · exact absurd (Or.inl hc1) hus'
          · exact absurd (Or.inr hc2) hus'
          have hhu : parentHop m u = some ubody.parentId := by simp [parentHop, hul]
          have hiter : parentIterate m (i' + 1) b = some ubody.parentId := by
            rw [parentIterate_snoc m i' b u hu, hhu]
          rw [hiter] at hiw
          injection hiw with hiw
          exact hiw ▸ hupn
        · intro i w hi hiw
          obtain ⟨u, hu, _, hus⟩ := ih (by omega) i (by omega)
          rw [hu] at hiw
          injection hiw with hiw
          exact hiw ▸ hus
        · intro w hw
          rw [hnext] at hw
          injection hw with hw
          exact hw ▸ hsp
  have hcard : ((m.map Prod.fst).toFinset).card < (Finset.range (m.length + 1)).card := by
    have h1 := List.toFinset_card_le (m.map Prod.fst)
    have h2 : (m.map Prod.fst).length = m.length := List.length_map _ _
    rw [Finset.card_range]
    omega
  have hmaps : ∀ n ∈ Finset.range (m.length + 1),
      (parentIterate m n b).getD 0 ∈ (m.map Prod.fst).toFinset := by
    intro n hn
    obtain ⟨v, hv, hvc, _⟩ := key n (by
      have := Finset.mem_range.mp hn
      omega) n (Nat.le_refl n)
    rw [hv]
    simpa using List.mem_toFinset.mpr ((amapContains_iff m v).mp hvc)
  obtain ⟨x, hx, y, hy, hxy, hfe⟩ :=
    Finset.exists_ne_map_eq_of_card_lt_of_maps_to hcard hmaps
  have finish : ∀ x y : Nat, x ∈ Finset.range (m.length + 1) →
      y ∈ Finset.range (m.length + 1) → x < y →
      (parentIterate m x b).getD 0 = (parentIterate m y b).getD 0 → False := by
    intro x y hx hy hlt hfe
    obtain ⟨vx, hvx, _, _⟩ := key x (by
      have := Finset.mem_range.mp hx
      omega) x (Nat.le_refl x)
    obtain ⟨vy, hvy, _, _⟩ := key y (by
      have := Finset.mem_range.mp hy
      omega) y (Nat.le_refl y)
    rw [hvx, hvy] at hfe
    simp at hfe
    refine hrep x y hlt (by
      have := Finset.mem_range.mp hy
      omega) (by rw [hvx]; simp) ?_
    rw [hvx, hvy, hfe]
  rcases Nat.lt_or_ge x y with hlt | hge
  · exact finish x y hx hy hlt hfe
  · have hlt : y < x := by omega
    exact finish y x hy hx hlt hfe.symm

/-- Fold characterization of the validator's overall flag. -/
theorem valFold_fst (m : List (Int × CelestialBody)) :
    ∀ (bodies : List CelestialBody) (acc : Bool × List Diag),
      (bodies.foldl (validateStep m) acc).1
        = (acc.1 && bodies.all
            (fun b => decide (b.id < 0) || canReachStarOrCenterRoot m b.id)) := by
  intro bodies
  induction bodies with
  | nil => intro acc; simp
  | cons b tl ih =>
    intro acc
    rw [List.foldl_cons, ih]
    by_cases hneg : b.id < 0
    · simp [validateStep, hneg]
    · by_cases hcr : canReachStarOrCenterRoot m b.id = true
      · simp [validateStep, hneg, hcr]
      · have hcr' : canReachStarOrCenterRoot m b.id = false := by
          cases hc : canReachStarOrCenterRoot m b.id with
          | false => rfl
          | true => exact absurd hc hcr
        simp [validateStep, hneg, hcr']

/-- Fold characterization of the validator's diagnostics. -/
theorem valFold_snd (m : List (Int × CelestialBody)) :
    ∀ (bodies : List CelestialBody) (acc : Bool × List Diag),
      (bodies.foldl (validateStep m) acc).2
        = acc.2 ++ (bodies.filter
            (fun b => !decide (b.id < 0) && !canReachStarOrCenterRoot m b.id)).map
            (fun b => Diag.unreachableBody b.id) := by
  intro bodies
  induction bodies with
  | nil => intro acc; simp
  | cons b tl ih =>
    intro acc
    rw [List.foldl_cons, ih]
    by_cases hneg : b.id < 0
    · simp [validateStep, hneg]
    · by_cases hcr : canReachStarOrCenterRoot m b.id = true
      · simp [validateStep, hneg, hcr]
      · have hcr' : canReachStarOrCenterRoot m b.id = false := by
          cases hc : canReachStarOrCenterRoot m b.id with
          | false => rfl
          | true => exact absurd hc hcr
        simp [validateStep, hneg, hcr']

/-- C2: the reachability walk is fuel-stable at `m.length + 1` (any larger
fuel computes the same verdict, so the walk never needs more than N distinct
visits), a successful walk exhibits a parent path of at most `m.length` hops
reaching a Star-classed body or the virtual root, the driver's flag is true
exactly when every non-negative-id body reaches, the unreachable-body
diagnostic appears exactly for the failing bodies, and on a closed
(post-graph-closure) map a failing walk on a mapped id always exhibits a
repeated node (parent cycle) within `m.length` hops. -/
theorem c2_reachability_walk (m : List (Int × CelestialBody))
    (bodies : List CelestialBody) (b diagId : Int) :
    (∀ f, m.length + 1 ≤ f → canReachFuel m f [] b = canReachStarOrCenterRoot m b)
    ∧ (canReachStarOrCenterRoot m b = true →
        ∃ n, n ≤ m.length ∧ ∃ p, parentIterate m n b = some p
          ∧ isStarOrRootAt m p = true)
    ∧ ((validateHierarchyCanReachStarOrCenterRoot bodies).1 = true ↔
        ∀ body ∈ bodies, 0 ≤ body.id →
          canReachStarOrCenterRoot (buildBodyById bodies) body.id = true)
    ∧ (Diag.unreachableBody diagId
          ∈ (validateHierarchyCanReachStarOrCenterRoot bodies).2 ↔
        ∃ body ∈ bodies, body.id = diagId ∧ 0 ≤ body.id
          ∧ canReachStarOrCenterRoot (buildBodyById bodies) body.id = false)
    ∧ (closedParentMap m → amapContains m b = true →
        canReachStarOrCenterRoot m b = false →
        ∃ i j, i < j ∧ j ≤ m.length ∧ parentIterate m i b ≠ none
          ∧ parentIterate m i b = parentIterate m j b) := by
  refine ⟨canReachFuel_ge m b, ?_, ?_, ?_, fun hc => cycle_of_unreachable m hc b⟩
  · intro h
    obtain ⟨n, hn, p, hp, hsp⟩ := canReachFuel_true_reach m (m.length + 1) [] b h
    exact ⟨n, by omega, p, hp, hsp⟩
  · unfold validateHierarchyCanReachStarOrCenterRoot
    rw [valFold_fst]
    simp only [Bool.true_and, List.all_eq_true, Bool.or_eq_true, decide_eq_true_eq]
    constructor
    · intro h body hmem hpos
      rcases h body hmem with hneg | hcr
      · omega
      · exact hcr
    · intro h body hmem
      by_cases hneg : body.id < 0
      · exact Or.inl hneg
      · exact Or.inr (h body hmem (by omega))
  · unfold validateHierarchyCanReachStarOrCenterRoot
    rw [valFold_snd]
    simp only [List.nil_append, List.mem_map, List.mem_filter, Bool.and_eq_true,
      Bool.not_eq_true', decide_eq_false_iff_not, Diag.unreachableBody.injEq]
    constructor
    · rintro ⟨body, ⟨hmem, hnneg, hcr⟩, heq⟩
      exact ⟨body, hmem, heq, by omega, hcr⟩
    · rintro ⟨body, hmem, hid, hpos, hcr⟩
      exact ⟨body, ⟨hmem, by omega, hcr⟩, hid⟩

/-- Witness for the C2 theorem at a concrete closed cyclic map: the walk
fails on body 1 of the 1 → 2 → 1 cycle, the theorem yields a repeated node,
and the validator records the unreachable-body diagnostic. -/
theorem c2_reachability_walk_witness :
    closedParentMap c2CycleMap
    ∧ amapContains c2CycleMap 1 = true
    ∧ canReachStarOrCenterRoot c2CycleMap 1 = false
    ∧ (∃ i j, i < j ∧ j ≤ c2CycleMap.length ∧ parentIterate c2CycleMap i 1 ≠ none
        ∧ parentIterate c2CycleMap i 1 = parentIterate c2CycleMap j 1)
    ∧ Diag.unreachableBody 1
        ∈ (validateHierarchyCanReachStarOrCenterRoot c2CycleBodies).2 :=
  ⟨by unfold closedParentMap; decide, by decide, by decide,
   (c2_reachability_walk c2CycleMap c2CycleBodies 1 1).2.2.2.2
     (by unfold closedParentMap; decide) (by decide) (by decide),
   ((c2_reachability_walk c2CycleMap c2CycleBodies 1 1).2.2.2.1).mpr
     ⟨{ id := 1, name := "A", type := "Planet", bodyClass := .Planet, parentId := 2,
        parentRelationType := "Planet" }, by decide, rfl, by decide, by decide⟩⟩
